import Mathlib

/-!
# sofa-mosn: codecs, the xprotocol stream layer, connection pools, the cluster manager

A shallow embedding of

* `pkg/protocol/xprotocol/bolt/protocol.go` (`boltProtocol`: `Decode`, `Trigger`, `Reply`,
  `Hijack`, `Mapping`),
* `pkg/stream/xprotocol/stream.go` (`streamConnection`, `stream`, `streamMap`),
* `pkg/stream/connpool/msgconnpool/connpool.go` (the message pool with auto-reconnect),
* `pkg/stream/http2/connpool.go` (the HTTP/2 pool),
* `pkg/config/parser.go` (`ParseClusterConfig`, `RegisterConfigParsedListener`),
* `pkg/upstream/cluster/clustermanager.go` (`clusterManager`),
* `pkg/protocol/xprotocol/wasm/imports.go` (`proxySetDecodeCommand`), and
* the header rewriting of `pkg/router`, of which the sources hold the tests only.

Machine integers are natural numbers (or integers) reduced modulo `2 ^ w` where the
program converts between widths. Go byte slices are lists of `UInt8`, Go strings are
`String`, Go maps are association lists with replace-on-store semantics.
-/

namespace Mosn

/-- Go `[]byte`; also the readable part of an `IoBuffer`. -/
abbrev Bytes := List UInt8

/-! ## Package `types` and `net/http` -/

namespace http

/-- Go standard library, `net/http`: `StatusOK`. -/
def StatusOK : Nat := 200

end http

namespace types

/-- The proxy-originated status codes of package `types` that `boltProtocol.Mapping`
switches on. Their declarations live outside the files embedded here, so they are taken
as parameters. -/
structure ExceptionCodes where
  RouterUnavailableCode : Nat
  NoHealthUpstreamCode : Nat
  UpstreamOverFlowCode : Nat
  CodecExceptionCode : Nat
  DeserialExceptionCode : Nat
  TimeoutExceptionCode : Nat

/-- The case constants of the `switch` in `Mapping`, in source order. Go rejects a
`switch` with duplicate integer case constants at compile time, so every admissible
choice of the codes makes this list duplicate-free. -/
def ExceptionCodes.cases (c : ExceptionCodes) : List Nat :=
  [http.StatusOK, c.RouterUnavailableCode, c.NoHealthUpstreamCode, c.UpstreamOverFlowCode,
   c.CodecExceptionCode, c.DeserialExceptionCode, c.TimeoutExceptionCode]

end types

/-! ## Package `bolt` -/

namespace bolt

/-- Constants of package `bolt` for which neither `protocol.go` nor the wire-format
description fixes a value; they are parameters of the embedding. -/
structure Consts where
  ProtocolVersion : Nat
  CmdCodeHeartbeat : Nat
  CmdCodeRpcResponse : Nat
  Hessian2Serialize : Nat
  LessLen : Nat
  UnKnownCmdType : String

/-- Modelled from the spec: `proto (0x01 for bolt v1)`; the declaration of `ProtocolCode`
is not in `protocol.go`. -/
def ProtocolCode : Nat := 1

/-- Modelled from the spec: `cmd_type (0=Response,1=Request,2=OnewayRequest)`; the
declaration of `CmdTypeResponse` is not in `protocol.go`. -/
def CmdTypeResponse : UInt8 := 0

/-- Modelled from the spec: `cmd_type (0=Response,1=Request,2=OnewayRequest)`. -/
def CmdTypeRequest : UInt8 := 1

/-- Modelled from the spec: `cmd_type (0=Response,1=Request,2=OnewayRequest)`. -/
def CmdTypeRequestOneway : UInt8 := 2

/-- Modelled from the spec: status codes `0 Success, 1 Error, 2 ServerException,
3 Unknown, 4 ServerThreadpoolBusy, 5 ErrorComm, 6 NoProcessor, 7 Timeout,
8 ClientSendError, 9 CodecException, 10 ConnectionClosed, 11 ServerSerialException,
12 ServerDeserialException`; the declarations are not in `protocol.go`. -/
def ResponseStatusSuccess : Nat := 0

/-- Modelled from the spec: status code `3 Unknown`. -/
def ResponseStatusUnknown : Nat := 3

/-- Modelled from the spec: status code `4 ServerThreadpoolBusy`. -/
def ResponseStatusServerThreadpoolBusy : Nat := 4

/-- Modelled from the spec: status code `6 NoProcessor`. -/
def ResponseStatusNoProcessor : Nat := 6

/-- Modelled from the spec: status code `7 Timeout`. -/
def ResponseStatusTimeout : Nat := 7

/-- Modelled from the spec: status code `9 CodecException`. -/
def ResponseStatusCodecException : Nat := 9

/-- Modelled from the spec: status code `10 ConnectionClosed`. -/
def ResponseStatusConnectionClosed : Nat := 10

/-- Modelled from the spec: status code `12 ServerDeserialException`. -/
def ResponseStatusServerDeserialException : Nat := 12

/-- Modelled from the spec: the request header of the bolt wire format
(`proto` 1 byte, `cmd_type` 1, `cmd_code` 2, `version` 1, `request_id` u32, `codec` 1,
`timeout_ms` i32, `class_len` u16, `header_len` u16, `content_len` u32) followed by the
payload fields class and header block; the struct declaration is not in `protocol.go`.
Every numeric field holds a value of its width. -/
structure RequestHeader where
  Protocol : Nat := 0
  CmdType : UInt8 := 0
  CmdCode : Nat := 0
  Version : Nat := 0
  RequestId : Nat := 0
  Codec : Nat := 0
  Timeout : Int := 0
  ClassLen : Nat := 0
  HeaderLen : Nat := 0
  ContentLen : Nat := 0
  Class : String := ""
  BytesHeader : List (Bytes × Bytes) := []
  deriving DecidableEq, Repr

/-- Modelled from the spec: a bolt request frame, its header plus the content buffer
(`nil`, the zero value, is the empty content). -/
structure Request where
  RequestHeader : RequestHeader := {}
  Content : Bytes := []
  deriving DecidableEq, Repr

/-- Modelled from the spec: the response header of the bolt wire format (`resp_status`
is a u16 in place of the request's timeout). -/
structure ResponseHeader where
  Protocol : Nat := 0
  CmdType : UInt8 := 0
  CmdCode : Nat := 0
  Version : Nat := 0
  RequestId : Nat := 0
  Codec : Nat := 0
  ResponseStatus : Nat := 0
  ClassLen : Nat := 0
  HeaderLen : Nat := 0
  ContentLen : Nat := 0
  Class : String := ""
  BytesHeader : List (Bytes × Bytes) := []
  deriving DecidableEq, Repr

/-- Modelled from the spec: a bolt response frame. -/
structure Response where
  ResponseHeader : ResponseHeader := {}
  Content : Bytes := []
  deriving DecidableEq, Repr

/-- Modelled from the spec: the frame's `request_id: u64`, the 32-bit header field
widened (`uint64(r.RequestHeader.RequestId)`). -/
def Request.GetRequestId (r : Request) : Nat := r.RequestHeader.RequestId % 2 ^ 64

/-- Modelled from the spec: the frame's `request_id: u64`, the 32-bit header field
widened. -/
def Response.GetRequestId (r : Response) : Nat := r.ResponseHeader.RequestId % 2 ^ 64

/-- Modelled from the spec: for responses a `status: u32`, the 16-bit header field
widened (`uint32(r.ResponseStatus)`). -/
def Response.GetStatusCode (r : Response) : Nat := r.ResponseHeader.ResponseStatus % 2 ^ 32

/-- What `Decode` hands back as `interface{}`: one of the codec's two frame kinds. -/
inductive XFrame where
  | Request (r : Request)
  | Response (r : Response)
  deriving DecidableEq, Repr

/-- A Go `error` value: the decode error built by `fmt.Errorf("Decode Error, type = %s,
value = %d", ...)`, kept as its two arguments, or any other error. -/
inductive GoError where
  | DecodeError (kind : String) (value : UInt8)
  | Other (msg : String)
  deriving DecidableEq, Repr

/-- The two results of `Decode` together with the unread bytes the input buffer holds
afterwards. -/
structure DecodeResult where
  frame : Option XFrame
  err : Option GoError
  data : Bytes
  deriving DecidableEq, Repr

/-- `boltProtocol.Decode`. `decodeRequest` and `decodeResponse` are defined outside
`protocol.go` and are parameters. `Except.error` is a Go run-time error (the index
expression `data.Bytes()[1]` on a buffer shorter than two bytes). -/
def Decode (c : Consts)
    (decodeRequest : Bytes → Bool → Except String DecodeResult)
    (decodeResponse : Bytes → Except String DecodeResult)
    (data : Bytes) : Except String DecodeResult :=
  if data.length ≥ c.LessLen then
    match data[1]? with
    | none => .error "index out of range [1]"
    | some cmdType =>
      if cmdType = CmdTypeRequest then decodeRequest data false
      else if cmdType = CmdTypeRequestOneway then decodeRequest data true
      else if cmdType = CmdTypeResponse then decodeResponse data
      else .ok { frame := none, err := some (.DecodeError c.UnKnownCmdType cmdType), data := data }
  else
    .ok { frame := none, err := none, data := data }

/-- `boltProtocol.Trigger`: the heartbeat request. `uint32(requestId)` keeps the low 32
bits. -/
def Trigger (c : Consts) (requestId : Nat) : Request :=
  { RequestHeader :=
      { Protocol := ProtocolCode
        CmdType := CmdTypeRequest
        CmdCode := c.CmdCodeHeartbeat
        Version := 1
        RequestId := requestId % 2 ^ 32
        Codec := c.Hessian2Serialize
        Timeout := -1 } }

/-- `boltProtocol.Reply`: the heartbeat response. -/
def Reply (c : Consts) (requestId : Nat) : Response :=
  { ResponseHeader :=
      { Protocol := ProtocolCode
        CmdType := CmdTypeResponse
        CmdCode := c.CmdCodeHeartbeat
        Version := c.ProtocolVersion
        RequestId := requestId % 2 ^ 32
        Codec := c.Hessian2Serialize
        ResponseStatus := ResponseStatusSuccess } }

/-- `boltProtocol.Hijack`: the proxy-originated response. `uint16(statusCode)` keeps the
low 16 bits. -/
def Hijack (c : Consts) (statusCode : Nat) : Response :=
  { ResponseHeader :=
      { Protocol := ProtocolCode
        CmdType := CmdTypeResponse
        CmdCode := c.CmdCodeRpcResponse
        Version := c.ProtocolVersion
        RequestId := 0
        Codec := c.Hessian2Serialize
        ResponseStatus := statusCode % 2 ^ 16 } }

/-- `boltProtocol.Mapping`: a Go `switch` takes the first case equal to the tag. -/
def Mapping (t : types.ExceptionCodes) (httpStatusCode : Nat) : Nat :=
  if httpStatusCode = http.StatusOK then ResponseStatusSuccess
  else if httpStatusCode = t.RouterUnavailableCode then ResponseStatusNoProcessor
  else if httpStatusCode = t.NoHealthUpstreamCode then ResponseStatusConnectionClosed
  else if httpStatusCode = t.UpstreamOverFlowCode then ResponseStatusServerThreadpoolBusy
  else if httpStatusCode = t.CodecExceptionCode then ResponseStatusCodecException
  else if httpStatusCode = t.DeserialExceptionCode then ResponseStatusServerDeserialException
  else if httpStatusCode = t.TimeoutExceptionCode then ResponseStatusTimeout
  else ResponseStatusUnknown

/-- The values the released `bolt` package gives the parameters of `Consts`. -/
def exampleConsts : Consts :=
  { ProtocolVersion := 1
    CmdCodeHeartbeat := 0
    CmdCodeRpcResponse := 2
    Hessian2Serialize := 1
    LessLen := 20
    UnKnownCmdType := "unknown cmd type" }

end bolt

namespace types

/-- A concrete, duplicate-free choice of the exception codes (HTTP-like values). -/
def exampleCodes : ExceptionCodes :=
  { RouterUnavailableCode := 404
    NoHealthUpstreamCode := 502
    UpstreamOverFlowCode := 503
    CodecExceptionCode := 0
    DeserialExceptionCode := 3
    TimeoutExceptionCode := 504 }

end types

/-! ## Package `xprotocol` (stream layer) -/

namespace xprotocol

/-- A Go map with string keys (also `sync.Map` as used here): an association list in
which the first entry of a key is the live one. -/
abbrev GoMap (β : Type) := List (String × β)

/-- Map lookup `v, ok := m[key]` (`sync.Map.Load`). -/
def GoMap.Load {β : Type} : GoMap β → String → Option β
  | [], _ => none
  | (k, v) :: m, key => if k = key then some v else GoMap.Load m key

/-- Deletion `delete(m, key)`. -/
def GoMap.Delete {β : Type} (m : GoMap β) (key : String) : GoMap β :=
  m.filter (fun p => p.1 ≠ key)

/-- Assignment `m[key] = v` (`sync.Map.Store`): the key's old entry is replaced. -/
def GoMap.Store {β : Type} (m : GoMap β) (key : String) (v : β) : GoMap β :=
  (key, v) :: GoMap.Delete m key

/-- A `map[string]string` of headers. -/
abbrev Headers := GoMap String

/-- The loop `for k, v := range src then dst[k] = v`. -/
def Headers.merge (dst src : Headers) : Headers :=
  src.foldr (fun kv acc => GoMap.Store acc kv.1 kv.2) dst

/-- The sub-protocol codec of a stream connection: `types.Multiplexing` (`SplitFrame`,
`GetStreamId`, `SetStreamId`) and the interfaces the codec may implement in addition,
`types.ProtocolConvertor` (`Convert`), `types.RequestRouting` (`GetMetas`) and
`types.Tracing` (`GetServiceName`, `GetMethodName`); `none` is a failed type
assertion. -/
structure Codec where
  SplitFrame : Bytes → List Bytes
  GetStreamId : Bytes → String
  SetStreamId : Bytes → String → Bytes
  Convert : Option (Bytes → Headers × Bytes) := none
  GetMetas : Option (Bytes → Headers) := none
  Tracing : Option ((Bytes → String) × (Bytes → String)) := none

/-- Header keys used by `Dispatch`, declared in other packages:
`strings.ToLower(protocol.MosnHeaderHostKey)`, `strings.ToLower(protocol.MosnHeaderPathKey)`,
`types.HeaderRpcService` and `types.HeaderRpcMethod`. -/
structure HeaderKeys where
  host : String
  path : String
  rpcService : String
  rpcMethod : String

/-- `StreamDirection`: `ClientStream = 0` (xprotocol as upstream), `ServerStream = 1`
(xprotocol as downstream). -/
inductive StreamDirection where
  | ClientStream
  | ServerStream
  deriving DecidableEq, Repr

/-- The struct `stream`. A `types.StreamReceiver` and a `types.StreamEventListener` are
identified by a number; `encodedData` is `none` while the field is `nil`. The field
`connection` is the connection the stream was created by and is passed alongside the
stream to every method. -/
structure stream where
  streamID : String
  direction : StreamDirection
  decoder : Nat := 0
  streamCbs : List Nat := []
  encodedData : Option Bytes := none
  reqId : String := ""
  deriving DecidableEq, Repr

/-- The struct `streamMap`: `smap` holds `stream` values, so `Set` stores a copy of its
argument and `Get` returns a copy of the entry. -/
structure streamMap where
  smap : GoMap stream := []
  deriving DecidableEq, Repr

/-- `streamMap.Has`. -/
def streamMap.Has (m : streamMap) (streamID : String) : Bool :=
  (GoMap.Load m.smap streamID).isSome

/-- `streamMap.Get`: `some s` is `(s, true)`, `none` is `(stream{}, false)`. -/
def streamMap.Get (m : streamMap) (streamID : String) : Option stream :=
  GoMap.Load m.smap streamID

/-- `streamMap.Remove`. -/
def streamMap.Remove (m : streamMap) (streamID : String) : streamMap :=
  { smap := GoMap.Delete m.smap streamID }

/-- `streamMap.Set`. -/
def streamMap.Set (m : streamMap) (streamID : String) (s : stream) : streamMap :=
  { smap := GoMap.Store m.smap streamID s }

/-- What a stream connection does to its collaborators, in order: calls of a stream
receiver, of the server callbacks, of a stream event listener, and writes to the
underlying connection (`none` is a `nil` buffer). -/
inductive Event where
  | OnReceiveHeaders (decoder : Nat) (headers : Headers) (endStream : Bool)
  | OnReceiveData (decoder : Nat) (data : Bytes) (endStream : Bool)
  | NewStream (streamID : String) (sender : stream)
  | OnResetStream (cb : Nat) (reason : Nat)
  | Write (data : Option Bytes)
  deriving DecidableEq, Repr

/-- The struct `streamConnection`. `clientCallbacks` records whether the field is
non-nil; `serverCallbacks` is `none` when nil and otherwise gives the receiver that
`serverCallbacks.NewStream` returns for a stream id. `remoteAddr` is
`connection.RemoteAddr().String()`. `events` is the trace of calls made so far. -/
structure streamConnection where
  codec : Codec
  remoteAddr : String := ""
  activeStream : streamMap := {}
  clientCallbacks : Bool := false
  serverCallbacks : Option (String → Nat) := none
  streamIdMap : GoMap String := []
  reqIdMap : GoMap String := []
  events : List Event := []

/-- Go standard library: `strconv.FormatUint(n, 10)`. -/
def FormatUint (n : Nat) : String := Nat.repr n

/-- Value of a decimal digit string (inverse of `FormatUint`). -/
def ParseUint (s : String) : Nat :=
  s.data.foldl (fun acc c => 10 * acc + (c.toNat - 48)) 0

/-- Modelled from the spec: `drain(n)` advances the read cursor of an `IoBuffer`; the
buffer type is declared outside `stream.go`. -/
def Drain (buffer : Bytes) (n : Nat) : Bytes := buffer.drop n

/-- `streamConnection.changeStreamId`. `count` is the package variable
`streamIDXprotocolCount` (a `uint64`); the result carries its new value. -/
def changeStreamId (conn : streamConnection) (count : Nat) (request : Bytes) :
    (String × Bytes) × Nat :=
  let nStreamId := (count + 1) % 2 ^ 64
  let streamId := FormatUint nStreamId
  let nReq := conn.codec.SetStreamId request streamId
  let streamId := conn.codec.GetStreamId nReq
  ((streamId, nReq), nStreamId)

/-- `streamConnection.NewStream`: returns the new stream (the object behind the returned
pointer) and the connection, whose table now holds a copy of it. -/
def NewStream (conn : streamConnection) (streamID : String) (responseDecoder : Nat) :
    stream × streamConnection :=
  let stream : stream :=
    { streamID := streamID, direction := .ClientStream, decoder := responseDecoder }
  (stream, { conn with activeStream := conn.activeStream.Set streamID stream })

/-- `streamConnection.onNewStreamDetected`. -/
def onNewStreamDetected (conn : streamConnection) (newStream : String → Nat)
    (streamID : String) (_headers : Headers) : streamConnection :=
  if conn.activeStream.Has streamID then conn
  else
    let stream : stream := { streamID := streamID, direction := .ServerStream }
    let stream := { stream with decoder := newStream streamID }
    { conn with
      events := conn.events ++ [Event.NewStream streamID stream]
      activeStream := conn.activeStream.Set streamID stream }

/-- `streamConnection.OnReceiveHeaders` (its result is always `types.Continue`). -/
def OnReceiveHeaders (conn : streamConnection) (streamID : String) (headers : Headers) :
    streamConnection :=
  let conn := match conn.serverCallbacks with
    | some newStream => onNewStreamDetected conn newStream streamID headers
    | none => conn
  match conn.activeStream.Get streamID with
  | some stream =>
    { conn with events := conn.events ++ [Event.OnReceiveHeaders stream.decoder headers false] }
  | none => conn

/-- `streamConnection.OnReceiveData` (its result is always `types.StopIteration`). -/
def OnReceiveData (conn : streamConnection) (streamID : String) (data : Bytes) :
    streamConnection :=
  match conn.activeStream.Get streamID with
  | some stream =>
    let data :=
      if stream.direction = .ClientStream then conn.codec.SetStreamId data stream.reqId
      else data
    let conn := { conn with events := conn.events ++ [Event.OnReceiveData stream.decoder data true] }
    if stream.direction = .ClientStream then
      { conn with activeStream := conn.activeStream.Remove stream.streamID }
    else conn
  | none => conn

/-- The state threaded through the loop of `Dispatch`: the connection, the package
counter and the input buffer. -/
structure DispatchState where
  conn : streamConnection
  count : Nat
  buffer : Bytes

/-- One iteration of the loop in `streamConnection.Dispatch`, for the frame `request`. -/
def Dispatch.body (k : HeaderKeys) (st : DispatchState) (request : Bytes) : DispatchState :=
  let conn := st.conn
  let headers : Headers := GoMap.Store (GoMap.Store [] k.host conn.remoteAddr) k.path "/"
  let requestLen := request.length
  let (headers, request) := match conn.codec.Convert with
    | some convert => convert request
    | none => (headers, request)
  let (streamId, request, headers, conn, count) :=
    if conn.serverCallbacks.isSome then
      let reqId := conn.codec.GetStreamId request
      let r := changeStreamId conn st.count request
      let streamId := r.1.1
      let request := r.1.2
      let conn := { conn with reqIdMap := GoMap.Store conn.reqIdMap streamId reqId }
      let headers := match conn.codec.GetMetas with
        | some getMetas => Headers.merge headers (getMetas request)
        | none => headers
      (streamId, request, headers, conn, r.2)
    else if conn.clientCallbacks then
      let tmpStreamId := conn.codec.GetStreamId request
      match GoMap.Load conn.streamIdMap tmpStreamId with
      | some value => (value, request, headers, conn, st.count)
      | none => ("", request, headers, conn, st.count)
    else ("", request, headers, conn, st.count)
  let headers := match conn.codec.Tracing with
    | some (getServiceName, getMethodName) =>
      GoMap.Store (GoMap.Store headers k.rpcService (getServiceName request))
        k.rpcMethod (getMethodName request)
    | none => headers
  let conn := OnReceiveHeaders conn streamId headers
  let conn := OnReceiveData conn streamId request
  { conn := conn, count := count, buffer := Drain st.buffer requestLen }

/-- `streamConnection.Dispatch`: the frames are split off the buffer once, then handled
in order. -/
def Dispatch (k : HeaderKeys) (conn : streamConnection) (count : Nat) (buffer : Bytes) :
    DispatchState :=
  (conn.codec.SplitFrame buffer).foldl (Dispatch.body k)
    { conn := conn, count := count, buffer := buffer }

/-- `stream.AddEventListener`. -/
def AddEventListener (s : stream) (cb : Nat) : stream :=
  { s with streamCbs := s.streamCbs ++ [cb] }

/-- `stream.RemoveEventListener`: removes the first occurrence of `cb`. -/
def RemoveEventListener (s : stream) (cb : Nat) : stream :=
  { s with streamCbs := s.streamCbs.erase cb }

/-- `stream.ResetStream`. -/
def ResetStream (conn : streamConnection) (s : stream) (reason : Nat) : streamConnection :=
  { conn with events := conn.events ++ s.streamCbs.map (fun cb => Event.OnResetStream cb reason) }

/-- `stream.endStream`: `s` is the object the method is called on, `conn` its
connection. -/
def endStream (conn : streamConnection) (s : stream) : streamConnection :=
  let conn :=
    match conn.activeStream.Get s.streamID with
    | some _ => { conn with events := conn.events ++ [Event.Write s.encodedData] }
    | none => conn
  if s.direction = .ServerStream then
    { conn with activeStream := conn.activeStream.Remove s.streamID }
  else conn

/-- `stream.AppendHeaders`. -/
def AppendHeaders (conn : streamConnection) (s : stream) (endStreamFlag : Bool) :
    streamConnection :=
  if endStreamFlag then endStream conn s else conn

/-- `stream.AppendData`: returns the stream object after the call, the connection and
the package counter. -/
def AppendData (conn : streamConnection) (count : Nat) (s : stream) (data : Bytes)
    (endStreamFlag : Bool) : stream × streamConnection × Nat :=
  let (s, conn, count) :=
    if s.direction = .ClientStream then
      let buf := data
      let s := { s with reqId := conn.codec.GetStreamId buf }
      let r := changeStreamId conn count buf
      let streamId := r.1.1
      let buf := r.1.2
      let conn := { conn with streamIdMap := GoMap.Store conn.streamIdMap streamId s.streamID }
      ({ s with encodedData := some buf }, conn, r.2)
    else
      let streamId := conn.codec.GetStreamId data
      match GoMap.Load conn.reqIdMap streamId with
      | some reqId => ({ s with encodedData := some (conn.codec.SetStreamId data reqId) }, conn, count)
      | none => (s, conn, count)
  if endStreamFlag then (s, endStream conn s, count) else (s, conn, count)

/-- `stream.AppendTrailers`. -/
def AppendTrailers (conn : streamConnection) (s : stream) : streamConnection :=
  endStream conn s

/-- A run of `changeStreamId` calls in the given order over the shared package counter,
each call on its own connection and frame: the ids returned, in call order, and the
final counter. -/
def allocate : Nat → List (streamConnection × Bytes) → List String × Nat
  | count, [] => ([], count)
  | count, (conn, request) :: calls =>
    let r := changeStreamId conn count request
    let rest := allocate r.2 calls
    (r.1.1 :: rest.1, rest.2)

/-! ### A concrete codec

Frames of the example codec are the stream id, each character as the byte 1 followed by
its code point in three big-endian bytes, then the byte 0, then the payload. -/

/-- Wire form of a stream id, terminator included. -/
def exampleCodec.encodeId : List Char → Bytes
  | [] => [0]
  | c :: cs =>
    1 :: UInt8.ofNat (c.toNat / 65536) :: UInt8.ofNat (c.toNat / 256 % 256)
      :: UInt8.ofNat (c.toNat % 256) :: exampleCodec.encodeId cs

/-- The stream id at the head of a frame. -/
def exampleCodec.decodeId : Bytes → List Char
  | t :: a :: b :: c :: rest =>
    if t = 1 then
      Char.ofNat (a.toNat * 65536 + b.toNat * 256 + c.toNat) :: exampleCodec.decodeId rest
    else []
  | _ => []

/-- The bytes of a frame after its stream id. -/
def exampleCodec.payload : Bytes → Bytes
  | t :: a :: b :: c :: rest =>
    if t = 1 then exampleCodec.payload rest else a :: b :: c :: rest
  | _ :: rest => rest
  | [] => []

/-- The example codec: a non-empty buffer is one frame. -/
def exampleCodec : Codec :=
  { SplitFrame := fun b => if b = [] then [] else [b]
    GetStreamId := fun b => String.mk (exampleCodec.decodeId b)
    SetStreamId := fun b id => exampleCodec.encodeId id.data ++ exampleCodec.payload b }

/-- Header keys for the examples. -/
def exampleKeys : HeaderKeys :=
  { host := "x-mosn-host", path := "x-mosn-path", rpcService := "service", rpcMethod := "method" }

/-- A client-role connection (only `clientCallbacks` set) over the example codec. -/
def exampleClient : streamConnection :=
  { codec := exampleCodec, remoteAddr := "10.0.0.1:80", clientCallbacks := true }

/-- A server-role connection over the example codec whose server callbacks hand out the
receiver 5 for every stream. -/
def exampleServer : streamConnection :=
  { codec := exampleCodec, remoteAddr := "10.0.0.2:1234", serverCallbacks := some (fun _ => 5) }

/-- Example request frame: stream id 42 in front of the payload byte 9. -/
def exampleRequest : Bytes := exampleCodec.SetStreamId [0, 9] "42"

/-- Example response frame: stream id 100 in front of the payload byte 5. -/
def exampleResponse : Bytes := exampleCodec.SetStreamId [0, 5] "100"

/-- A complete client-role exchange: `NewStream` for the proxy stream 1 with receiver 7,
`AppendData` of `exampleRequest` (package counter at 99, so the wire id becomes 100), then
`Dispatch` of `exampleResponse`, the upstream's answer to wire id 100. -/
def exampleExchange : DispatchState :=
  let created := NewStream exampleClient "1" 7
  let sent := AppendData created.2 99 created.1 exampleRequest true
  Dispatch exampleKeys sent.2.1 sent.2.2 exampleResponse

/-! ### Predicates used in the statements -/

/-- The codec law the stream layer relies on: reading the id of a frame whose id was just
set gives that id. -/
def Lawful (codec : Codec) : Prop :=
  ∀ (b : Bytes) (id : String), codec.GetStreamId (codec.SetStreamId b id) = id

/-- The frame `Dispatch` works on after the `ProtocolConvertor` step: `newData` of
`Convert(request)` if the codec is a convertor, else the frame itself. -/
def converted (codec : Codec) (request : Bytes) : Bytes :=
  match codec.Convert with
  | some convert => (convert request).2
  | none => request

/-- Every stream of the table is stored under its own `streamID`. -/
def Keyed (m : streamMap) : Prop :=
  ∀ (key : String) (s : stream), m.Get key = some s → s.streamID = key

end xprotocol

/-! ## Package `mosn.io/api` -/

namespace api

/-- The connection events of `api.ConnectionEvent`. -/
inductive ConnectionEvent where
  | RemoteClose
  | LocalClose
  | OnReadErrClose
  | OnWriteErrClose
  | OnConnect
  | Connected
  | ConnectTimeout
  | ConnectFailed
  | OnReadTimeout
  | OnWriteTimeout
  deriving DecidableEq, Repr

/-- `ConnectionEvent.IsClose`, as quoted in `msgconnpool`: `ce == LocalClose ||
ce == RemoteClose || ce == OnReadErrClose || ce == OnWriteErrClose ||
ce == OnWriteTimeout`. -/
def ConnectionEvent.IsClose (ce : ConnectionEvent) : Bool :=
  ce = .LocalClose || ce = .RemoteClose || ce = .OnReadErrClose || ce = .OnWriteErrClose
    || ce = .OnWriteTimeout

/-- The connection states of `api.ConnState`. -/
inductive ConnState where
  | ConnInit
  | ConnActive
  | ConnClosed
  deriving DecidableEq, Repr

end api

/-! ## Package `msgconnpool` -/

namespace msgconnpool

/-- Go standard library: `time.Second`, a `time.Duration` in nanoseconds. -/
def Second : Nat := 1000000000

/-- Go standard library: `math.MaxInt32`. -/
def MaxInt32 : Int := 2147483647

/-- The variable `reconnectBackoff`. -/
def reconnectBackoff : List Nat := [0, Second, Second * 2, Second * 5, Second * 10]

/-- A `types.ConnectionEventListener` registered on a connection: the pool's
`activeClient` or a `keepAliveListener` (with its `KeepAlive`, `none` when nil). -/
inductive Listener where
  | activeClient
  | keepAliveListener (keepAlive : Option Nat)
  deriving DecidableEq, Repr

/-- A connection made by `Host().CreateConnection`, as far as the pool acts on it: its
`State()`, the event listeners and read filters added to it, and the buffers written to
it. Connections are numbered in creation order. -/
structure Connection where
  state : api.ConnState := .ConnInit
  listeners : List Listener := []
  readFilters : List Nat := []
  written : List (List Bytes) := []
  deriving DecidableEq, Repr

/-- The struct `keepAliveListener`: a `KeepAlive` (`none` when nil) and the number of its
connection. -/
structure keepAliveListener where
  keepAlive : Option Nat
  conn : Nat
  deriving DecidableEq, Repr

/-- The struct `activeClient`. `connData` is the number of the stored connection, `none`
before the first `Store`. The field `pool` is the pool the client lives in. -/
structure activeClient where
  connData : Option Nat := none
  keepAlive : Option keepAliveListener := none
  connectTryTimes : Int := 0
  deriving DecidableEq, Repr

/-- What the pool does to its surroundings, in order: `time.Sleep`, `Connect` on a
connection with its outcome, `Close` of a connection with the given event, and `Stop` of
a `KeepAlive`. -/
inductive Effect where
  | Sleep (d : Nat)
  | Connect (conn : Nat) (ok : Bool)
  | Close (conn : Nat) (event : api.ConnectionEvent)
  | Stop (keepAlive : Nat)
  deriving DecidableEq, Repr

/-- The struct `connpool` together with what it points to. `client` is `true` while
`p.client` is non-nil; it then points to `ac`, the one `activeClient` made by
`initActiveClient`, which keeps receiving events after `removeFromPool`.
`heartBeatCreator` is the `KeepAlive` that `heartBeatCreator()` returns. `conns` are the
connections created so far and `trace` the effects so far. -/
structure connpool where
  client : Bool := false
  ac : activeClient := {}
  hostAddr : String
  autoReconnectWhenClose : Bool
  heartBeatCreator : Option Nat
  connTryTimes : Int
  readFilters : List Nat
  destroyed : Nat := 0
  conns : List Connection := []
  trace : List Effect := []
  deriving DecidableEq, Repr

/-- Update of the connection numbered `conn`. -/
def connpool.onConn (p : connpool) (conn : Nat) (f : Connection → Connection) : connpool :=
  { p with conns := p.conns.set conn (f (p.conns.getD conn {})) }

/-- `Connection.State()` of the connection numbered `conn`. -/
def connpool.State (p : connpool) (conn : Nat) : api.ConnState :=
  (p.conns.getD conn {}).state

/-- `Connection.Close(api.NoFlush, event)` on the connection numbered `conn`. -/
def connpool.Close (p : connpool) (conn : Nat) (event : api.ConnectionEvent) : connpool :=
  { p.onConn conn (fun c => { c with state := .ConnClosed }) with
    trace := p.trace ++ [Effect.Close conn event] }

/-- `activeClient.getConnData`. -/
def getConnData (p : connpool) : Option Nat := p.ac.connData

/-- `activeClient.removeFromPool`. -/
def removeFromPool (p : connpool) : connpool := { p with client := false }

/-- `activeClient.setHeartBeater`. At its only call site `getConnData()` is the
connection just stored; on a nil `connData` the method would fail with a nil
dereference, which is left as the unchanged pool. -/
def setHeartBeater (p : connpool) (hb : Option Nat) : connpool :=
  let p :=
    match p.ac.keepAlive with
    | some l =>
      match l.keepAlive with
      | some k => { p with trace := p.trace ++ [Effect.Stop k], ac := { p.ac with keepAlive := none } }
      | none => p
    | none => p
  match getConnData p with
  | some conn =>
    let p := { p with ac := { p.ac with keepAlive := some { keepAlive := hb, conn := conn } } }
    p.onConn conn (fun c => { c with listeners := c.listeners ++ [Listener.keepAliveListener hb] })
  | none => p

/-- The loop of `initConnection` over `ac.pool.readFilters`: every read filter is added,
in order, to the connection numbered `conn`. -/
def addReadFilters (p : connpool) (conn : Nat) : connpool :=
  p.readFilters.foldl
    (fun p rf => p.onConn conn (fun c => { c with readFilters := c.readFilters ++ [rf] })) p

/-- The part of `activeClient.initConnection` after `Connect()` returned no error, for
the new connection numbered `conn`. -/
def initConnection.connected (p : connpool) (conn : Nat) : connpool :=
  let p := { p with ac := { p.ac with connData := some conn } }
  if p.destroyed = 1 then p.Close conn .LocalClose
  else
    let p := addReadFilters p conn
    let p := setHeartBeater p p.heartBeatCreator
    { p with ac := { p.ac with connectTryTimes := 0 } }

/-- `activeClient.initConnection`. `connectOk` tells whether `Connect()` on the new
connection returns no error; a connected connection is in state `ConnActive`. -/
def initConnection (p : connpool) (connectOk : Bool) : connpool :=
  let conn := p.conns.length
  let created : Connection := { listeners := [Listener.activeClient] }
  let p : connpool := { p with conns := p.conns ++ [created] }
  let p : connpool := { p with trace := p.trace ++ [Effect.Connect conn connectOk] }
  if !connectOk then
    if getConnData p = none then { p with ac := { p.ac with connData := some conn } }
    else p
  else
    initConnection.connected (p.onConn conn (fun c => { c with state := .ConnActive })) conn

/-- The index computed by `reconnect` from the try count. -/
def reconnect.idx (connectTryTimes : Int) : Int :=
  if connectTryTimes ≥ reconnectBackoff.length then (reconnectBackoff.length : Int) - 1
  else connectTryTimes

/-- The index expression `reconnectBackoff[idx]`; `none` is an index out of range. -/
def reconnect.backoff (idx : Int) : Option Nat :=
  if idx < 0 then none else reconnectBackoff[idx.toNat]?

/-- The part of `activeClient.reconnect` that runs in its caller: the look at
`destroyed`, the guard on the try count and the index into `reconnectBackoff`. The
result is the index with which the function given to `utils.GoWithRecover` is started,
`none` when `reconnect` returns before. -/
def reconnect.start (p : connpool) : Option Int :=
  if p.destroyed = 1 then none
  else if p.ac.connectTryTimes ≥ p.connTryTimes then none
  else some (reconnect.idx p.ac.connectTryTimes)

/-- The function that `reconnect` starts with `utils.GoWithRecover`, with the index it
has captured, run from its start to its end under `reconnectLock`: `time.Sleep`, the
increment of the try count (a 64-bit `int`, which no execution of fewer than `2 ^ 63`
attempts overflows), the second look at `destroyed`, and `initConnection` with the
outcome `connectOk` of its `Connect()`. A failing index expression is recovered by
`GoWithRecover` and only logged. -/
def reconnect.goroutine (p : connpool) (idx : Int) (connectOk : Bool) : connpool :=
  match reconnect.backoff idx with
  | none => p
  | some d =>
    let p := { p with trace := p.trace ++ [Effect.Sleep d] }
    let p := { p with ac := { p.ac with connectTryTimes := p.ac.connectTryTimes + 1 } }
    if p.destroyed = 1 then p
    else initConnection p connectOk

/-- `activeClient.reconnect` together with the function it starts, when that function
runs to its end before anything else happens to the pool: `reconnect.start`, then
`reconnect.goroutine`. Executions in which events come in between are those of
`Scheduled`. -/
def reconnect (p : connpool) (connectOk : Bool) : connpool :=
  match reconnect.start p with
  | none => p
  | some idx => reconnect.goroutine p idx connectOk

/-- `activeClient.OnEvent` together with the function that its `reconnect` may start,
run to its end at once. `connectOk` is the outcome of the `Connect()` made if the event
leads to a reconnect attempt. -/
def OnEvent (p : connpool) (event : api.ConnectionEvent) (connectOk : Bool) : connpool :=
  let reconn : Bool :=
    match event with
    | .RemoteClose => true
    | .OnReadErrClose | .OnWriteErrClose | .OnWriteTimeout | .ConnectTimeout
    | .ConnectFailed | .LocalClose => true
    | _ => false
  if reconn then
    if p.autoReconnectWhenClose then reconnect p connectOk
    else removeFromPool p
  else p

/-- `activeClient.OnEvent` up to its return: the pool afterwards, and the index with
which `reconnect` has started its function, if it has started one. -/
def OnEvent.call (p : connpool) (event : api.ConnectionEvent) : connpool × Option Int :=
  let reconn : Bool :=
    match event with
    | .RemoteClose => true
    | .OnReadErrClose | .OnWriteErrClose | .OnWriteTimeout | .ConnectTimeout
    | .ConnectFailed | .LocalClose => true
    | _ => false
  if reconn then
    if p.autoReconnectWhenClose then (p, reconnect.start p)
    else (removeFromPool p, none)
  else (p, none)

/-- `connpool.initActiveClient`. -/
def initActiveClient (p : connpool) (connectOk : Bool) : connpool :=
  initConnection { p with client := true, ac := {} } connectOk

/-- `NewConn`; `connectOk` is the outcome of the first `Connect()`. -/
def NewConn (hostAddr : String) (connectTryTimes : Int) (heartBeatCreator : Option Nat)
    (readFilters : List Nat) (autoReconnectWhenClose : Bool) (connectOk : Bool) : connpool :=
  let connectTryTimes := if connectTryTimes = -1 then MaxInt32 else connectTryTimes
  let p : connpool :=
    { hostAddr := hostAddr
      heartBeatCreator := heartBeatCreator
      autoReconnectWhenClose := autoReconnectWhenClose
      connTryTimes := connectTryTimes
      readFilters := readFilters }
  initActiveClient p connectOk

/-- `connpool.isActive`. -/
def isActive (p : connpool) : Option Nat × Bool :=
  if p.destroyed = 1 then (none, false)
  else if !p.client then (none, false)
  else
    let h := getConnData p
    match h with
    | some conn => if p.State conn ≠ .ConnActive then (h, false) else (h, true)
    | none => (h, true)

/-- `connpool.Write`: the returned error (`none` is nil) and the pool afterwards. The
connection takes the buffers and reports no error. `Except.error` is the nil
dereference of `h.Connection` when `isActive` answers `(nil, true)`. -/
def Write (p : connpool) (buf : List Bytes) : Except String (Option String × connpool) :=
  match isActive p with
  | (h, true) =>
    match h with
    | some conn => .ok (none, p.onConn conn (fun c => { c with written := c.written ++ [buf] }))
    | none => .error "nil pointer dereference"
  | (_, false) => .ok (some "[msgconnpool] connection not ready", p)

/-- `connpool.Available`. -/
def Available (p : connpool) : Bool := (isActive p).2

/-- `connpool.Destroy`. `Except.error` is the nil dereference when `p.client` or its
`connData` is nil. -/
def Destroy (p : connpool) : Except String connpool :=
  let p := { p with destroyed := 1 }
  if !p.client then .error "nil pointer dereference"
  else
    match getConnData p with
    | some conn => .ok (p.Close conn .LocalClose)
    | none => .error "nil pointer dereference"

/-- What can happen to a pool, one at a time, when every function started by `reconnect`
runs to its end within the step of its event: a connection event reaches the client
(with the outcome of the `Connect()` it may lead to), `Destroy` or `Write` is called, or
a connection changes its state on its own. -/
inductive Step where
  | OnEvent (event : api.ConnectionEvent) (connectOk : Bool)
  | Destroy
  | Write (buf : List Bytes)
  | SetState (conn : Nat) (state : api.ConnState)
  deriving DecidableEq, Repr

/-- One step of an execution. -/
def step (p : connpool) : Step → Except String connpool
  | .OnEvent event connectOk => .ok (OnEvent p event connectOk)
  | .Destroy => Destroy p
  | .Write buf => (Write p buf).map (fun r => r.2)
  | .SetState conn state => .ok (p.onConn conn (fun c => { c with state := state }))

/-- An execution: the steps in order, stopping at the first run-time error. -/
def run (p : connpool) : List Step → Except String connpool
  | [] => .ok p
  | s :: steps =>
    match step p s with
    | .ok p => run p steps
    | .error e => .error e

/-- A pool together with the functions that `reconnect` has started and that have not
run yet, each with the index it has captured, in the order they were started. -/
structure Scheduled where
  pool : connpool
  started : List Int := []
  deriving DecidableEq, Repr

/-- What can happen to a pool, one at a time, when the functions started by `reconnect`
run on their own: a connection event is handled (up to the return of the handler), the
started function numbered `i` runs (with the outcome of its `Connect()`), `Destroy` or
`Write` is called, or a connection changes its state on its own. -/
inductive Scheduled.Step where
  | OnEvent (event : api.ConnectionEvent)
  | Run (i : Nat) (connectOk : Bool)
  | Destroy
  | Write (buf : List Bytes)
  | SetState (conn : Nat) (state : api.ConnState)
  deriving DecidableEq, Repr

/-- One step of such an execution. -/
def Scheduled.step (s : Scheduled) : Scheduled.Step → Except String Scheduled
  | .OnEvent event =>
    let r := OnEvent.call s.pool event
    .ok { pool := r.1, started := s.started ++ r.2.toList }
  | .Run i connectOk =>
    match s.started[i]? with
    | some idx =>
      .ok { pool := reconnect.goroutine s.pool idx connectOk, started := s.started.eraseIdx i }
    | none => .ok s
  | .Destroy => (msgconnpool.Destroy s.pool).map (fun p => { s with pool := p })
  | .Write buf => (msgconnpool.Write s.pool buf).map (fun r => { s with pool := r.2 })
  | .SetState conn state =>
    .ok { s with pool := s.pool.onConn conn (fun c => { c with state := state }) }

/-- Such an execution: the steps in order, stopping at the first run-time error. -/
def Scheduled.run (s : Scheduled) : List Scheduled.Step → Except String Scheduled
  | [] => .ok s
  | st :: steps =>
    match Scheduled.step s st with
    | .ok s => Scheduled.run s steps
    | .error e => .error e

/-- Number of `Connect()` calls in a trace. -/
def connects (trace : List Effect) : Nat :=
  (trace.filter (fun e => match e with | .Connect _ _ => true | _ => false)).length

/-- Total time slept in a trace, in nanoseconds. -/
def slept (trace : List Effect) : Nat :=
  (trace.map (fun e => match e with | .Sleep d => d | _ => 0)).sum

/-! ### Executions and predicates used in the statements -/

/-- A run of `k` consecutive failed connects: `k` times, a `ConnectFailed` event reaches
the client and the `Connect()` of the reconnect attempt it leads to fails. -/
def failedReconnects : Nat → connpool → connpool
  | 0, p => p
  | k + 1, p => failedReconnects k (OnEvent p .ConnectFailed false)

/-- The state in which a reconnect attempt calls `initConnection`: after the sleep, with
the try count increased by one. -/
def reconnect.attempt (p : connpool) (d : Nat) : connpool :=
  { p with
    trace := p.trace ++ [Effect.Sleep d]
    ac := { p.ac with connectTryTimes := p.ac.connectTryTimes + 1 } }

/-- What holds of every pool built by `NewConn` along the executions of `run`: the try
count lies between 0 and the limit, and the client has a stored connection. -/
def Inv (p : connpool) : Prop :=
  0 ≤ p.ac.connectTryTimes ∧ p.ac.connectTryTimes ≤ p.connTryTimes ∧ p.ac.connData.isSome = true

end msgconnpool

/-! ## Package `http2` (connection pool) -/

namespace http2

/-- The counters of `types.HostStats` and `types.ClusterStats` that the pool touches
(`Inc` and `Dec` on a counter add to and subtract from its count). -/
structure Stats where
  UpstreamConnectionTotal : Int := 0
  UpstreamConnectionActive : Int := 0
  UpstreamConnectionConFail : Int := 0
  UpstreamConnectionLocalCloseWithActiveRequest : Int := 0
  UpstreamConnectionRemoteCloseWithActiveRequest : Int := 0
  UpstreamRequestTotal : Int := 0
  UpstreamRequestActive : Int := 0
  UpstreamRequestTimeout : Int := 0
  UpstreamRequestPendingOverflow : Int := 0
  UpstreamRequestFailureEject : Int := 0
  UpstreamRequestLocalReset : Int := 0
  UpstreamRequestRemoteReset : Int := 0
  deriving DecidableEq, Repr

/-- The counters of a `Stats` other than the failure-eject, local-reset and remote-reset
counters. -/
def otherCounters (s : Stats) : List Int :=
  [s.UpstreamConnectionTotal, s.UpstreamConnectionActive, s.UpstreamConnectionConFail,
    s.UpstreamConnectionLocalCloseWithActiveRequest,
    s.UpstreamConnectionRemoteCloseWithActiveRequest, s.UpstreamRequestTotal,
    s.UpstreamRequestActive, s.UpstreamRequestTimeout, s.UpstreamRequestPendingOverflow]

/-- Modelled from the spec: the resource `ResourceManager().Requests()`, admission being
`request_active < max`; the resource manager is declared outside `connpool.go`. -/
structure Resource where
  cur : Int := 0
  max : Nat := 0
  deriving DecidableEq, Repr

/-- Modelled from the spec: `CanCreate`, `request_active < max`. -/
def Resource.CanCreate (r : Resource) : Bool := r.cur < r.max

/-- Modelled from the spec: `Increase` counts one more active request. -/
def Resource.Increase (r : Resource) : Resource := { r with cur := r.cur + 1 }

/-- Modelled from the spec: `Decrease` counts one active request less. -/
def Resource.Decrease (r : Resource) : Resource := { r with cur := r.cur - 1 }

/-- The pool's `types.Host` as far as the pool uses it: `HostStats()`,
`ClusterInfo().Stats()` and `ClusterInfo().ResourceManager().Requests()`. -/
structure Host where
  HostStats : Stats := {}
  ClusterStats : Stats := {}
  Requests : Resource := {}
  deriving DecidableEq, Repr

/-- `types.PoolFailureReason`: the empty reason, `ConnectionFailure`, `Overflow`. -/
inductive PoolFailureReason where
  | None
  | ConnectionFailure
  | Overflow
  deriving DecidableEq, Repr

/-- `types.StreamResetReason`: the four reasons `onStreamReset` names, and the others. -/
inductive StreamResetReason where
  | StreamConnectionTermination
  | StreamConnectionFailed
  | StreamLocalReset
  | StreamRemoteReset
  | Other (name : String)
  deriving DecidableEq, Repr

/-- The struct `activeClient`. `conn` is the number of its connection; `client` is set
once the connection is connected and the codec client made. Clients are numbered in
creation order. -/
structure activeClient where
  conn : Nat
  client : Bool := false
  closeWithActiveReq : Bool := false
  totalStream : Nat := 0
  goaway : Nat := 0
  deriving DecidableEq, Repr

/-- The `types.StreamSender` returned by `NewStream`: a stream of the codec client of
the client numbered `client`, with its response decoder; the client listens to the
stream's events. -/
structure StreamSender where
  client : Nat
  responseDecoder : Nat
  deriving DecidableEq, Repr

/-- The struct `ConnPool` with what it points to: `activeClient` is the number of the
active client (`none` when nil), `host` the stored host, `clients` every `activeClient`
object made so far, and `connections` the outcome of `Connect()` for every connection
made so far. -/
structure ConnPool where
  clients : List activeClient := []
  activeClient : Option Nat := none
  host : Host := {}
  connections : List Bool := []
  deriving DecidableEq, Repr

/-- Update of the client numbered `client`. -/
def ConnPool.onClient (p : ConnPool) (client : Nat)
    (f : http2.activeClient → http2.activeClient) :
    ConnPool :=
  match p.clients[client]? with
  | some ac => { p with clients := p.clients.set client (f ac) }
  | none => p

/-- `newActiveClient`: the number of the new client, or `none` for the nil result when
`Connect()` fails (`connectOk = false`). -/
def newActiveClient (p : ConnPool) (connectOk : Bool) : Option Nat × ConnPool :=
  let ac := p.clients.length
  let data := p.connections.length
  let p : ConnPool :=
    { p with clients := p.clients ++ [{ conn := data }], connections := p.connections ++ [connectOk] }
  if !connectOk then (none, p)
  else
    let p := p.onClient ac (fun c => { c with client := true })
    let host := p.host
    let host := { host with HostStats := { host.HostStats with
      UpstreamConnectionTotal := host.HostStats.UpstreamConnectionTotal + 1 } }
    let host := { host with HostStats := { host.HostStats with
      UpstreamConnectionActive := host.HostStats.UpstreamConnectionActive + 1 } }
    let host := { host with ClusterStats := { host.ClusterStats with
      UpstreamConnectionTotal := host.ClusterStats.UpstreamConnectionTotal + 1 } }
    let host := { host with ClusterStats := { host.ClusterStats with
      UpstreamConnectionActive := host.ClusterStats.UpstreamConnectionActive + 1 } }
    (some ac, { p with host := host })

/-- The function literal at the head of `ConnPool.NewStream`, run under `p.mux`: it
drops an active client that received GOAWAY, makes a client if there is none, and
returns the active client. -/
def NewStream.activeClient (p : ConnPool) (connectOk : Bool) : Option Nat × ConnPool :=
  let p :=
    match p.activeClient with
    | some ac =>
      if ((p.clients[ac]?).map (fun (c : http2.activeClient) => c.goaway)) = some 1 then
        { p with activeClient := none }
      else p
    | none => p
  match p.activeClient with
  | none =>
    let r := newActiveClient p connectOk
    (r.1, { r.2 with activeClient := r.1 })
  | some ac => (some ac, p)

/-- `ConnPool.NewStream`: the stream sender and failure reason returned (the returned
host is `p.host`), and the pool afterwards. -/
def NewStream (p : ConnPool) (responseDecoder : Nat) (connectOk : Bool) :
    (Option StreamSender × PoolFailureReason) × ConnPool :=
  let r := NewStream.activeClient p connectOk
  let p := r.2
  match r.1 with
  | none => ((none, .ConnectionFailure), p)
  | some active =>
    let host := p.host
    if !host.Requests.CanCreate then
      let host := { host with HostStats := { host.HostStats with
        UpstreamRequestPendingOverflow := host.HostStats.UpstreamRequestPendingOverflow + 1 } }
      let host := { host with ClusterStats := { host.ClusterStats with
        UpstreamRequestPendingOverflow := host.ClusterStats.UpstreamRequestPendingOverflow + 1 } }
      ((none, .Overflow), { p with host := host })
    else
      let p := p.onClient active
        (fun c => { c with totalStream := (c.totalStream + 1) % 2 ^ 64 })
      let host := { host with HostStats := { host.HostStats with
        UpstreamRequestTotal := host.HostStats.UpstreamRequestTotal + 1 } }
      let host := { host with HostStats := { host.HostStats with
        UpstreamRequestActive := host.HostStats.UpstreamRequestActive + 1 } }
      let host := { host with ClusterStats := { host.ClusterStats with
        UpstreamRequestTotal := host.ClusterStats.UpstreamRequestTotal + 1 } }
      let host := { host with ClusterStats := { host.ClusterStats with
        UpstreamRequestActive := host.ClusterStats.UpstreamRequestActive + 1 } }
      let host := { host with Requests := host.Requests.Increase }
      let streamEncoder : StreamSender :=
        { client := active, responseDecoder := responseDecoder }
      ((some streamEncoder, .None), { p with host := host })

/-- `ConnPool.onConnectionEvent`. -/
def onConnectionEvent (p : ConnPool) (client : Nat) (event : api.ConnectionEvent) : ConnPool :=
  let host := p.host
  let ac := p.clients[client]?
  if event.IsClose then
    let host :=
      if (ac.map (fun c => c.closeWithActiveReq)) = some true then
        if event = .LocalClose then
          { host with
            HostStats := { host.HostStats with
              UpstreamConnectionLocalCloseWithActiveRequest :=
                host.HostStats.UpstreamConnectionLocalCloseWithActiveRequest + 1 }
            ClusterStats := { host.ClusterStats with
              UpstreamConnectionLocalCloseWithActiveRequest :=
                host.ClusterStats.UpstreamConnectionLocalCloseWithActiveRequest + 1 } }
        else if event = .RemoteClose then
          { host with
            HostStats := { host.HostStats with
              UpstreamConnectionRemoteCloseWithActiveRequest :=
                host.HostStats.UpstreamConnectionRemoteCloseWithActiveRequest + 1 }
            ClusterStats := { host.ClusterStats with
              UpstreamConnectionRemoteCloseWithActiveRequest :=
                host.ClusterStats.UpstreamConnectionRemoteCloseWithActiveRequest + 1 } }
        else host
      else host
    let p := { p with host := host }
    if (ac.map (fun c => c.goaway)) = some 1 then p
    else { p with activeClient := none }
  else if event = .ConnectTimeout then
    { p with host := { host with
        HostStats := { host.HostStats with
          UpstreamRequestTimeout := host.HostStats.UpstreamRequestTimeout + 1 }
        ClusterStats := { host.ClusterStats with
          UpstreamRequestTimeout := host.ClusterStats.UpstreamRequestTimeout + 1 } } }
  else if event = .ConnectFailed then
    { p with host := { host with
        HostStats := { host.HostStats with
          UpstreamConnectionConFail := host.HostStats.UpstreamConnectionConFail + 1 }
        ClusterStats := { host.ClusterStats with
          UpstreamConnectionConFail := host.ClusterStats.UpstreamConnectionConFail + 1 } } }
  else p

/-- `ConnPool.onStreamDestroy`. -/
def onStreamDestroy (p : ConnPool) (_client : Nat) : ConnPool :=
  let host := p.host
  let host := { host with HostStats := { host.HostStats with
    UpstreamRequestActive := host.HostStats.UpstreamRequestActive - 1 } }
  let host := { host with ClusterStats := { host.ClusterStats with
    UpstreamRequestActive := host.ClusterStats.UpstreamRequestActive - 1 } }
  let host := { host with Requests := host.Requests.Decrease }
  { p with host := host }

/-- `ConnPool.onStreamReset`. -/
def onStreamReset (p : ConnPool) (client : Nat) (reason : StreamResetReason) : ConnPool :=
  let host := p.host
  if reason = .StreamConnectionTermination ∨ reason = .StreamConnectionFailed then
    let host := { host with HostStats := { host.HostStats with
      UpstreamRequestFailureEject := host.HostStats.UpstreamRequestFailureEject + 1 } }
    let host := { host with ClusterStats := { host.ClusterStats with
      UpstreamRequestFailureEject := host.ClusterStats.UpstreamRequestFailureEject + 1 } }
    ({ p with host := host } : ConnPool).onClient client
      (fun c => { c with closeWithActiveReq := true })
  else if reason = .StreamLocalReset then
    let host := { host with HostStats := { host.HostStats with
      UpstreamRequestLocalReset := host.HostStats.UpstreamRequestLocalReset + 1 } }
    let host := { host with ClusterStats := { host.ClusterStats with
      UpstreamRequestLocalReset := host.ClusterStats.UpstreamRequestLocalReset + 1 } }
    { p with host := host }
  else if reason = .StreamRemoteReset then
    let host := { host with HostStats := { host.HostStats with
      UpstreamRequestRemoteReset := host.HostStats.UpstreamRequestRemoteReset + 1 } }
    let host := { host with ClusterStats := { host.ClusterStats with
      UpstreamRequestRemoteReset := host.ClusterStats.UpstreamRequestRemoteReset + 1 } }
    { p with host := host }
  else p

/-- `activeClient.OnEvent`. -/
def OnEvent (p : ConnPool) (ac : Nat) (event : api.ConnectionEvent) : ConnPool :=
  onConnectionEvent p ac event

/-- `activeClient.OnDestroyStream`. -/
def OnDestroyStream (p : ConnPool) (ac : Nat) : ConnPool := onStreamDestroy p ac

/-- `activeClient.OnResetStream`. -/
def OnResetStream (p : ConnPool) (ac : Nat) (reason : StreamResetReason) : ConnPool :=
  onStreamReset p ac reason

/-- `activeClient.OnGoAway`. -/
def OnGoAway (p : ConnPool) (ac : Nat) : ConnPool :=
  p.onClient ac (fun c => { c with goaway := 1 })

/-- `NewConnPool`. -/
def NewConnPool (host : Host) : ConnPool := { host := host }

/-- What can happen to a pool, one at a time: `NewStream` (with the outcome of the
`Connect()` it may make), and the events a client listens to. -/
inductive Step where
  | NewStream (responseDecoder : Nat) (connectOk : Bool)
  | OnDestroyStream (ac : Nat)
  | OnResetStream (ac : Nat) (reason : StreamResetReason)
  | OnGoAway (ac : Nat)
  | OnEvent (ac : Nat) (event : api.ConnectionEvent)
  deriving DecidableEq, Repr

/-- One step of an execution. -/
def step (p : ConnPool) : Step → ConnPool
  | .NewStream responseDecoder connectOk => (NewStream p responseDecoder connectOk).2
  | .OnDestroyStream ac => OnDestroyStream p ac
  | .OnResetStream ac reason => OnResetStream p ac reason
  | .OnGoAway ac => OnGoAway p ac
  | .OnEvent ac event => OnEvent p ac event

/-- An execution: the steps in order. -/
def run (p : ConnPool) (steps : List Step) : ConnPool := steps.foldl step p

/-- Number of `NewStream` calls of an execution that return a stream sender. -/
def admitted : ConnPool → List Step → Nat
  | _, [] => 0
  | p, s :: steps =>
    (match s with
      | .NewStream responseDecoder connectOk =>
        if (NewStream p responseDecoder connectOk).1.1.isSome then 1 else 0
      | _ => 0) + admitted (step p s) steps

/-- Number of stream destructions of an execution. -/
def destroyed (steps : List Step) : Nat :=
  (steps.filter (fun s => match s with | .OnDestroyStream _ => true | _ => false)).length

/-- A pool on a host that admits at most two concurrent requests. -/
def examplePool : ConnPool := NewConnPool { Requests := { max := 2 } }

end http2

/-! ## Package `v2`: the configuration types -/

namespace v2

/-- Modelled from the spec: a host is `address: string`, `weight: u32`; the declaration
of `v2.Host` is not part of the sources, which name its field `Weight`. -/
structure Host where
  Address : String
  Hostname : String := ""
  Weight : Nat
  deriving DecidableEq, Repr

/-- Modelled from the spec: a cluster configuration with its `name` and hosts; the
declaration of `v2.Cluster` is not part of the sources, which name the fields below
(`FallBackPolicy` is `LBSubSetConfig.FallBackPolicy`, `HealthCheckProtocol` is
`HealthCheck.Protocol`). -/
structure Cluster where
  Name : String
  MaxRequestPerConn : Nat := 0
  ConnBufferLimitBytes : Nat := 0
  FallBackPolicy : Nat := 0
  HealthCheckProtocol : String := ""
  Hosts : List Host := []
  deriving DecidableEq, Repr

end v2

/-! ## Package `config` -/

namespace config

/-- The type `ContentKey`, a string. -/
abbrev ContentKey := String

/-- The constant `ParseCallbackKeyCluster`. -/
def ParseCallbackKeyCluster : ContentKey := "clusters"

/-- The constant `ParseCallbackKeyServiceRgtInfo`. -/
def ParseCallbackKeyServiceRgtInfo : ContentKey := "service_registry"

/-- A `ParsedCallback` closure, named by a number. -/
abbrev ParsedCallback := Nat

/-- One invocation `cb(data, endParsing)` of a callback with parsed clusters. -/
structure Call where
  cb : ParsedCallback
  data : List v2.Cluster
  endParsing : Bool
  deriving DecidableEq, Repr

/-- The package variables `protocolsSupported` (whose initial keys are constants of
package `protocol`, not part of the sources) and `configParsedCBMaps` (initially
empty). -/
structure Package where
  protocolsSupported : xprotocol.GoMap Bool
  configParsedCBMaps : xprotocol.GoMap (List ParsedCallback) := []
  deriving DecidableEq, Repr

/-- `RegisterConfigParsedListener`. For a key that already has callbacks, the
appended slice is assigned to the local variable `cbs` only; the map entry is not
written. -/
def RegisterConfigParsedListener (pkg : Package) (key : ContentKey) (cb : ParsedCallback) :
    Package :=
  match xprotocol.GoMap.Load pkg.configParsedCBMaps key with
  | some cbs =>
    let _cbs := cbs ++ [cb]
    pkg
  | none =>
    let cpc := [cb]
    { pkg with configParsedCBMaps := xprotocol.GoMap.Store pkg.configParsedCBMaps key cpc }

/-- The constant `MinHostWeight`. -/
def MinHostWeight : Nat := 1

/-- The constant `MaxHostWeight`. -/
def MaxHostWeight : Nat := 128

/-- `transHostWeight`. -/
def transHostWeight (weight : Nat) : Nat :=
  if weight > MaxHostWeight then MaxHostWeight
  else if weight < MinHostWeight then MinHostWeight
  else weight

/-- `parseHostConfig`. -/
def parseHostConfig (hosts : List v2.Host) : List v2.Host :=
  hosts.foldl (fun hs host => hs ++ [{ host with Weight := transHostWeight host.Weight }]) []

/-- The body of the loop of `ParseClusterConfig` up to the cluster appended to
`pClusters`. `Except.error` is the end of the process in `Fatalln` and `Fatal`. -/
def ParseClusterConfig.cluster (pkg : Package) (c : v2.Cluster) : Except String v2.Cluster :=
  if c.Name = "" then .error "[name] is required in cluster config"
  else
    let c : v2.Cluster := if c.MaxRequestPerConn = 0 then { c with MaxRequestPerConn := 1024 } else c
    let c : v2.Cluster :=
      if c.ConnBufferLimitBytes = 0 then { c with ConnBufferLimitBytes := 16 * 1026 } else c
    if c.FallBackPolicy > 2 then .error "lb subset config 's fall back policy set error. "
    else if (xprotocol.GoMap.Load pkg.protocolsSupported c.HealthCheckProtocol).isNone
        && c.HealthCheckProtocol ≠ "" then
      .error "unsupported health check protocol:"
    else .ok { c with Hosts := parseHostConfig c.Hosts }

/-- The loop of `ParseClusterConfig` over the clusters, from the current `pClusters`
and `clusterV2Map`. -/
def ParseClusterConfig.loop (pkg : Package) :
    List v2.Cluster → List v2.Cluster × xprotocol.GoMap (List v2.Host) →
    Except String (List v2.Cluster × xprotocol.GoMap (List v2.Host))
  | [], acc => .ok acc
  | c :: clusters, (pClusters, clusterV2Map) =>
    match ParseClusterConfig.cluster pkg c with
    | .error e => .error e
    | .ok c =>
      ParseClusterConfig.loop pkg clusters
        (pClusters ++ [c], xprotocol.GoMap.Store clusterV2Map c.Name c.Hosts)

/-- What `ParseClusterConfig` returns and the callback invocations it makes. -/
structure Parsed where
  pClusters : List v2.Cluster
  clusterV2Map : xprotocol.GoMap (List v2.Host)
  calls : List Call
  deriving DecidableEq, Repr

/-- `ParseClusterConfig`. The callbacks are taken not to register listeners
themselves; what they return is dropped by the code. -/
def ParseClusterConfig (pkg : Package) (clusters : List v2.Cluster) : Except String Parsed :=
  match ParseClusterConfig.loop pkg clusters ([], []) with
  | .error e => .error e
  | .ok (pClusters, clusterV2Map) =>
    let calls : List Call :=
      match xprotocol.GoMap.Load pkg.configParsedCBMaps ParseCallbackKeyCluster with
      | some cbs => cbs.foldl (fun calls cb => calls ++ [{ cb := cb, data := pClusters, endParsing := false }]) []
      | none => []
    .ok { pClusters := pClusters, clusterV2Map := clusterV2Map, calls := calls }

/-- A cluster configuration that `ParseClusterConfig` accepts: it has a name, a
fall-back policy of at most 2 and a supported (or no) health check protocol. -/
def Accepted (pkg : Package) (c : v2.Cluster) : Prop :=
  c.Name ≠ "" ∧ c.FallBackPolicy ≤ 2 ∧
    (c.HealthCheckProtocol = "" ∨
      (xprotocol.GoMap.Load pkg.protocolsSupported c.HealthCheckProtocol).isSome)

instance (pkg : Package) (c : v2.Cluster) : Decidable (Accepted pkg c) := by
  unfold Accepted
  infer_instance

/-- Example package state: one supported protocol, no callback registered. -/
def examplePackage : Package := { protocolsSupported := [("Http2", true)] }

/-- Example configuration: two clusters, with weights below, inside and above the
range. -/
def exampleClusters : List v2.Cluster :=
  [ { Name := "c1"
      Hosts := [ { Address := "10.0.0.1:80", Weight := 0 },
                 { Address := "10.0.0.2:80", Weight := 64 } ] },
    { Name := "c2", MaxRequestPerConn := 10, HealthCheckProtocol := "Http2"
      Hosts := [ { Address := "10.0.0.3:80", Weight := 500 } ] } ]

end config

/-! ## Package `cluster`: the cluster manager -/

namespace cluster

/-- A `types.Host` object as far as the manager acts on it: its `AddressString()`; hosts
are numbered in creation order. -/
structure Host where
  object : Nat
  address : String
  deriving DecidableEq, Repr

/-- The arrays that back the host slices, each the list of its elements, numbered in
allocation order. -/
abbrev Heap := List (List Host)

/-- A Go slice `[]types.Host`: its backing array, the offset of its first element in
it, its length and its capacity. The nil slice has length and capacity 0. -/
structure Slice where
  array : Nat := 0
  off : Nat := 0
  len : Nat := 0
  cap : Nat := 0
  deriving DecidableEq, Repr

/-- The elements `s[0], ..., s[len(s)-1]` a holder of the slice reads. -/
def Slice.elems (heap : Heap) (s : Slice) : List Host :=
  ((heap.getD s.array []).drop s.off).take s.len

/-- The index expression `s[i]`; `none` is the index out of range. -/
def Slice.index (heap : Heap) (s : Slice) (i : Nat) : Option Host :=
  if i < s.len then (heap.getD s.array [])[s.off + i]? else none

/-- The slice expression `s[lo:hi]` (for `lo ≤ hi ≤ cap(s)`): the same array, capacity
up to the end of `s`. -/
def Slice.slice (s : Slice) (lo hi : Nat) : Slice :=
  { array := s.array, off := s.off + lo, len := hi - lo, cap := s.cap - lo }

/-- A slice lies within an array of the heap. -/
def Slice.Valid (heap : Heap) (s : Slice) : Prop :=
  s.array < heap.length ∧ s.len ≤ s.cap ∧ s.off + s.cap ≤ (heap.getD s.array []).length

instance (heap : Heap) (s : Slice) : Decidable (s.Valid heap) := by
  unfold Slice.Valid
  infer_instance

/-- The built-in `append(s, xs...)`. When the capacity of `s` suffices the elements are
written to the array of `s` after its last element, and the result shares that array;
otherwise a new array is allocated (of just the capacity needed; Go leaves the capacity
to the implementation). The elements appended are read before any is written. -/
def append (heap : Heap) (s : Slice) (xs : List Host) : Slice × Heap :=
  if s.len + xs.length ≤ s.cap then
    let arr := heap.getD s.array []
    let arr := arr.take (s.off + s.len) ++ xs ++ arr.drop (s.off + s.len + xs.length)
    ({ s with len := s.len + xs.length }, heap.set s.array arr)
  else
    ({ array := heap.length, off := 0, len := s.len + xs.length, cap := s.len + xs.length },
      heap ++ [s.elems heap ++ xs])

/-- A `types.Cluster` object as far as the manager acts on it: its name, whether it is a
`*simpleInMemCluster`, and then its field `hosts`. -/
structure Cluster where
  name : String
  inMem : Bool := true
  hosts : Slice := {}
  deriving DecidableEq, Repr

/-- The struct `primaryCluster`. -/
structure primaryCluster where
  cluster : Cluster
  addedViaApi : Bool
  deriving DecidableEq, Repr

/-- The protocols a pool lookup distinguishes: the constants `proto.Http1` and
`proto.Http2` (distinct, as the cases of one `switch`), and every other protocol. -/
inductive Protocol where
  | Http1
  | Http2
  | other (name : String)
  deriving DecidableEq, Repr

/-- The package whose `NewConnPool` made a pool. -/
inductive PoolKind where
  | http
  | http2
  | xprotocol
  | sofarpc
  deriving DecidableEq, Repr

/-- A `types.ConnectionPool` object: pools are numbered in creation order; the package
that made it and the host given to `NewConnPool`. -/
structure ConnectionPool where
  object : Nat
  kind : PoolKind
  host : Host
  deriving DecidableEq, Repr

/-- The struct `clusterManager`, with the memory its objects live in: the host arrays,
the number of host objects and the pool objects made so far, in order. -/
structure clusterManager where
  primaryClusters : xprotocol.GoMap primaryCluster := []
  sofaRpcConnPool : xprotocol.GoMap ConnectionPool := []
  http2ConnPool : xprotocol.GoMap ConnectionPool := []
  xProtocolConnPool : xprotocol.GoMap ConnectionPool := []
  http1ConnPool : xprotocol.GoMap ConnectionPool := []
  autoDiscovery : Bool := true
  heap : Heap := []
  hostObjects : Nat := 0
  pools : List ConnectionPool := []
  deriving DecidableEq, Repr

/-- Modelled from the spec: `add_or_update_cluster` installs "the new cluster object;
hosts are installed in a second phase"; `NewCluster` is not part of the sources. The new
cluster is an in-memory cluster of the configured name without hosts. -/
def NewCluster (clusterConfig : v2.Cluster) (_addedViaApi : Bool) : Cluster :=
  { name := clusterConfig.Name }

/-- Modelled from the spec: a host has the `address` of its configuration; `NewHost` is
not part of the sources. -/
def NewHost (cm : clusterManager) (hc : v2.Host) : Host × clusterManager :=
  ({ object := cm.hostObjects, address := hc.Address },
    { cm with hostObjects := cm.hostObjects + 1 })

/-- Modelled from the spec: updating hosts "replaces the priority's host list with a
fresh slice (never mutates the prior slice)"; `simpleInMemCluster.UpdateHosts` is not
part of the sources. The hosts given are copied to a new array, which becomes the
`hosts` of the cluster. -/
def UpdateHosts (heap : Heap) (c : Cluster) (newHosts : Slice) : Cluster × Heap :=
  let hosts := newHosts.elems heap
  ({ c with hosts := { array := heap.length, off := 0, len := hosts.length, cap := hosts.length } },
    heap ++ [hosts])

/-- `clusterManager.loadCluster`: the cluster made and the manager afterwards. The
member-update callback it registers does nothing. -/
def loadCluster (cm : clusterManager) (clusterConfig : v2.Cluster) (addedViaApi : Bool) :
    Cluster × clusterManager :=
  let cluster := NewCluster clusterConfig addedViaApi
  let pc : primaryCluster := { cluster := cluster, addedViaApi := addedViaApi }
  (cluster,
    { cm with primaryClusters := xprotocol.GoMap.Store cm.primaryClusters clusterConfig.Name pc })

/-- `clusterManager.AddOrUpdatePrimaryCluster`. -/
def AddOrUpdatePrimaryCluster (cm : clusterManager) (cluster : v2.Cluster) :
    Bool × clusterManager :=
  let clusterName := cluster.Name
  match xprotocol.GoMap.Load cm.primaryClusters clusterName with
  | some v =>
    if !v.addedViaApi then (false, cm)
    else (true, (loadCluster cm cluster true).2)
  | none => (true, (loadCluster cm cluster true).2)

/-- `clusterManager.ClusterExist`. -/
def ClusterExist (cm : clusterManager) (clusterName : String) : Bool :=
  match xprotocol.GoMap.Load cm.primaryClusters clusterName with
  | some _ => true
  | none => false

/-- `clusterManager.getOrCreateClusterSnapshot`: the snapshot is taken of the cluster
found, `none` is nil. -/
def getOrCreateClusterSnapshot (cm : clusterManager) (clusterName : String) : Option Cluster :=
  match xprotocol.GoMap.Load cm.primaryClusters clusterName with
  | some v => some v.cluster
  | none => none

/-- The loop of `UpdateClusterHosts`: a host is made of each configuration and appended
to `hosts`. -/
def UpdateClusterHosts.hosts (cm : clusterManager) (hostConfigs : List v2.Host) :
    Slice × clusterManager :=
  hostConfigs.foldl
    (fun (acc : Slice × clusterManager) hc =>
      let made := NewHost acc.2 hc
      let appended := append made.2.heap acc.1 [made.1]
      (appended.1, { made.2 with heap := appended.2 }))
    ({}, cm)

/-- `clusterManager.UpdateClusterHosts`: the error returned (`none` is nil) and the
manager afterwards. -/
def UpdateClusterHosts (cm : clusterManager) (clusterName : String) (_priority : Nat)
    (hostConfigs : List v2.Host) : Option String × clusterManager :=
  match xprotocol.GoMap.Load cm.primaryClusters clusterName with
  | some v =>
    let pcc := v.cluster
    if pcc.inMem then
      let built := UpdateClusterHosts.hosts cm hostConfigs
      let updated := UpdateHosts built.2.heap pcc built.1
      (none, { built.2 with
        heap := updated.2
        primaryClusters :=
          xprotocol.GoMap.Store cm.primaryClusters clusterName { v with cluster := updated.1 } })
    else (some ("cluster's hostset " ++ clusterName ++ " can't be update"), cm)
  | none => (some ("cluster " ++ clusterName ++ " not found"), cm)

/-- The loop of `RemoveClusterHosts` from index `i` on, with at most `fuel` iterations
left: the slice `ccHosts`, `found` and the host arrays afterwards. -/
def RemoveClusterHosts.loop (host : Host) (heap : Heap) (ccHosts : Slice) :
    Nat → Nat → Slice × Bool × Heap
  | 0, _ => (ccHosts, false, heap)
  | fuel + 1, i =>
    if i < ccHosts.len then
      match ccHosts.index heap i with
      | some h =>
        if host.address = h.address then
          let appended :=
            append heap (ccHosts.slice 0 i) ((ccHosts.slice (i + 1) ccHosts.len).elems heap)
          (appended.1, true, appended.2)
        else RemoveClusterHosts.loop host heap ccHosts fuel (i + 1)
      | none => (ccHosts, false, heap)
    else (ccHosts, false, heap)

/-- `clusterManager.RemoveClusterHosts`: the error returned (`none` is nil) and the
manager afterwards; a `host` of `none` is the nil host. -/
def RemoveClusterHosts (cm : clusterManager) (clusterName : String) (host : Option Host) :
    Option String × clusterManager :=
  match host with
  | none => (some "host is nil", cm)
  | some host =>
    match xprotocol.GoMap.Load cm.primaryClusters clusterName with
    | some v =>
      let pcc := v.cluster
      if pcc.inMem then
        let ccHosts := pcc.hosts
        let looped := RemoveClusterHosts.loop host cm.heap ccHosts ccHosts.len 0
        let ccHosts := looped.1
        let found := looped.2.1
        let heap := looped.2.2
        if found = true then
          let updated := UpdateHosts heap pcc ccHosts
          (none, { cm with
            heap := updated.2
            primaryClusters :=
              xprotocol.GoMap.Store cm.primaryClusters clusterName { v with cluster := updated.1 } })
        else (none, { cm with heap := heap })
      else (some ("cluster's hostset " ++ clusterName ++ " can't be update"), cm)
    | none => (none, cm)

/-- `clusterManager.HttpConnPoolForCluster`: the pool returned (`none` is nil) and the
manager afterwards. `chosen` is the host that `loadbalancer.ChooseHost(lbCtx)` returns
in this call (`none` is nil). -/
def HttpConnPoolForCluster (cm : clusterManager) (chosen : Option Host) (cluster : String)
    (protocol : Protocol) : Option ConnectionPool × clusterManager :=
  match getOrCreateClusterSnapshot cm cluster with
  | none => (none, cm)
  | some _ =>
    match chosen with
    | some host =>
      let addr := host.address
      match protocol with
      | .Http2 =>
        match xprotocol.GoMap.Load cm.http2ConnPool addr with
        | some connPool => (some connPool, cm)
        | none =>
          let connPool : ConnectionPool :=
            { object := cm.pools.length, kind := .http2, host := host }
          (some connPool, { cm with
            pools := cm.pools ++ [connPool]
            http2ConnPool := xprotocol.GoMap.Store cm.http2ConnPool addr connPool })
      | .Http1 =>
        match xprotocol.GoMap.Load cm.http1ConnPool addr with
        | some connPool => (some connPool, cm)
        | none =>
          let connPool : ConnectionPool :=
            { object := cm.pools.length, kind := .http, host := host }
          (some connPool, { cm with
            pools := cm.pools ++ [connPool]
            http1ConnPool := xprotocol.GoMap.Store cm.http1ConnPool addr connPool })
      | .other _ => (none, cm)
    | none => (none, cm)

/-- `clusterManager.XprotocolConnPoolForCluster`; `chosen` is the host that
`loadbalancer.ChooseHost(nil)` returns in this call. -/
def XprotocolConnPoolForCluster (cm : clusterManager) (chosen : Option Host) (cluster : String)
    (_protocol : Protocol) : Option ConnectionPool × clusterManager :=
  match getOrCreateClusterSnapshot cm cluster with
  | none => (none, cm)
  | some _ =>
    match chosen with
    | some host =>
      let addr := host.address
      match xprotocol.GoMap.Load cm.xProtocolConnPool addr with
      | some connPool => (some connPool, cm)
      | none =>
        let connPool : ConnectionPool :=
          { object := cm.pools.length, kind := .xprotocol, host := host }
        (some connPool, { cm with
          pools := cm.pools ++ [connPool]
          xProtocolConnPool := xprotocol.GoMap.Store cm.xProtocolConnPool addr connPool })
    | none => (none, cm)

/-- `clusterManager.SofaRpcConnPoolForCluster`; `chosen` is the host that
`loadbalancer.ChooseHost(lbCtx)` returns in this call. -/
def SofaRpcConnPoolForCluster (cm : clusterManager) (chosen : Option Host) (cluster : String) :
    Option ConnectionPool × clusterManager :=
  match getOrCreateClusterSnapshot cm cluster with
  | none => (none, cm)
  | some _ =>
    match chosen with
    | some host =>
      let addr := host.address
      match xprotocol.GoMap.Load cm.sofaRpcConnPool addr with
      | some connPool => (some connPool, cm)
      | none =>
        let connPool : ConnectionPool :=
          { object := cm.pools.length, kind := .sofarpc, host := host }
        (some connPool, { cm with
          pools := cm.pools ++ [connPool]
          sofaRpcConnPool := xprotocol.GoMap.Store cm.sofaRpcConnPool addr connPool })
    | none => (none, cm)

/-- `clusterManager.RemovePrimaryCluster`. -/
def RemovePrimaryCluster (cm : clusterManager) (clusterName : String) : Bool × clusterManager :=
  match xprotocol.GoMap.Load cm.primaryClusters clusterName with
  | some v =>
    if !v.addedViaApi then (false, cm)
    else (true, { cm with primaryClusters := xprotocol.GoMap.Delete cm.primaryClusters clusterName })
  | none => (true, cm)

/-- `NewClusterManager`; `clusterMap` is given in the order its entries are visited. -/
def NewClusterManager (clusters : List v2.Cluster)
    (clusterMap : List (String × List v2.Host)) : clusterManager :=
  let cm : clusterManager := { autoDiscovery := true }
  let cm := clusters.foldl (fun cm cluster => (AddOrUpdatePrimaryCluster cm cluster).2) cm
  clusterMap.foldl (fun cm entry => (UpdateClusterHosts cm entry.1 0 entry.2).2) cm

/-- The pool lookups: `HttpConnPoolForCluster` and `XprotocolConnPoolForCluster` with
their protocol argument, and `SofaRpcConnPoolForCluster`. -/
inductive Lookup where
  | Http (protocol : Protocol)
  | Xprotocol (protocol : Protocol)
  | SofaRpc
  deriving DecidableEq, Repr

/-- One call of a pool lookup for `cluster` in which the load balancer picks `chosen`. -/
def Lookup.call (l : Lookup) (cm : clusterManager) (chosen : Option Host) (cluster : String) :
    Option ConnectionPool × clusterManager :=
  match l with
  | .Http protocol => HttpConnPoolForCluster cm chosen cluster protocol
  | .Xprotocol protocol => XprotocolConnPoolForCluster cm chosen cluster protocol
  | .SofaRpc => SofaRpcConnPoolForCluster cm chosen cluster

/-- The per-protocol pool map a lookup works on; HTTP lookups of another protocol work
on none. -/
def Lookup.pools (l : Lookup) (cm : clusterManager) : xprotocol.GoMap ConnectionPool :=
  match l with
  | .Http .Http2 => cm.http2ConnPool
  | .Http .Http1 => cm.http1ConnPool
  | .Http (.other _) => []
  | .Xprotocol _ => cm.xProtocolConnPool
  | .SofaRpc => cm.sofaRpcConnPool

/-- Calls of one pool lookup executed one after another, each with its cluster name and
the host the load balancer picks: the pools returned, in order, and the manager
afterwards. -/
def Lookup.calls (l : Lookup) :
    clusterManager → List (String × Option Host) → List (Option ConnectionPool) × clusterManager
  | cm, [] => ([], cm)
  | cm, (cluster, chosen) :: rest =>
    let r := l.call cm chosen cluster
    let rs := Lookup.calls l r.2 rest
    (r.1 :: rs.1, rs.2)

/-- The calls a cluster manager receives after `NewClusterManager`. -/
inductive Call where
  | AddOrUpdatePrimaryCluster (cluster : v2.Cluster)
  | UpdateClusterHosts (clusterName : String) (priority : Nat) (hostConfigs : List v2.Host)
  | RemoveClusterHosts (clusterName : String) (host : Option Host)
  | RemovePrimaryCluster (clusterName : String)
  | Lookup (l : Lookup) (chosen : Option Host) (cluster : String)
  deriving DecidableEq, Repr

/-- The manager after one call. -/
def Call.apply (cm : clusterManager) : Call → clusterManager
  | .AddOrUpdatePrimaryCluster config => (cluster.AddOrUpdatePrimaryCluster cm config).2
  | .UpdateClusterHosts clusterName priority hostConfigs =>
    (cluster.UpdateClusterHosts cm clusterName priority hostConfigs).2
  | .RemoveClusterHosts clusterName host => (cluster.RemoveClusterHosts cm clusterName host).2
  | .RemovePrimaryCluster clusterName => (cluster.RemovePrimaryCluster cm clusterName).2
  | .Lookup l chosen name => (l.call cm chosen name).2

/-- Every cluster of the manager is marked as added via the API. -/
def ViaApi (cm : clusterManager) : Prop :=
  ∀ name v, xprotocol.GoMap.Load cm.primaryClusters name = some v → v.addedViaApi = true

/-- Example manager: cluster `c1` with three hosts, as `NewClusterManager` builds it. -/
def exampleManager : clusterManager :=
  NewClusterManager [{ Name := "c1" }]
    [("c1", [ { Address := "10.0.0.1:80", Weight := 1 },
              { Address := "10.0.0.2:80", Weight := 1 },
              { Address := "10.0.0.3:80", Weight := 1 } ])]

end cluster

/-! ## Package `wasm`: the decode command -/

namespace wasm

/-- The constant `ResponseType`. -/
def ResponseType : Nat := 0

/-- The constant `RequestType`. -/
def RequestType : Nat := 1

/-- The constant `RequestOneWayType`. -/
def RequestOneWayType : Nat := 2

/-- The constant `HeartBeatFlag`, a byte. -/
def HeartBeatFlag : Nat := 1 <<< 5

/-- The constant `RpcRequestFlag`, a byte. -/
def RpcRequestFlag : Nat := 1 <<< 6

/-- The constant `RpcOneWayRequestFlag`, a byte. -/
def RpcOneWayRequestFlag : Nat := 1 <<< 6 ||| 1 <<< 7

/-- The constant `RpcResponseFlag`, a byte. -/
def RpcResponseFlag : Nat := 0

/-- The constant `BufferTypeDecodeData`. -/
def BufferTypeDecodeData : Int := 13

/-- The constant `BufferTypeEncodeData`. -/
def BufferTypeEncodeData : Int := 14

/-- The results of package `proxywasm` that the decode command returns. -/
inductive WasmResult where
  | Ok
  | BadArgument
  | InvalidMemoryAccess
  deriving DecidableEq, Repr

/-- The value of bytes read as a big-endian number. -/
def bigEndian (b : Bytes) : Nat := b.foldl (fun acc x => acc * 256 + x.toNat) 0

/-- Go standard library: `binary.BigEndian.Uint32(b)`; `none` is the index out of range
on fewer than four bytes. -/
def Uint32 (b : Bytes) : Option Nat :=
  if b.length < 4 then none else some (bigEndian (b.take 4))

/-- Go standard library: `binary.BigEndian.Uint64(b)`; `none` is the index out of range
on fewer than eight bytes. -/
def Uint64 (b : Bytes) : Option Nat :=
  if b.length < 8 then none else some (bigEndian (b.take 8))

/-- A Go byte slice with its capacity: its elements, and the bytes of its array after
them. -/
structure ByteSlice where
  bytes : Bytes := []
  spare : Bytes := []
  deriving DecidableEq, Repr

/-- The slice expression `content[lo:]`, whose low bound may not exceed the length;
`none` is the bounds out of range. -/
def sliceFrom (content : ByteSlice) (lo : Nat) : Option Bytes :=
  if lo ≤ content.bytes.length then some (content.bytes.drop lo) else none

/-- The slice expression `content[lo:hi]`, whose high bound may reach beyond the length
up to the capacity; `none` is the bounds out of range. -/
def sliceFromTo (content : ByteSlice) (lo hi : Nat) : Option Bytes :=
  if lo ≤ hi ∧ hi ≤ content.bytes.length + content.spare.length then
    some (((content.bytes ++ content.spare).drop lo).take (hi - lo))
  else none

/-- `IoBuffer.Drain` on a buffer whose `Bytes()` is the slice: the readable bytes lose
their first `n`. -/
def ByteSlice.Drain (buf : ByteSlice) (n : Nat) : ByteSlice :=
  { buf with bytes := xprotocol.Drain buf.bytes n }

/-- A decoded `*Request`: the `Flag` and id of its `RpcHeader`, its headers, `Timeout`,
payload and `Data`. -/
structure Request where
  Flag : Nat
  Id : Nat
  headers : List (Bytes × Bytes)
  Timeout : Nat := 0
  PayLoad : Bytes
  Data : Bytes := []
  deriving DecidableEq, Repr

/-- A decoded `*Response`: the `Flag` and id of its `RpcHeader`, its headers, `Status`,
payload and `Data`. -/
structure Response where
  Flag : Nat
  Id : Nat
  headers : List (Bytes × Bytes)
  Status : Nat := 0
  PayLoad : Bytes
  Data : Bytes := []
  deriving DecidableEq, Repr

/-- The command given to `SetDecodeCmd`. -/
inductive Command where
  | request (req : Request)
  | response (resp : Response)
  deriving DecidableEq, Repr

/-- The functions the decode command calls that are not part of the sources:
`xprotocol.DecodeHeader`, `NewWasmRequestWithId` and `NewWasmResponseWithId` (of an id,
the headers and the payload). -/
structure Imports where
  DecodeHeader : Bytes → List (Bytes × Bytes)
  NewWasmRequestWithId : Nat → List (Bytes × Bytes) → Bytes → Request
  NewWasmResponseWithId : Nat → List (Bytes × Bytes) → Bytes → Response

/-- The `ContextCallback` of an instance: the `Bytes()` of its decode buffer (`none`
when the buffer is nil), the decode command set and the encode buffer set. -/
structure Context where
  decodeBuffer : Option ByteSlice := none
  decodeCmd : Option Command := none
  encodeBuffer : Option Bytes := none
  deriving DecidableEq, Repr

/-- A `types.WasmInstance`: `GetMemory` (`none` is its error) and the context that
`getInstanceCallback` returns for it. -/
structure WasmInstance where
  GetMemory : Nat → Nat → Option ByteSlice
  ctx : Context

/-- `GetBuffer`: the decode buffer for `BufferTypeDecodeData`, nil otherwise. -/
def GetBuffer (inst : WasmInstance) (bufferType : Int) : Option ByteSlice :=
  if bufferType = BufferTypeDecodeData then inst.ctx.decodeBuffer else none

/-- `decodeWasmRequest`. The indices are `uint32`. `Except.error` is a run-time panic:
bounds out of range, or the nil buffer. -/
def decodeWasmRequest (imp : Imports) (inst : WasmInstance) (bufferType : Int)
    (content : ByteSlice) (headerBytes : Nat) (id : Nat) (headers : List (Bytes × Bytes))
    (flag : Nat) : Except String WasmInstance :=
  let timeoutIndex := (13 + headerBytes) % 2 ^ 32
  let drainIndex := (timeoutIndex + 4) % 2 ^ 32
  let rawIndex := (drainIndex + 4) % 2 ^ 32
  let byteIndex := (rawIndex + 4) % 2 ^ 32
  match (sliceFrom content timeoutIndex).bind Uint32,
      (sliceFrom content drainIndex).bind Uint32,
      (sliceFrom content rawIndex).bind Uint32 with
  | some timeout, some drainLen, some rawBytesLen =>
    match sliceFromTo content byteIndex ((byteIndex + rawBytesLen) % 2 ^ 32) with
    | none => .error "slice bounds out of range"
    | some payload =>
      let req := imp.NewWasmRequestWithId (id % 2 ^ 32) headers payload
      let req := { req with Timeout := timeout }
      let req :=
        if flag &&& HeartBeatFlag ≠ 0 then { req with Flag := req.Flag ||| HeartBeatFlag }
        else req
      let req :=
        if flag &&& RpcOneWayRequestFlag = RpcOneWayRequestFlag then
          { req with Flag := req.Flag ||| RpcOneWayRequestFlag }
        else req
      match GetBuffer inst bufferType with
      | none => .error "nil pointer dereference"
      | some buf =>
        match sliceFromTo buf 0 drainLen with
        | none => .error "slice bounds out of range"
        | some data =>
          let req := { req with Data := data }
          let ctx := inst.ctx
          let ctx :=
            if drainLen > 0 then
              match ctx.decodeBuffer with
              | some b => { ctx with decodeBuffer := some (b.Drain drainLen) }
              | none => ctx
            else ctx
          .ok { inst with ctx := { ctx with decodeCmd := some (.request req) } }
  | _, _, _ => .error "index out of range"

/-- `decodeWasmResponse`. -/
def decodeWasmResponse (imp : Imports) (inst : WasmInstance) (bufferType : Int)
    (content : ByteSlice) (headerBytes : Nat) (id : Nat) (headers : List (Bytes × Bytes))
    (flag : Nat) : Except String WasmInstance :=
  let timeoutIndex := (13 + headerBytes) % 2 ^ 32
  let drainIndex := (timeoutIndex + 4) % 2 ^ 32
  let rawIndex := (drainIndex + 4) % 2 ^ 32
  let byteIndex := (rawIndex + 4) % 2 ^ 32
  match (sliceFrom content timeoutIndex).bind Uint32,
      (sliceFrom content drainIndex).bind Uint32,
      (sliceFrom content rawIndex).bind Uint32 with
  | some status, some drainLen, some rawBytesLen =>
    match sliceFromTo content byteIndex ((byteIndex + rawBytesLen) % 2 ^ 32) with
    | none => .error "slice bounds out of range"
    | some payload =>
      let resp := imp.NewWasmResponseWithId (id % 2 ^ 32) headers payload
      let resp := { resp with Status := status }
      let resp :=
        if flag &&& HeartBeatFlag ≠ 0 then { resp with Flag := resp.Flag ||| HeartBeatFlag }
        else resp
      match GetBuffer inst bufferType with
      | none => .error "nil pointer dereference"
      | some buf =>
        match sliceFromTo buf 0 drainLen with
        | none => .error "slice bounds out of range"
        | some data =>
          let resp := { resp with Data := data }
          let ctx := inst.ctx
          let ctx :=
            if drainLen > 0 then
              match ctx.decodeBuffer with
              | some b => { ctx with decodeBuffer := some (b.Drain drainLen) }
              | none => ctx
            else ctx
          .ok { inst with ctx := { ctx with decodeCmd := some (.response resp) } }
  | _, _, _ => .error "index out of range"

/-- `proxySetDecodeCommand`: the result returned and the instance afterwards.
`bufferType`, `ptr` and `size` are `int32`; `Except.error` is a run-time panic. -/
def proxySetDecodeCommand (imp : Imports) (inst : WasmInstance)
    (bufferType _start _length ptr size : Int) : Except String (WasmResult × WasmInstance) :=
  match inst.GetMemory (ptr % 2 ^ 64).toNat (size % 2 ^ 64).toNat with
  | none => .ok (.InvalidMemoryAccess, inst)
  | some content =>
    match (sliceFromTo content 0 4).bind Uint32 with
    | none => .error "slice bounds out of range"
    | some headerBytes =>
      let headers := if headerBytes > 0 then imp.DecodeHeader (content.bytes.drop 4) else []
      match content.bytes[(4 + headerBytes) % 2 ^ 32]?,
          (sliceFrom content ((5 + headerBytes) % 2 ^ 32)).bind Uint64 with
      | some flag, some id =>
        let flag := flag.toNat
        let cmdType := flag >>> 6
        if cmdType = RequestType ∨ cmdType = RequestOneWayType then
          match decodeWasmRequest imp inst bufferType content headerBytes id headers flag with
          | .ok inst => .ok (.Ok, inst)
          | .error e => .error e
        else if cmdType = ResponseType then
          match decodeWasmResponse imp inst bufferType content headerBytes id headers flag with
          | .ok inst => .ok (.Ok, inst)
          | .error e => .error e
        else .ok (.BadArgument, inst)
      | _, _ => .error "index out of range"

/-- Example imports: no header decoding; new commands carry the flag of their kind. -/
def exampleImports : Imports :=
  { DecodeHeader := fun _ => []
    NewWasmRequestWithId := fun id headers payload =>
      { Flag := RpcRequestFlag, Id := id, headers := headers, PayLoad := payload }
    NewWasmResponseWithId := fun id headers payload =>
      { Flag := RpcResponseFlag, Id := id, headers := headers, PayLoad := payload } }

/-- A well-formed decode-command buffer with the given flag byte: no headers, id 7,
timeout 100, nothing to drain, and the two raw bytes 1, 2. -/
def exampleContent (flag : UInt8) : Bytes :=
  [0, 0, 0, 0, flag, 0, 0, 0, 0, 0, 0, 0, 7, 0, 0, 0, 100, 0, 0, 0, 0, 0, 0, 0, 2, 1, 2]

/-- An instance whose memory holds `exampleContent flag` at address 0 and whose decode
buffer is empty. `GetMemory` returns the bytes asked for, with the rest of the memory as
capacity. -/
def exampleInstance (flag : UInt8) : WasmInstance :=
  { GetMemory := fun ptr size =>
      if ptr + size ≤ (exampleContent flag).length then
        some { bytes := ((exampleContent flag).drop ptr).take size
               spare := (exampleContent flag).drop (ptr + size) }
      else none
    ctx := { decodeBuffer := some {} } }

end wasm

/-! ## Package `router`: header rewriting -/

namespace router

/-- The header key that a host rewrite sets, `authority` in the tests of the package. -/
def HostKey : String := "authority"

/-- A `headerPair` with a `plainHeaderFormatter`, as the tests of the package build it:
the name of the header, whether the entry appends, and its static value. -/
structure headerPair where
  headerName : String
  isAppend : Bool := false
  staticValue : String
  deriving DecidableEq, Repr

/-- A `headerParser`, as the tests of the package build it: the entries to add and the
names to remove. -/
structure headerParser where
  headersToAdd : List headerPair := []
  headersToRemove : List String := []
  deriving DecidableEq, Repr

/-- Modelled from the spec: "`to_add` entries are either *replace* (default) or *append*
(creating a comma-joined value when the header already exists)"; the formatting of a
`headerPair` is not part of the sources. The value a `to_add` entry gives its header,
from the value the header has (`none` when absent). -/
def headerPair.value (toAdd : headerPair) (current : Option String) : String :=
  match current with
  | some v => if toAdd.isAppend then v ++ "," ++ toAdd.staticValue else toAdd.staticValue
  | none => toAdd.staticValue

/-- Modelled from the spec: "Each level is a pair `{to_add[], to_remove[]}`";
`headerParser.evaluateHeaders` is not part of the sources. The entries to add are applied
in their declared order, then the names to remove are deleted; a level without a
rewriter (`none`) leaves the headers alone. -/
def evaluateHeaders (h : Option headerParser) (headers : xprotocol.Headers) :
    xprotocol.Headers :=
  match h with
  | none => headers
  | some h =>
    let headers := h.headersToAdd.foldl
      (fun headers toAdd =>
        xprotocol.GoMap.Store headers toAdd.headerName
          (toAdd.value (xprotocol.GoMap.Load headers toAdd.headerName)))
      headers
    h.headersToRemove.foldl (fun headers name => xprotocol.GoMap.Delete headers name) headers

/-- The struct `configImpl`, as the tests of the package build it. -/
structure configImpl where
  requestHeadersParser : Option headerParser := none
  responseHeadersParser : Option headerParser := none
  deriving DecidableEq, Repr

/-- The struct `VirtualHostImpl`, as the tests of the package build it. -/
structure VirtualHostImpl where
  virtualHostName : String := ""
  requestHeadersParser : Option headerParser := none
  responseHeadersParser : Option headerParser := none
  globalRouteConfig : Option configImpl := none
  deriving DecidableEq, Repr

/-- The struct `RouteRuleImplBase`, as the tests of the package build it. -/
structure RouteRuleImplBase where
  prefixRewrite : String := ""
  hostRewrite : String := ""
  requestHeadersParser : Option headerParser := none
  responseHeadersParser : Option headerParser := none
  vHost : Option VirtualHostImpl := none
  deriving DecidableEq, Repr

/-- Modelled from the spec: "Rewrites compose in this order on request headers:
rule-level → virtual-host-level → global" and "Host rewrite (`host_rewrite`) replaces
the `:authority` header"; `RouteRuleImplBase.FinalizeRequestHeaders` is not part of the
sources. The host rewrite belongs to the rule level. -/
def FinalizeRequestHeaders (rri : RouteRuleImplBase) (headers : xprotocol.Headers) :
    xprotocol.Headers :=
  let headers := evaluateHeaders rri.requestHeadersParser headers
  let headers :=
    if rri.hostRewrite.length > 0 then xprotocol.GoMap.Store headers HostKey rri.hostRewrite
    else headers
  match rri.vHost with
  | none => headers
  | some vHost =>
    let headers := evaluateHeaders vHost.requestHeadersParser headers
    match vHost.globalRouteConfig with
    | none => headers
    | some global => evaluateHeaders global.requestHeadersParser headers

/-- The `to_add` entries of a rule for request headers, level by level: rule, virtual
host, global. -/
def RouteRuleImplBase.requestEntries (rri : RouteRuleImplBase) : List headerPair :=
  (rri.requestHeadersParser.map (fun h => h.headersToAdd)).getD []
    ++ ((rri.vHost.bind (fun v => v.requestHeadersParser)).map (fun h => h.headersToAdd)).getD []
    ++ (((rri.vHost.bind (fun v => v.globalRouteConfig)).bind
          (fun g => g.requestHeadersParser)).map (fun h => h.headersToAdd)).getD []

/-- The names that a rule removes from request headers at some level. -/
def RouteRuleImplBase.requestRemoved (rri : RouteRuleImplBase) : List String :=
  (rri.requestHeadersParser.map (fun h => h.headersToRemove)).getD []
    ++ ((rri.vHost.bind (fun v => v.requestHeadersParser)).map
          (fun h => h.headersToRemove)).getD []
    ++ (((rri.vHost.bind (fun v => v.globalRouteConfig)).bind
          (fun g => g.requestHeadersParser)).map (fun h => h.headersToRemove)).getD []

/-- An append entry for header `level` and one for the header `name`. -/
def exampleParser (level name : String) : headerParser :=
  { headersToAdd :=
      [ { headerName := "level", isAppend := true, staticValue := level },
        { headerName := name, isAppend := true, staticValue := "true" } ] }

/-- A rule with rewriters at all three levels, with the `level` values 1, 2 and 3. -/
def exampleRule : RouteRuleImplBase :=
  { requestHeadersParser := some (exampleParser "1" "route")
    vHost := some
      { requestHeadersParser := some (exampleParser "2" "vhost")
        globalRouteConfig := some { requestHeadersParser := some (exampleParser "3" "global") } } }

/-- The rule of `exampleRule` without a rewriter at the virtual-host level. -/
def exampleRuleNoVhost : RouteRuleImplBase :=
  { requestHeadersParser := some (exampleParser "1" "route")
    vHost := some
      { globalRouteConfig := some { requestHeadersParser := some (exampleParser "3" "global") } } }

end router

end Mosn



/-! # Theorems -/

namespace Mosn

open bolt xprotocol

/-- C3: for duplicate-free case constants (which Go enforces for a `switch`), `Mapping`
sends 200 to Success (0), the router-unavailable code to NoProcessor (6), the
no-healthy-upstream code to ConnectionClosed (10), the upstream-overflow code to
ServerThreadpoolBusy (4), the codec-exception code to CodecException (9), the
deserialisation-exception code to ServerDeserialException (12), the timeout code to
Timeout (7), and every other status to Unknown (3). -/
theorem C3_Mapping_table (t : types.ExceptionCodes) (hd : t.cases.Nodup) (h : Nat) :
    (h = 200 → Mapping t h = 0) ∧
    (h = t.RouterUnavailableCode → Mapping t h = 6) ∧
    (h = t.NoHealthUpstreamCode → Mapping t h = 10) ∧
    (h = t.UpstreamOverFlowCode → Mapping t h = 4) ∧
    (h = t.CodecExceptionCode → Mapping t h = 9) ∧
    (h = t.DeserialExceptionCode → Mapping t h = 12) ∧
    (h = t.TimeoutExceptionCode → Mapping t h = 7) ∧
    (h ∉ t.cases → Mapping t h = 3) := by
  simp only [types.ExceptionCodes.cases, http.StatusOK, List.nodup_cons, List.mem_cons,
    List.mem_singleton, List.not_mem_nil, not_or, or_false] at hd ⊢
  obtain ⟨⟨h1, h2, h3, h4, h5, h6⟩, ⟨g2, g3, g4, g5, g6⟩, ⟨k3, k4, k5, k6⟩, ⟨l4, l5, l6⟩,
    ⟨m5, m6⟩, n6, -⟩ := hd
  refine ⟨?_, ?_, ?_, ?_, ?_, ?_, ?_, ?_⟩
  · rintro rfl; simp [Mapping, http.StatusOK, ResponseStatusSuccess]
  · rintro rfl; simp [Mapping, http.StatusOK, ResponseStatusNoProcessor, Ne.symm h1]
  · rintro rfl
    simp [Mapping, http.StatusOK, ResponseStatusConnectionClosed, Ne.symm h2, Ne.symm g2]
  · rintro rfl
    simp [Mapping, http.StatusOK, ResponseStatusServerThreadpoolBusy, Ne.symm h3, Ne.symm g3,
      Ne.symm k3]
  · rintro rfl
    simp [Mapping, http.StatusOK, ResponseStatusCodecException, Ne.symm h4, Ne.symm g4,
      Ne.symm k4, Ne.symm l4]
  · rintro rfl
    simp [Mapping, http.StatusOK, ResponseStatusServerDeserialException, Ne.symm h5,
      Ne.symm g5, Ne.symm k5, Ne.symm l5, Ne.symm m5]
  · rintro rfl
    simp [Mapping, http.StatusOK, ResponseStatusTimeout, Ne.symm h6, Ne.symm g6, Ne.symm k6,
      Ne.symm l6, Ne.symm m6, Ne.symm n6]
  · rintro ⟨a, b, c, d, e, f, g⟩
    simp [Mapping, http.StatusOK, ResponseStatusUnknown, a, b, c, d, e, f, g]

/-- Witness of C3 at the codes 404, 502, 503, 0, 3, 504: status 502 (no healthy upstream)
maps to ConnectionClosed and status 418, no case constant, maps to Unknown. -/
theorem C3_Mapping_table_witness :
    types.exampleCodes.cases.Nodup ∧ Mapping types.exampleCodes 502 = 10 ∧
      Mapping types.exampleCodes 418 = 3 :=
  ⟨by decide, (C3_Mapping_table types.exampleCodes (by decide) 502).2.2.1 rfl,
    (C3_Mapping_table types.exampleCodes (by decide) 418).2.2.2.2.2.2.2 (by decide)⟩

/-- C4: on a buffer shorter than `LessLen` (the empty buffer included) `Decode` returns
no frame and no error, without a run-time error, and the buffer keeps all its bytes. -/
theorem C4_Decode_short_buffer (c : Consts)
    (decodeRequest : Bytes → Bool → Except String DecodeResult)
    (decodeResponse : Bytes → Except String DecodeResult) (data : Bytes)
    (hlen : data.length < c.LessLen) :
    Decode c decodeRequest decodeResponse data
      = .ok { frame := none, err := none, data := data } := by
  unfold Decode
  rw [if_neg (by omega)]

/-- Witness of C4: a two-byte buffer against `LessLen = 20`, with decoders that would
fail if they were reached. -/
theorem C4_Decode_short_buffer_witness :
    ([1, 1] : Bytes).length < exampleConsts.LessLen ∧
      Decode exampleConsts (fun _ _ => .error "decodeRequest") (fun _ => .error "decodeResponse")
          [1, 1]
        = .ok { frame := none, err := none, data := [1, 1] } :=
  ⟨by decide, C4_Decode_short_buffer exampleConsts _ _ [1, 1] (by decide)⟩

/-- C5: on a buffer of at least `LessLen` bytes whose byte at offset 1 is none of
Response (0), Request (1), OnewayRequest (2), `Decode` returns the decode error for that
byte and no frame, and the buffer keeps all its bytes. -/
theorem C5_Decode_unknown_cmd_type (c : Consts)
    (decodeRequest : Bytes → Bool → Except String DecodeResult)
    (decodeResponse : Bytes → Except String DecodeResult) (data : Bytes) (cmdType : UInt8)
    (hlen : c.LessLen ≤ data.length) (hbyte : data[1]? = some cmdType)
    (h0 : cmdType ≠ 0) (h1 : cmdType ≠ 1) (h2 : cmdType ≠ 2) :
    Decode c decodeRequest decodeResponse data
      = .ok { frame := none, err := some (.DecodeError c.UnKnownCmdType cmdType),
              data := data } := by
  unfold Decode
  rw [if_pos (by omega), hbyte]
  simp [CmdTypeRequest, CmdTypeRequestOneway, CmdTypeResponse, h0, h1, h2]

/-- Witness of C5: a three-byte buffer with command type 7 against `LessLen = 2`. -/
theorem C5_Decode_unknown_cmd_type_witness :
    2 ≤ ([1, 7, 0] : Bytes).length ∧ ([1, 7, 0] : Bytes)[1]? = some 7 ∧
      Decode { exampleConsts with LessLen := 2 } (fun _ _ => .error "decodeRequest")
          (fun _ => .error "decodeResponse") [1, 7, 0]
        = .ok { frame := none, err := some (.DecodeError "unknown cmd type" 7),
                data := [1, 7, 0] } :=
  ⟨by decide, by decide,
    C5_Decode_unknown_cmd_type { exampleConsts with LessLen := 2 } _ _ [1, 7, 0] 7
      (by decide) (by decide) (by decide) (by decide) (by decide)⟩

/-- C6 (as stated) fails: the heartbeat request built for the 64-bit id `2 ^ 32` reads
back the id 0. -/
theorem C6_Trigger_id_counterexample :
    2 ^ 32 < 2 ^ 64 ∧ (Trigger exampleConsts (2 ^ 32)).GetRequestId = 0 ∧
      (Trigger exampleConsts (2 ^ 32)).GetRequestId ≠ 2 ^ 32 := by
  decide

/-- C6 (amended): for every request id `n` the heartbeat request built by `Trigger`
carries the low 32 bits of `n` as its request id; it is a Request frame with command
code Heartbeat, timeout -1 and empty class, header and content. -/
theorem C6_Trigger_low_bits (c : Consts) (n : Nat) :
    (Trigger c n).GetRequestId = n % 2 ^ 32 ∧
    (Trigger c n).RequestHeader.CmdType = CmdTypeRequest ∧
    (Trigger c n).RequestHeader.CmdCode = c.CmdCodeHeartbeat ∧
    (Trigger c n).RequestHeader.Timeout = -1 ∧
    (Trigger c n).RequestHeader.Class = "" ∧
    (Trigger c n).RequestHeader.ClassLen = 0 ∧
    (Trigger c n).RequestHeader.BytesHeader = [] ∧
    (Trigger c n).RequestHeader.HeaderLen = 0 ∧
    (Trigger c n).Content = [] ∧
    (Trigger c n).RequestHeader.ContentLen = 0 := by
  refine ⟨?_, rfl, rfl, rfl, rfl, rfl, rfl, rfl, rfl, rfl⟩
  show n % 2 ^ 32 % 2 ^ 64 = n % 2 ^ 32
  omega

/-- C7: for every request id `n`, `Reply n` is a Response frame with command code
Heartbeat, status Success (0), empty class, header and content, and the same request id
as the heartbeat request `Trigger n`. -/
theorem C7_Reply_matches_Trigger (c : Consts) (n : Nat) :
    (Reply c n).ResponseHeader.CmdType = CmdTypeResponse ∧
    (Reply c n).ResponseHeader.CmdCode = c.CmdCodeHeartbeat ∧
    (Reply c n).GetStatusCode = 0 ∧
    (Reply c n).ResponseHeader.Class = "" ∧
    (Reply c n).ResponseHeader.ClassLen = 0 ∧
    (Reply c n).ResponseHeader.BytesHeader = [] ∧
    (Reply c n).ResponseHeader.HeaderLen = 0 ∧
    (Reply c n).Content = [] ∧
    (Reply c n).ResponseHeader.ContentLen = 0 ∧
    (Reply c n).GetRequestId = (Trigger c n).GetRequestId :=
  ⟨rfl, rfl, rfl, rfl, rfl, rfl, rfl, rfl, rfl, rfl⟩

/-- C8 (as stated) fails: the response built for the 32-bit status `65536` reads back
the status 0. -/
theorem C8_Hijack_status_counterexample :
    65536 < 2 ^ 32 ∧ (Hijack exampleConsts 65536).GetStatusCode = 0 ∧
      (Hijack exampleConsts 65536).GetStatusCode ≠ 65536 := by
  decide

/-- C8 (amended): for every status code `s` the response built by `Hijack` carries the
low 16 bits of `s` as its status; its command type is Response, its command code is
RpcResponse and its request id is 0. -/
theorem C8_Hijack_low_bits (c : Consts) (s : Nat) :
    (Hijack c s).GetStatusCode = s % 2 ^ 16 ∧
    (Hijack c s).ResponseHeader.CmdType = CmdTypeResponse ∧
    (Hijack c s).ResponseHeader.CmdCode = c.CmdCodeRpcResponse ∧
    (Hijack c s).GetRequestId = 0 := by
  refine ⟨?_, rfl, rfl, rfl⟩
  show s % 2 ^ 16 % 2 ^ 32 = s % 2 ^ 16
  omega

/-! ## Stream layer: Go maps -/

/-- A deleted key is absent. -/
theorem GoMap.Load_Delete_self {β : Type} (m : GoMap β) (key : String) :
    GoMap.Load (GoMap.Delete m key) key = none := by
  induction m with
  | nil => rfl
  | cons p m ih =>
    obtain ⟨k, v⟩ := p
    by_cases hk : k = key
    · simpa [GoMap.Delete, List.filter_cons, hk] using ih
    · simpa [GoMap.Delete, List.filter_cons, hk, GoMap.Load] using ih

/-- Deleting a key leaves the other keys alone. -/
theorem GoMap.Load_Delete_ne {β : Type} (m : GoMap β) {key key' : String} (h : key' ≠ key) :
    GoMap.Load (GoMap.Delete m key) key' = GoMap.Load m key' := by
  induction m with
  | nil => rfl
  | cons p m ih =>
    obtain ⟨k, v⟩ := p
    by_cases hk : k = key
    · subst hk
      simpa [GoMap.Delete, List.filter_cons, GoMap.Load, Ne.symm h] using ih
    · by_cases hk' : k = key'
      · subst hk'
        simp [GoMap.Delete, List.filter_cons, hk, GoMap.Load]
      · simpa [GoMap.Delete, List.filter_cons, hk, GoMap.Load, hk'] using ih

/-- A stored key loads the stored value. -/
theorem GoMap.Load_Store_self {β : Type} (m : GoMap β) (key : String) (v : β) :
    GoMap.Load (GoMap.Store m key v) key = some v := by
  simp [GoMap.Store, GoMap.Load]

/-- Storing a key leaves the other keys alone. -/
theorem GoMap.Load_Store_ne {β : Type} (m : GoMap β) {key key' : String} (v : β)
    (h : key' ≠ key) : GoMap.Load (GoMap.Store m key v) key' = GoMap.Load m key' := by
  simp [GoMap.Store, GoMap.Load, Ne.symm h, GoMap.Load_Delete_ne m h]

/-! ## The example codec -/

/-- The byte of a number is the number modulo 256. -/
theorem exampleCodec_toNat_ofNat (k : Nat) : (UInt8.ofNat k).toNat = k % 256 := rfl

/-- Code points fit in three bytes. -/
theorem exampleCodec_char_lt (c : Char) : c.toNat < 1114112 := by
  have h := c.valid
  unfold UInt32.isValidChar Nat.isValidChar at h
  show c.val.toNat < 1114112
  omega

/-- The terminator ends the id. -/
theorem exampleCodec_decodeId_zero (p : Bytes) : exampleCodec.decodeId (0 :: p) = [] := by
  rcases p with _ | ⟨a, _ | ⟨b, _ | ⟨c, r⟩⟩⟩ <;> simp [exampleCodec.decodeId]

/-- Decoding an encoded id, whatever follows it, gives the id. -/
theorem exampleCodec_decodeId_encodeId (cs : List Char) (p : Bytes) :
    exampleCodec.decodeId (exampleCodec.encodeId cs ++ p) = cs := by
  induction cs with
  | nil => exact exampleCodec_decodeId_zero p
  | cons c cs ih =>
    have hc := exampleCodec_char_lt c
    simp only [exampleCodec.encodeId, List.cons_append, exampleCodec.decodeId, if_true, ih,
      exampleCodec_toNat_ofNat]
    congr 1
    have : c.toNat / 65536 % 256 * 65536 + c.toNat / 256 % 256 % 256 * 256
        + c.toNat % 256 % 256 = c.toNat := by
      omega
    rw [this, Char.ofNat_toNat]

/-- The example codec is lawful. -/
theorem exampleCodec_lawful : Lawful exampleCodec := by
  intro b id
  show String.mk (exampleCodec.decodeId (exampleCodec.encodeId id.data ++ exampleCodec.payload b))
    = id
  rw [exampleCodec_decodeId_encodeId]

/-! ## Stream layer: frame lemmas -/

/-- With a lawful codec `changeStreamId` returns the decimal rendering of the new counter
value and the frame rewritten to it. -/
theorem changeStreamId_of_lawful (conn : streamConnection) (count : Nat) (request : Bytes)
    (hlaw : Lawful conn.codec) :
    changeStreamId conn count request
      = ((FormatUint ((count + 1) % 2 ^ 64),
          conn.codec.SetStreamId request (FormatUint ((count + 1) % 2 ^ 64))),
         (count + 1) % 2 ^ 64) := by
  simp only [changeStreamId, hlaw _ _]

/-- `onNewStreamDetected` touches only the stream table and the trace. -/
theorem onNewStreamDetected_frame (conn : streamConnection) (newStream : String → Nat)
    (streamID : String) (headers : Headers) :
    (onNewStreamDetected conn newStream streamID headers).codec = conn.codec ∧
    (onNewStreamDetected conn newStream streamID headers).serverCallbacks = conn.serverCallbacks ∧
    (onNewStreamDetected conn newStream streamID headers).clientCallbacks = conn.clientCallbacks ∧
    (onNewStreamDetected conn newStream streamID headers).reqIdMap = conn.reqIdMap ∧
    (onNewStreamDetected conn newStream streamID headers).streamIdMap = conn.streamIdMap := by
  unfold onNewStreamDetected
  split <;> simp

/-- `OnReceiveHeaders` touches only the stream table and the trace. -/
theorem OnReceiveHeaders_frame (conn : streamConnection) (streamID : String) (headers : Headers) :
    (OnReceiveHeaders conn streamID headers).codec = conn.codec ∧
    (OnReceiveHeaders conn streamID headers).serverCallbacks = conn.serverCallbacks ∧
    (OnReceiveHeaders conn streamID headers).clientCallbacks = conn.clientCallbacks ∧
    (OnReceiveHeaders conn streamID headers).reqIdMap = conn.reqIdMap ∧
    (OnReceiveHeaders conn streamID headers).streamIdMap = conn.streamIdMap := by
  unfold OnReceiveHeaders
  cases hs : conn.serverCallbacks with
  | none => simp only []; split <;> simp [hs]
  | some f =>
    have h := onNewStreamDetected_frame conn f streamID headers
    simp only []
    split <;> simp [h, hs]

/-- `OnReceiveData` touches only the stream table and the trace. -/
theorem OnReceiveData_frame (conn : streamConnection) (streamID : String) (data : Bytes) :
    (OnReceiveData conn streamID data).codec = conn.codec ∧
    (OnReceiveData conn streamID data).serverCallbacks = conn.serverCallbacks ∧
    (OnReceiveData conn streamID data).clientCallbacks = conn.clientCallbacks ∧
    (OnReceiveData conn streamID data).reqIdMap = conn.reqIdMap ∧
    (OnReceiveData conn streamID data).streamIdMap = conn.streamIdMap := by
  unfold OnReceiveData
  split
  · split <;> simp
  · simp

/-- One server-role iteration of the loop of `Dispatch`: the counter advances by one and
the new local id is recorded against the id the frame arrived with. -/
theorem body_server (k : HeaderKeys) (st : DispatchState) (request : Bytes)
    (hserver : st.conn.serverCallbacks.isSome = true) (hlaw : Lawful st.conn.codec) :
    (Dispatch.body k st request).conn.codec = st.conn.codec ∧
    (Dispatch.body k st request).conn.serverCallbacks = st.conn.serverCallbacks ∧
    (Dispatch.body k st request).count = (st.count + 1) % 2 ^ 64 ∧
    (Dispatch.body k st request).conn.reqIdMap
      = GoMap.Store st.conn.reqIdMap (FormatUint ((st.count + 1) % 2 ^ 64))
          (st.conn.codec.GetStreamId (converted st.conn.codec request)) := by
  simp only [Dispatch.body, hserver, if_true, changeStreamId_of_lawful _ _ _ hlaw, converted]
  simp only [(OnReceiveData_frame _ _ _).1, (OnReceiveData_frame _ _ _).2.1,
    (OnReceiveData_frame _ _ _).2.2.2.1, (OnReceiveHeaders_frame _ _ _).1,
    (OnReceiveHeaders_frame _ _ _).2.1, (OnReceiveHeaders_frame _ _ _).2.2.2.1]
  cases hc : st.conn.codec.Convert <;> simp

/-! ## Decimal stream ids -/

/-- A decimal digit character carries its digit. -/
theorem digitChar_value (d : Nat) (hd : d < 10) : (Nat.digitChar d).toNat - 48 = d := by
  interval_cases d <;> rfl

/-- Reading the digits produced by `Nat.toDigitsCore` gives the number back. -/
theorem foldl_toDigitsCore (fuel : Nat) : ∀ (n : Nat) (ds : List Char), n < fuel →
    (Nat.toDigitsCore 10 fuel n ds).foldl (fun acc c => 10 * acc + (c.toNat - 48)) 0
      = ds.foldl (fun acc c => 10 * acc + (c.toNat - 48)) n := by
  induction fuel with
  | zero => intro n ds h; omega
  | succ fuel ih =>
    intro n ds h
    unfold Nat.toDigitsCore
    by_cases h0 : n / 10 = 0
    · simp only [h0, if_true, List.foldl_cons]
      rw [digitChar_value _ (Nat.mod_lt _ (by decide))]
      congr 1
      omega
    · simp only [h0, if_false]
      rw [ih (n / 10) _ (by omega)]
      simp only [List.foldl_cons]
      rw [digitChar_value _ (Nat.mod_lt _ (by decide))]
      congr 1
      omega

/-- `ParseUint` inverts `FormatUint`. -/
theorem ParseUint_FormatUint (n : Nat) : ParseUint (FormatUint n) = n := by
  show (Nat.toDigits 10 n).foldl _ 0 = n
  unfold Nat.toDigits
  rw [foldl_toDigitsCore _ _ _ (Nat.lt_succ_self n)]
  rfl

/-- Distinct numbers have distinct decimal renderings. -/
theorem FormatUint_injective {a b : Nat} (h : FormatUint a = FormatUint b) : a = b := by
  have := congrArg ParseUint h
  rwa [ParseUint_FormatUint, ParseUint_FormatUint] at this

/-- A server-role run of the loop of `Dispatch` over the frames `fs`: the counter advances
by their number, and a key that is none of the ids handed out keeps its entry. -/
theorem foldl_body_server (k : HeaderKeys) (fs : List Bytes) : ∀ (st : DispatchState),
    st.conn.serverCallbacks.isSome = true → Lawful st.conn.codec →
    (fs.foldl (Dispatch.body k) st).conn.codec = st.conn.codec ∧
    (fs.foldl (Dispatch.body k) st).conn.serverCallbacks = st.conn.serverCallbacks ∧
    (fs.foldl (Dispatch.body k) st).count % 2 ^ 64 = (st.count + fs.length) % 2 ^ 64 ∧
    ∀ key : String, (∀ j, j < fs.length → FormatUint ((st.count + j + 1) % 2 ^ 64) ≠ key) →
      GoMap.Load (fs.foldl (Dispatch.body k) st).conn.reqIdMap key
        = GoMap.Load st.conn.reqIdMap key := by
  induction fs with
  | nil => intro st _ _; simp
  | cons f fs ih =>
    intro st hserver hlaw
    obtain ⟨b1, b2, b3, b4⟩ := body_server k st f hserver hlaw
    obtain ⟨i1, i2, i3, i4⟩ := ih (Dispatch.body k st f) (by rw [b2]; exact hserver)
      (by rw [b1]; exact hlaw)
    simp only [List.foldl_cons, List.length_cons]
    refine ⟨i1.trans b1, i2.trans b2, ?_, ?_⟩
    · rw [i3, b3]; omega
    · intro key hkey
      rw [i4 key, b4, GoMap.Load_Store_ne]
      · exact Ne.symm (hkey 0 (by omega))
      · intro j hj
        have := hkey (j + 1) (by omega)
        rw [b3]
        have e : ((st.count + 1) % 2 ^ 64 + j + 1) % 2 ^ 64 = (st.count + (j + 1) + 1) % 2 ^ 64 := by
          omega
        rw [e]; exact this

/-- C2: on a server-role connection with a lawful codec, let `Dispatch` receive a buffer
whose `i`-th frame has (after conversion) the id `r`; the frame is assigned the local id
`s`, the decimal rendering of the counter value `count + i + 1`, and `reqIdMap` records
`s -> r`. Then `AppendData` on a server stream with response bytes whose id is `s` sets
`encodedData` to that response with its id rewritten to `r`. -/
theorem C2_server_request_id_restored (k : HeaderKeys) (conn : streamConnection) (count : Nat)
    (buffer : Bytes) (i : Nat) (request : Bytes) (s : stream) (data : Bytes)
    (endStreamFlag : Bool)
    (hlaw : Lawful conn.codec) (hserver : conn.serverCallbacks.isSome = true)
    (hframes : (conn.codec.SplitFrame buffer).length ≤ 2 ^ 64)
    (hi : (conn.codec.SplitFrame buffer)[i]? = some request)
    (hdir : s.direction = .ServerStream)
    (hid : conn.codec.GetStreamId data = FormatUint ((count + i + 1) % 2 ^ 64)) :
    GoMap.Load (Dispatch k conn count buffer).conn.reqIdMap (FormatUint ((count + i + 1) % 2 ^ 64))
      = some (conn.codec.GetStreamId (converted conn.codec request)) ∧
    (AppendData (Dispatch k conn count buffer).conn (Dispatch k conn count buffer).count s data
        endStreamFlag).1.encodedData
      = some (conn.codec.SetStreamId data
          (conn.codec.GetStreamId (converted conn.codec request))) := by
  obtain ⟨hlt, hreq⟩ := List.getElem?_eq_some.mp hi
  have hsplit : conn.codec.SplitFrame buffer
      = (conn.codec.SplitFrame buffer).take i
          ++ request :: (conn.codec.SplitFrame buffer).drop (i + 1) := by
    rw [← hreq, ← List.drop_eq_getElem_cons hlt, List.take_append_drop]
  have hpre : ((conn.codec.SplitFrame buffer).take i).length = i := by
    rw [List.length_take]; omega
  have hpost : ((conn.codec.SplitFrame buffer).drop (i + 1)).length + i + 1 ≤ 2 ^ 64 := by
    rw [List.length_drop]; omega
  generalize (conn.codec.SplitFrame buffer).take i = pre at hsplit hpre
  generalize (conn.codec.SplitFrame buffer).drop (i + 1) = post at hsplit hpost
  have hload : GoMap.Load (Dispatch k conn count buffer).conn.reqIdMap
      (FormatUint ((count + i + 1) % 2 ^ 64))
      = some (conn.codec.GetStreamId (converted conn.codec request)) ∧
      (Dispatch k conn count buffer).conn.codec = conn.codec := by
    unfold Dispatch
    rw [hsplit, List.foldl_append, List.foldl_cons]
    obtain ⟨a1, a2, a3, -⟩ := foldl_body_server k pre
      { conn := conn, count := count, buffer := buffer } hserver hlaw
    simp only [] at a1 a2 a3
    generalize pre.foldl (Dispatch.body k) { conn := conn, count := count, buffer := buffer }
      = st1 at a1 a2 a3
    have hs1 : st1.conn.serverCallbacks.isSome = true := by rw [a2]; exact hserver
    have hl1 : Lawful st1.conn.codec := by rw [a1]; exact hlaw
    obtain ⟨b1, b2, b3, b4⟩ := body_server k st1 request hs1 hl1
    obtain ⟨c1, -, -, c4⟩ := foldl_body_server k post (Dispatch.body k st1 request)
      (by rw [b2]; exact hs1) (by rw [b1]; exact hl1)
    have hkey : (st1.count + 1) % 2 ^ 64 = (count + i + 1) % 2 ^ 64 := by
      rw [hpre] at a3; omega
    refine ⟨?_, c1.trans (b1.trans a1)⟩
    rw [c4, b4, hkey, GoMap.Load_Store_self, a1]
    intro j hj hEq
    have := FormatUint_injective hEq
    rw [b3, hkey] at this
    omega
  obtain ⟨h1, h2⟩ := hload
  refine ⟨h1, ?_⟩
  generalize Dispatch k conn count buffer = st at h1 h2
  unfold AppendData
  simp only [hdir, h2, hid, h1]
  cases endStreamFlag <;> simp

/-- Witness of C2: the example server receives `exampleRequest` (id 42) with the counter
at 99; the response with id 100 is rewritten to id 42. -/
theorem C2_server_request_id_restored_witness :
    (AppendData (Dispatch exampleKeys exampleServer 99 exampleRequest).conn
        (Dispatch exampleKeys exampleServer 99 exampleRequest).count
        { streamID := "100", direction := .ServerStream, decoder := 5 }
        exampleResponse true).1.encodedData
      = some (exampleCodec.SetStreamId exampleResponse "42") :=
  (C2_server_request_id_restored exampleKeys exampleServer 99 exampleRequest 0 exampleRequest
    { streamID := "100", direction := .ServerStream, decoder := 5 } exampleResponse true
    exampleCodec_lawful (by decide) (by decide) (by decide) (by decide) (by decide)).2

/-- The ids of a run of allocations are the decimal renderings of the successive counter
values. -/
theorem allocate_ids (calls : List (streamConnection × Bytes)) : ∀ (count : Nat),
    (∀ c ∈ calls, Lawful c.1.codec) →
    (allocate count calls).1
      = (List.range calls.length).map (fun i => FormatUint ((count + i + 1) % 2 ^ 64)) := by
  induction calls with
  | nil => intro count _; rfl
  | cons c calls ih =>
    intro count hlaw
    obtain ⟨conn, request⟩ := c
    have hc : Lawful conn.codec := hlaw (conn, request) (List.mem_cons_self _ _)
    simp only [allocate, changeStreamId_of_lawful conn count request hc, List.length_cons,
      List.range_succ_eq_map, List.map_cons, List.map_map]
    rw [ih _ (fun c hc => hlaw c (List.mem_cons_of_mem _ hc))]
    congr 1
    apply List.map_congr_left
    intro i _
    simp only [Function.comp]
    congr 1
    omega

/-- C9: every call of `changeStreamId` moves the package counter to its successor
(modulo `2 ^ 64`) and, for a lawful codec, returns the decimal rendering of the new
counter value together with the frame rewritten to that id. Hence the ids of a run of
allocations, on whatever connections, are the renderings of successive counter values:
they are pairwise distinct within any `2 ^ 64` calls, and their values increase in call
order as long as the counter does not wrap. -/
theorem C9_changeStreamId_counter (conn : streamConnection) (request : Bytes)
    (calls : List (streamConnection × Bytes)) (count : Nat)
    (hconn : Lawful conn.codec) (hcalls : ∀ c ∈ calls, Lawful c.1.codec)
    (hlen : calls.length ≤ 2 ^ 64) :
    (changeStreamId conn count request).2 = (count + 1) % 2 ^ 64 ∧
    (changeStreamId conn count request).1
      = (FormatUint ((count + 1) % 2 ^ 64),
         conn.codec.SetStreamId request (FormatUint ((count + 1) % 2 ^ 64))) ∧
    (allocate count calls).1
      = (List.range calls.length).map (fun i => FormatUint ((count + i + 1) % 2 ^ 64)) ∧
    (allocate count calls).1.Nodup ∧
    (count + calls.length < 2 ^ 64 →
      ((allocate count calls).1.map ParseUint).Pairwise (fun a b => a < b)) := by
  refine ⟨rfl, ?_, allocate_ids calls count hcalls, ?_, ?_⟩
  · rw [changeStreamId_of_lawful conn count request hconn]
  · rw [allocate_ids calls count hcalls]
    refine List.Nodup.map_on ?_ (List.nodup_range _)
    intro i hi j hj hEq
    have := FormatUint_injective hEq
    rw [List.mem_range] at hi hj
    omega
  · intro hwrap
    rw [allocate_ids calls count hcalls, List.map_map, List.pairwise_map]
    refine List.Pairwise.imp_of_mem ?_ (List.pairwise_lt_range _)
    intro i j hi hj hij
    rw [List.mem_range] at hi hj
    simp only [Function.comp, ParseUint_FormatUint]
    omega

/-- Witness of C9: from the counter value 41, a call moves the counter to 42, and three
allocations on two connections return the ids 42, 43, 44. -/
theorem C9_changeStreamId_counter_witness :
    (changeStreamId exampleClient 41 [0, 7]).2 = 42 ∧
    (allocate 41 [(exampleClient, [0, 7]), (exampleServer, [0, 8]), (exampleClient, [0, 9])]).1
      = ["42", "43", "44"] := by
  have h := C9_changeStreamId_counter exampleClient [0, 7]
    [(exampleClient, [0, 7]), (exampleServer, [0, 8]), (exampleClient, [0, 9])] 41
    exampleCodec_lawful
    (by intro c hc
        simp only [List.mem_cons, List.mem_singleton, List.not_mem_nil, or_false] at hc
        rcases hc with rfl | rfl | rfl <;> exact exampleCodec_lawful)
    (by simp)
  exact ⟨h.1, h.2.2.1⟩

/-! ## The stream table -/

/-- A removed stream id is absent from the table. -/
theorem streamMap.Get_Remove_self (m : streamMap) (streamID : String) :
    (m.Remove streamID).Get streamID = none :=
  GoMap.Load_Delete_self m.smap streamID

/-- Removing a stream id leaves the other entries alone. -/
theorem streamMap.Get_Remove_ne (m : streamMap) {streamID key : String} (h : key ≠ streamID) :
    (m.Remove streamID).Get key = m.Get key :=
  GoMap.Load_Delete_ne m.smap h

/-- C10: for a client-role stream `s` present in the table under its stream id,
`OnReceiveData` hands the response (rewritten to `s.reqId`) to the stream's receiver with
the end-of-stream flag, and afterwards the table has no entry for the stream id; for a
server-role stream `sv` whose id is in the table of its connection, `endStream` writes
`sv.encodedData` and afterwards the table has no entry for the stream id. In both cases
every other stream id keeps its entry. -/
theorem C10_completed_exchange_leaves_table
    (conn : streamConnection) (streamID : String) (s : stream) (data : Bytes)
    (conn' : streamConnection) (sv : stream)
    (hget : conn.activeStream.Get streamID = some s) (hkey : s.streamID = streamID)
    (hdir : s.direction = .ClientStream)
    (hhas : conn'.activeStream.Has sv.streamID = true) (hdir' : sv.direction = .ServerStream) :
    ((OnReceiveData conn streamID data).events
        = conn.events ++ [Event.OnReceiveData s.decoder (conn.codec.SetStreamId data s.reqId) true] ∧
      (OnReceiveData conn streamID data).activeStream.Get streamID = none ∧
      ∀ key, key ≠ streamID →
        (OnReceiveData conn streamID data).activeStream.Get key = conn.activeStream.Get key) ∧
    ((endStream conn' sv).events = conn'.events ++ [Event.Write sv.encodedData] ∧
      (endStream conn' sv).activeStream.Get sv.streamID = none ∧
      ∀ key, key ≠ sv.streamID →
        (endStream conn' sv).activeStream.Get key = conn'.activeStream.Get key) := by
  constructor
  · simp only [OnReceiveData, hget, hdir, if_true, hkey]
    exact ⟨trivial, streamMap.Get_Remove_self _ _, fun key h => streamMap.Get_Remove_ne _ h⟩
  · have hsome : ∃ t, conn'.activeStream.Get sv.streamID = some t := by
      simpa [streamMap.Has, streamMap.Get, Option.isSome_iff_exists] using hhas
    obtain ⟨t, ht⟩ := hsome
    simp only [endStream, ht, hdir', if_true]
    exact ⟨trivial, streamMap.Get_Remove_self _ _, fun key h => streamMap.Get_Remove_ne _ h⟩

/-- Witness of C10: a client stream 1 created by `NewStream` receives its response and
leaves the table; the server stream 100 created by `Dispatch` ends and leaves the
table. -/
theorem C10_completed_exchange_leaves_table_witness :
    (OnReceiveData (NewStream exampleClient "1" 7).2 "1" [0, 5]).events
        = [Event.OnReceiveData 7 [0, 5] true] ∧
    (OnReceiveData (NewStream exampleClient "1" 7).2 "1" [0, 5]).activeStream.Get "1" = none ∧
    (endStream (Dispatch exampleKeys exampleServer 99 exampleRequest).conn
        { streamID := "100", direction := .ServerStream, decoder := 5,
          encodedData := some [0, 5] }).activeStream.Get "100" = none := by
  have h := C10_completed_exchange_leaves_table (NewStream exampleClient "1" 7).2 "1"
    (NewStream exampleClient "1" 7).1 [0, 5]
    (Dispatch exampleKeys exampleServer 99 exampleRequest).conn
    { streamID := "100", direction := .ServerStream, decoder := 5, encodedData := some [0, 5] }
    (by decide) (by decide) (by decide) (by decide) (by decide)
  exact ⟨h.1.1, h.1.2.1, h.2.2.1⟩

/-- The table of a new connection is keyed. -/
theorem Keyed_empty : Keyed {} := by
  intro key s h
  simp [streamMap.Get, GoMap.Load] at h

/-- Storing a stream under its own id keeps the table keyed. -/
theorem Keyed_Set (m : streamMap) (s : stream) (h : Keyed m) : Keyed (m.Set s.streamID s) := by
  intro key t ht
  by_cases hk : key = s.streamID
  · subst hk
    rw [streamMap.Get, streamMap.Set, GoMap.Load_Store_self] at ht
    cases ht; rfl
  · rw [streamMap.Get, streamMap.Set, GoMap.Load_Store_ne _ _ hk] at ht
    exact h key t ht

/-- Removing an entry keeps the table keyed. -/
theorem Keyed_Remove (m : streamMap) (streamID : String) (h : Keyed m) :
    Keyed (m.Remove streamID) := by
  intro key t ht
  by_cases hk : key = streamID
  · subst hk
    rw [streamMap.Get_Remove_self] at ht
    cases ht
  · rw [streamMap.Get_Remove_ne _ hk] at ht
    exact h key t ht

/-- `NewStream` keeps the table keyed. -/
theorem Keyed_NewStream (conn : streamConnection) (streamID : String) (responseDecoder : Nat)
    (h : Keyed conn.activeStream) : Keyed (NewStream conn streamID responseDecoder).2.activeStream :=
  Keyed_Set conn.activeStream
    { streamID := streamID, direction := .ClientStream, decoder := responseDecoder } h

/-- `onNewStreamDetected` keeps the table keyed. -/
theorem Keyed_onNewStreamDetected (conn : streamConnection) (newStream : String → Nat)
    (streamID : String) (headers : Headers) (h : Keyed conn.activeStream) :
    Keyed (onNewStreamDetected conn newStream streamID headers).activeStream := by
  unfold onNewStreamDetected
  split
  · exact h
  · exact Keyed_Set conn.activeStream
      { streamID := streamID, direction := .ServerStream, decoder := newStream streamID } h

/-- `OnReceiveHeaders` keeps the table keyed. -/
theorem Keyed_OnReceiveHeaders (conn : streamConnection) (streamID : String) (headers : Headers)
    (h : Keyed conn.activeStream) : Keyed (OnReceiveHeaders conn streamID headers).activeStream := by
  unfold OnReceiveHeaders
  cases hs : conn.serverCallbacks with
  | none => simp only []; split <;> exact h
  | some f =>
    have h' := Keyed_onNewStreamDetected conn f streamID headers h
    simp only []
    split <;> exact h'

/-- `OnReceiveData` keeps the table keyed. -/
theorem Keyed_OnReceiveData (conn : streamConnection) (streamID : String) (data : Bytes)
    (h : Keyed conn.activeStream) : Keyed (OnReceiveData conn streamID data).activeStream := by
  unfold OnReceiveData
  split
  · split
    · exact Keyed_Remove _ _ h
    · exact h
  · exact h

/-- `endStream` keeps the table keyed. -/
theorem Keyed_endStream (conn : streamConnection) (s : stream) (h : Keyed conn.activeStream) :
    Keyed (endStream conn s).activeStream := by
  unfold endStream
  split <;> split <;> first | exact Keyed_Remove _ _ h | exact h

/-- `AppendData` keeps the table keyed. -/
theorem Keyed_AppendData (conn : streamConnection) (count : Nat) (s : stream) (data : Bytes)
    (endStreamFlag : Bool) (h : Keyed conn.activeStream) :
    Keyed (AppendData conn count s data endStreamFlag).2.1.activeStream := by
  cases hd : s.direction <;> cases endStreamFlag
  · simpa [AppendData, hd] using h
  · simpa [AppendData, hd] using Keyed_endStream _ _ (by exact h)
  · cases hl : GoMap.Load conn.reqIdMap (conn.codec.GetStreamId data) <;>
      simpa [AppendData, hd, hl] using h
  · cases hl : GoMap.Load conn.reqIdMap (conn.codec.GetStreamId data) <;>
      simpa [AppendData, hd, hl] using Keyed_endStream _ _ (by exact h)

/-- Every iteration of the loop of `Dispatch` ends in `OnReceiveHeaders` followed by
`OnReceiveData` on a connection with the stream table it started with. -/
theorem body_shape (k : HeaderKeys) (st : DispatchState) (request : Bytes) :
    ∃ (c : streamConnection) (streamId : String) (headers : Headers) (frame : Bytes),
      (Dispatch.body k st request).conn
        = OnReceiveData (OnReceiveHeaders c streamId headers) streamId frame ∧
      c.activeStream = st.conn.activeStream := by
  cases hs : st.conn.serverCallbacks.isSome
  · cases hc : st.conn.clientCallbacks
    · simp only [Dispatch.body, hs, hc]
      exact ⟨_, _, _, _, rfl, rfl⟩
    · cases hcv : st.conn.codec.Convert with
      | none =>
        cases hl : GoMap.Load st.conn.streamIdMap (st.conn.codec.GetStreamId request) <;>
          (simp only [Dispatch.body, hs, hc, hcv, hl, if_true, if_false, Bool.false_eq_true]
           exact ⟨_, _, _, _, rfl, rfl⟩)
      | some convert =>
        cases hl : GoMap.Load st.conn.streamIdMap
            (st.conn.codec.GetStreamId (convert request).2) <;>
          (simp only [Dispatch.body, hs, hc, hcv, hl, if_true, if_false, Bool.false_eq_true]
           exact ⟨_, _, _, _, rfl, rfl⟩)
  · simp only [Dispatch.body, hs]
    exact ⟨_, _, _, _, rfl, rfl⟩

/-- An iteration of the loop of `Dispatch` keeps the table keyed. -/
theorem Keyed_body (k : HeaderKeys) (st : DispatchState) (request : Bytes)
    (h : Keyed st.conn.activeStream) : Keyed (Dispatch.body k st request).conn.activeStream := by
  obtain ⟨c, streamId, headers, frame, e, hc⟩ := body_shape k st request
  rw [e]
  exact Keyed_OnReceiveData _ _ _ (Keyed_OnReceiveHeaders _ _ _ (by rw [hc]; exact h))

/-- `Dispatch` keeps the table keyed. -/
theorem Keyed_Dispatch (k : HeaderKeys) (conn : streamConnection) (count : Nat) (buffer : Bytes)
    (h : Keyed conn.activeStream) : Keyed (Dispatch k conn count buffer).conn.activeStream := by
  unfold Dispatch
  generalize conn.codec.SplitFrame buffer = fs
  have : ∀ st : DispatchState, Keyed st.conn.activeStream →
      Keyed (fs.foldl (Dispatch.body k) st).conn.activeStream := by
    induction fs with
    | nil => intro st hst; exact hst
    | cons f fs ih => intro st hst; exact ih _ (Keyed_body k st f hst)
  exact this _ h

/-- The copy of a client stream kept in the table is not touched by `AppendData`: its
`reqId` stays the zero value while the sender's own object records the id. -/
theorem NewStream_AppendData_table (conn : streamConnection) (streamID : String)
    (responseDecoder count : Nat) (data : Bytes) (endStreamFlag : Bool) :
    (AppendData (NewStream conn streamID responseDecoder).2 count
        (NewStream conn streamID responseDecoder).1 data endStreamFlag).1.reqId
      = conn.codec.GetStreamId data ∧
    (AppendData (NewStream conn streamID responseDecoder).2 count
        (NewStream conn streamID responseDecoder).1 data endStreamFlag).2.1.activeStream.Get streamID
      = some { streamID := streamID, direction := .ClientStream, decoder := responseDecoder,
               reqId := "" } := by
  cases endStreamFlag <;>
    simp [AppendData, NewStream, endStream, streamMap.Get, streamMap.Set, GoMap.Load_Store_self]

/-- C1 at a concrete exchange over the lawful example codec: the client stream sends a
request with id 42, which goes on the wire with the local id 100; when `Dispatch` receives
the response carrying id 100, the data handed to the stream's receiver 7 by
`OnReceiveData` is the response rewritten to the empty id, not to 42. -/
theorem C1_client_request_id_lost :
    exampleCodec.GetStreamId exampleRequest = "42" ∧
    (AppendData (NewStream exampleClient "1" 7).2 99 (NewStream exampleClient "1" 7).1
        exampleRequest true).1.encodedData
      = some (exampleCodec.SetStreamId exampleRequest "100") ∧
    exampleCodec.GetStreamId exampleResponse = "100" ∧
    exampleExchange.conn.events.getLast?
      = some (Event.OnReceiveData 7 (exampleCodec.SetStreamId exampleResponse "") true) ∧
    exampleCodec.GetStreamId (exampleCodec.SetStreamId exampleResponse "") = "" ∧
    exampleCodec.GetStreamId (exampleCodec.SetStreamId exampleResponse "") ≠ "42" := by
  decide


/-! ## Stream layer: reset -/

/-- C11 (as stated) fails: a client stream with a listener sends a request (wire id 100)
and is then reset; its stream-table entry and the saved mapping `100 -> 1` are still
there, and the response that arrives later for wire id 100 finds the entry, is delivered
to the receiver, and removes the entry. -/
theorem C11_reset_counterexample :
    (ResetStream
      (AppendData (NewStream exampleClient "1" 7).2 99
        (AddEventListener (NewStream exampleClient "1" 7).1 3) exampleRequest true).2.1
      (AppendData (NewStream exampleClient "1" 7).2 99
        (AddEventListener (NewStream exampleClient "1" 7).1 3) exampleRequest true).1
      0).activeStream.Has "1" = true ∧
    GoMap.Load (ResetStream
      (AppendData (NewStream exampleClient "1" 7).2 99
        (AddEventListener (NewStream exampleClient "1" 7).1 3) exampleRequest true).2.1
      (AppendData (NewStream exampleClient "1" 7).2 99
        (AddEventListener (NewStream exampleClient "1" 7).1 3) exampleRequest true).1
      0).streamIdMap "100" = some "1" ∧
    (Dispatch exampleKeys (ResetStream
      (AppendData (NewStream exampleClient "1" 7).2 99
        (AddEventListener (NewStream exampleClient "1" 7).1 3) exampleRequest true).2.1
      (AppendData (NewStream exampleClient "1" 7).2 99
        (AddEventListener (NewStream exampleClient "1" 7).1 3) exampleRequest true).1
      0) 100 exampleResponse).conn.events.getLast?
      = some (Event.OnReceiveData 7 (exampleCodec.SetStreamId exampleResponse "") true) ∧
    (Dispatch exampleKeys (ResetStream
      (AppendData (NewStream exampleClient "1" 7).2 99
        (AddEventListener (NewStream exampleClient "1" 7).1 3) exampleRequest true).2.1
      (AppendData (NewStream exampleClient "1" 7).2 99
        (AddEventListener (NewStream exampleClient "1" 7).1 3) exampleRequest true).1
      0) 100 exampleResponse).conn.activeStream.Has "1" = false := by
  decide

/-- C11 (amended): `ResetStream` calls `OnResetStream` with the reason on every listener
of the stream, in registration order, and leaves the stream table and both id mappings as
they were; a later response receipt therefore treats the table exactly as it would have
without the reset. -/
theorem C11_reset_keeps_table (conn : streamConnection) (s : stream) (reason : Nat)
    (streamID : String) (data : Bytes) :
    (ResetStream conn s reason).events
      = conn.events ++ s.streamCbs.map (fun cb => Event.OnResetStream cb reason) ∧
    (ResetStream conn s reason).activeStream = conn.activeStream ∧
    (ResetStream conn s reason).streamIdMap = conn.streamIdMap ∧
    (ResetStream conn s reason).reqIdMap = conn.reqIdMap ∧
    (OnReceiveData (ResetStream conn s reason) streamID data).activeStream
      = (OnReceiveData conn streamID data).activeStream := by
  refine ⟨rfl, rfl, rfl, rfl, ?_⟩
  unfold OnReceiveData ResetStream
  simp only []
  split <;> (try split) <;> rfl

/-! ## Message pool -/

section MsgPool

open msgconnpool


/-- `onConn` touches only the connections. -/
theorem msgpool_onConn_frame (p : connpool) (conn : Nat) (f : Connection → Connection) :
    (p.onConn conn f).client = p.client ∧ (p.onConn conn f).ac = p.ac ∧
    (p.onConn conn f).hostAddr = p.hostAddr ∧
    (p.onConn conn f).autoReconnectWhenClose = p.autoReconnectWhenClose ∧
    (p.onConn conn f).heartBeatCreator = p.heartBeatCreator ∧
    (p.onConn conn f).connTryTimes = p.connTryTimes ∧
    (p.onConn conn f).readFilters = p.readFilters ∧
    (p.onConn conn f).destroyed = p.destroyed ∧
    (p.onConn conn f).trace = p.trace ∧
    (p.onConn conn f).conns.length = p.conns.length := by
  simp [connpool.onConn]

/-- Adding read filters one after another touches only the connections. -/
theorem msgpool_foldl_frame (rfs : List Nat) (conn : Nat) : ∀ p : connpool,
    let q := rfs.foldl
      (fun p rf => p.onConn conn (fun c => { c with readFilters := c.readFilters ++ [rf] })) p
    q.client = p.client ∧ q.ac = p.ac ∧ q.hostAddr = p.hostAddr ∧
    q.autoReconnectWhenClose = p.autoReconnectWhenClose ∧
    q.heartBeatCreator = p.heartBeatCreator ∧ q.connTryTimes = p.connTryTimes ∧
    q.readFilters = p.readFilters ∧ q.destroyed = p.destroyed ∧ q.trace = p.trace ∧
    q.conns.length = p.conns.length := by
  induction rfs with
  | nil => intro p; simp
  | cons rf rfs ih =>
    intro p
    have h := ih (p.onConn conn (fun c => { c with readFilters := c.readFilters ++ [rf] }))
    simp only [List.foldl_cons]
    simp only [connpool.onConn, List.length_set] at h ⊢
    exact h

/-- `addReadFilters` touches only the connections. -/
theorem msgpool_addReadFilters_frame (p : connpool) (conn : Nat) :
    (addReadFilters p conn).client = p.client ∧ (addReadFilters p conn).ac = p.ac ∧
    (addReadFilters p conn).hostAddr = p.hostAddr ∧
    (addReadFilters p conn).autoReconnectWhenClose = p.autoReconnectWhenClose ∧
    (addReadFilters p conn).heartBeatCreator = p.heartBeatCreator ∧
    (addReadFilters p conn).connTryTimes = p.connTryTimes ∧
    (addReadFilters p conn).readFilters = p.readFilters ∧
    (addReadFilters p conn).destroyed = p.destroyed ∧
    (addReadFilters p conn).trace = p.trace ∧
    (addReadFilters p conn).conns.length = p.conns.length :=
  msgpool_foldl_frame p.readFilters conn p

/-- `setHeartBeater` keeps the pool's configuration, flags, stored connection and try
count, makes no connection, and adds only `Stop` effects to the trace. -/
theorem msgpool_setHeartBeater_frame (p : connpool) (hb : Option Nat) :
    (setHeartBeater p hb).client = p.client ∧
    (setHeartBeater p hb).ac.connData = p.ac.connData ∧
    (setHeartBeater p hb).ac.connectTryTimes = p.ac.connectTryTimes ∧
    (setHeartBeater p hb).hostAddr = p.hostAddr ∧
    (setHeartBeater p hb).autoReconnectWhenClose = p.autoReconnectWhenClose ∧
    (setHeartBeater p hb).heartBeatCreator = p.heartBeatCreator ∧
    (setHeartBeater p hb).connTryTimes = p.connTryTimes ∧
    (setHeartBeater p hb).readFilters = p.readFilters ∧
    (setHeartBeater p hb).destroyed = p.destroyed ∧
    (setHeartBeater p hb).conns.length = p.conns.length ∧
    p.trace <+: (setHeartBeater p hb).trace ∧
    slept (setHeartBeater p hb).trace = slept p.trace ∧
    connects (setHeartBeater p hb).trace = connects p.trace := by
  unfold setHeartBeater getConnData
  rcases hk : p.ac.keepAlive with _ | ⟨k, c⟩
  · rcases hc : p.ac.connData with _ | conn <;> simp [hk, hc, connpool.onConn]
  · rcases k with _ | k
    · rcases hc : p.ac.connData with _ | conn <;> simp [hk, hc, connpool.onConn]
    · rcases hc : p.ac.connData with _ | conn <;>
        simp [hk, hc, connpool.onConn, slept, connects]

/-- The time slept in an extended trace. -/
theorem msgpool_slept_append (a b : List Effect) : slept (a ++ b) = slept a + slept b := by
  simp [slept]

/-- The `Connect` effects of an extended trace. -/
theorem msgpool_connects_append (a b : List Effect) :
    connects (a ++ b) = connects a + connects b := by
  simp [connects]

/-- The success path of `initConnection` keeps the configuration and flags, makes no
connection, stores `conn`, and clears the try count unless the pool is destroyed. -/
theorem msgpool_connected_frame (p : connpool) (conn : Nat) :
    (initConnection.connected p conn).client = p.client ∧
    (initConnection.connected p conn).hostAddr = p.hostAddr ∧
    (initConnection.connected p conn).autoReconnectWhenClose = p.autoReconnectWhenClose ∧
    (initConnection.connected p conn).heartBeatCreator = p.heartBeatCreator ∧
    (initConnection.connected p conn).connTryTimes = p.connTryTimes ∧
    (initConnection.connected p conn).readFilters = p.readFilters ∧
    (initConnection.connected p conn).destroyed = p.destroyed ∧
    (initConnection.connected p conn).conns.length = p.conns.length ∧
    (initConnection.connected p conn).ac.connectTryTimes
      = (if p.destroyed ≠ 1 then 0 else p.ac.connectTryTimes) ∧
    (initConnection.connected p conn).ac.connData = some conn ∧
    p.trace <+: (initConnection.connected p conn).trace ∧
    slept (initConnection.connected p conn).trace = slept p.trace ∧
    connects (initConnection.connected p conn).trace = connects p.trace := by
  by_cases hd : p.destroyed = 1
  · simp [initConnection.connected, hd, connpool.Close, connpool.onConn, msgpool_slept_append,
      msgpool_connects_append, slept, connects]
  · simp only [initConnection.connected, hd, if_false]
    generalize hq : ({ p with ac := { p.ac with connData := some conn } } : connpool) = q
    have hq1 : q.client = p.client ∧ q.hostAddr = p.hostAddr ∧
        q.autoReconnectWhenClose = p.autoReconnectWhenClose ∧
        q.heartBeatCreator = p.heartBeatCreator ∧ q.connTryTimes = p.connTryTimes ∧
        q.readFilters = p.readFilters ∧ q.destroyed = p.destroyed ∧ q.conns = p.conns ∧
        q.trace = p.trace ∧ q.ac.connData = some conn := by
      subst hq; simp
    obtain ⟨q1, q2, q3, q4, q5, q6, q7, q8, q9, q10⟩ := hq1
    obtain ⟨a1, a2, a3, a4, a5, a6, a7, a8, a9, a10⟩ := msgpool_addReadFilters_frame q conn
    obtain ⟨b1, b2, b3, b4, b5, b6, b7, b8, b9, b10, b11, b12, b13⟩ :=
      msgpool_setHeartBeater_frame (addReadFilters q conn) (addReadFilters q conn).heartBeatCreator
    simp only [ne_eq, hd, not_false_eq_true, if_true]
    refine ⟨?_, ?_, ?_, ?_, ?_, ?_, ?_, ?_, trivial, ?_, ?_, ?_, ?_⟩
    · rw [b1, a1, q1]
    · rw [b4, a3, q2]
    · rw [b5, a4, q3]
    · rw [b6, a5, q4]
    · rw [b7, a6, q5]
    · rw [b8, a7, q6]
    · rw [b9, a8, q7]
    · rw [b10, a10, q8]
    · rw [b2, a2, q10]
    · rw [a9, q9] at b11; exact b11
    · rw [b12, a9, q9]
    · rw [b13, a9, q9]

/-- `initConnection` keeps the pool's configuration and flags, makes exactly one
connection and one `Connect()`, sleeps no time, stores the new connection when it is
connected or none was stored, and clears the try count exactly when the connection is
connected on a pool that is not destroyed. -/
theorem msgpool_initConnection_frame (p : connpool) (ok : Bool) :
    (initConnection p ok).client = p.client ∧
    (initConnection p ok).hostAddr = p.hostAddr ∧
    (initConnection p ok).autoReconnectWhenClose = p.autoReconnectWhenClose ∧
    (initConnection p ok).heartBeatCreator = p.heartBeatCreator ∧
    (initConnection p ok).connTryTimes = p.connTryTimes ∧
    (initConnection p ok).readFilters = p.readFilters ∧
    (initConnection p ok).destroyed = p.destroyed ∧
    (initConnection p ok).conns.length = p.conns.length + 1 ∧
    (initConnection p ok).ac.connectTryTimes
      = (if ok = true ∧ p.destroyed ≠ 1 then 0 else p.ac.connectTryTimes) ∧
    (initConnection p ok).ac.connData
      = (if ok = true ∨ p.ac.connData = none then some p.conns.length else p.ac.connData) ∧
    (p.trace ++ [Effect.Connect p.conns.length ok]) <+: (initConnection p ok).trace ∧
    slept (initConnection p ok).trace = slept p.trace ∧
    connects (initConnection p ok).trace = connects p.trace + 1 := by
  cases ok
  · rcases hc : p.ac.connData with _ | conn <;>
      simp [initConnection, getConnData, hc, msgpool_slept_append, msgpool_connects_append,
        slept, connects]
  · simp only [initConnection, Bool.not_true, Bool.false_eq_true, if_false]
    generalize hq : (connpool.onConn _ p.conns.length _ : connpool) = q
    have hq1 : q.client = p.client ∧ q.hostAddr = p.hostAddr ∧
        q.autoReconnectWhenClose = p.autoReconnectWhenClose ∧
        q.heartBeatCreator = p.heartBeatCreator ∧ q.connTryTimes = p.connTryTimes ∧
        q.readFilters = p.readFilters ∧ q.destroyed = p.destroyed ∧
        q.conns.length = p.conns.length + 1 ∧
        q.trace = p.trace ++ [Effect.Connect p.conns.length true] ∧
        q.ac.connectTryTimes = p.ac.connectTryTimes := by
      subst hq; simp [connpool.onConn]
    obtain ⟨q1, q2, q3, q4, q5, q6, q7, q8, q9, q10⟩ := hq1
    obtain ⟨c1, c2, c3, c4, c5, c6, c7, c8, c9, c10, c11, c12, c13⟩ :=
      msgpool_connected_frame q p.conns.length
    refine ⟨?_, ?_, ?_, ?_, ?_, ?_, ?_, ?_, ?_, ?_, ?_, ?_, ?_⟩
    · rw [c1, q1]
    · rw [c2, q2]
    · rw [c3, q3]
    · rw [c4, q4]
    · rw [c5, q5]
    · rw [c6, q6]
    · rw [c7, q7]
    · rw [c8, q8]
    · rw [c9, q7, q10]; simp
    · rw [c10]; simp
    · rw [q9] at c11; exact c11
    · rw [c12, q9, msgpool_slept_append]; simp [slept]
    · rw [c13, q9, msgpool_connects_append]; simp [connects]

/-- The backoff table in nanoseconds. -/
theorem msgpool_backoff_table :
    reconnectBackoff = [0, 1000000000, 2000000000, 5000000000, 10000000000] := by
  decide

/-- For a try count `t ≥ 0` the index is `min t 4`, in range, and the index expression
yields that entry of the table. -/
theorem msgpool_backoff_idx (t : Int) (ht : 0 ≤ t) :
    reconnect.idx t = min t 4 ∧ 0 ≤ reconnect.idx t ∧
    reconnect.idx t < reconnectBackoff.length ∧
    reconnect.backoff (reconnect.idx t) = some (reconnectBackoff.getD (min t 4).toNat 0) := by
  by_cases h5 : 5 ≤ t
  · have hidx : reconnect.idx t = 4 := by
      simp [reconnect.idx, reconnectBackoff, h5]
    have hmin : min t 4 = 4 := by omega
    rw [hidx, hmin]
    refine ⟨rfl, by decide, by decide, by decide⟩
  · have hidx : reconnect.idx t = t := by
      simp only [reconnect.idx, reconnectBackoff, List.length_cons, List.length_nil]
      rw [if_neg]
      push_cast
      omega
    have ht5 : t < 5 := by omega
    rw [hidx]
    interval_cases t <;> refine ⟨by decide, by decide, by decide, by decide⟩

/-- `reconnect` written out: the guards of the caller, then the started function. -/
theorem msgpool_reconnect_inline (p : connpool) (connectOk : Bool) :
    reconnect p connectOk
      = if p.destroyed = 1 then p
        else if p.ac.connectTryTimes ≥ p.connTryTimes then p
        else
          match reconnect.backoff (reconnect.idx p.ac.connectTryTimes) with
          | none => p
          | some d =>
            let p := { p with trace := p.trace ++ [Effect.Sleep d] }
            let p := { p with ac := { p.ac with connectTryTimes := p.ac.connectTryTimes + 1 } }
            if p.destroyed = 1 then p
            else initConnection p connectOk := by
  unfold reconnect reconnect.start reconnect.goroutine
  by_cases hd : p.destroyed = 1
  · simp only [hd, if_true]
  · by_cases hl : p.ac.connectTryTimes ≥ p.connTryTimes
    · simp only [hd, hl, if_true, if_false]
    · simp only [hd, hl, if_false]

/-- A reconnect that starts an attempt runs `initConnection` after the sleep given by the
table, with the try count increased by one. -/
theorem msgpool_reconnect_attempt (p : connpool) (ok : Bool) (hd : p.destroyed ≠ 1)
    (ht : 0 ≤ p.ac.connectTryTimes) (hlim : p.ac.connectTryTimes < p.connTryTimes) :
    reconnect p ok
      = initConnection
          (reconnect.attempt p (reconnectBackoff.getD (min p.ac.connectTryTimes 4).toNat 0)) ok := by
  rw [msgpool_reconnect_inline]
  rw [if_neg hd, if_neg (by omega)]
  simp only [(msgpool_backoff_idx _ ht).2.2.2, hd, if_false, reconnect.attempt]

/-- A reconnect on a destroyed pool, or with the try count at the limit, does nothing. -/
theorem msgpool_reconnect_stopped (p : connpool) (ok : Bool)
    (h : p.destroyed = 1 ∨ p.connTryTimes ≤ p.ac.connectTryTimes) : reconnect p ok = p := by
  rw [msgpool_reconnect_inline]
  rcases h with h | h
  · rw [if_pos h]
  · by_cases hd : p.destroyed = 1
    · rw [if_pos hd]
    · rw [if_neg hd, if_pos (by omega)]

/-- `initConnection` keeps the invariant of a pool. -/
theorem msgpool_initConnection_inv (p : connpool) (ok : Bool) (h : 0 ≤ p.ac.connectTryTimes)
    (h' : p.ac.connectTryTimes ≤ p.connTryTimes) : Inv (initConnection p ok) := by
  obtain ⟨-, -, -, -, f5, -, -, -, f9, f10, -, -, -⟩ := msgpool_initConnection_frame p ok
  refine ⟨?_, ?_, ?_⟩
  · rw [f9]; split <;> omega
  · rw [f9, f5]; split <;> omega
  · rw [f10]
    split
    · rfl
    · rename_i hn
      rw [not_or] at hn
      cases hc : p.ac.connData with
      | none => exact absurd hc hn.2
      | some c => rfl

/-- `reconnect` keeps the invariant, the configuration and the flags. -/
theorem msgpool_reconnect_inv (p : connpool) (ok : Bool) (h : Inv p) :
    Inv (reconnect p ok) ∧ (reconnect p ok).connTryTimes = p.connTryTimes ∧
    (reconnect p ok).client = p.client ∧ (reconnect p ok).destroyed = p.destroyed ∧
    (reconnect p ok).autoReconnectWhenClose = p.autoReconnectWhenClose := by
  by_cases hs : p.destroyed = 1 ∨ p.connTryTimes ≤ p.ac.connectTryTimes
  · rw [msgpool_reconnect_stopped p ok hs]
    exact ⟨h, rfl, rfl, rfl, rfl⟩
  · rw [not_or] at hs
    have hge : 0 ≤ p.ac.connectTryTimes := h.1
    have hlt : p.ac.connectTryTimes < p.connTryTimes := by omega
    rw [msgpool_reconnect_attempt p ok hs.1 h.1 hlt]
    obtain ⟨f1, -, f3, -, f5, -, f7, -⟩ := msgpool_initConnection_frame
      (reconnect.attempt p (reconnectBackoff.getD (min p.ac.connectTryTimes 4).toNat 0)) ok
    have h0 : 0 ≤ (reconnect.attempt p
        (reconnectBackoff.getD (min p.ac.connectTryTimes 4).toNat 0)).ac.connectTryTimes := by
      show 0 ≤ p.ac.connectTryTimes + 1
      omega
    have h1 : (reconnect.attempt p
        (reconnectBackoff.getD (min p.ac.connectTryTimes 4).toNat 0)).ac.connectTryTimes
        ≤ (reconnect.attempt p
        (reconnectBackoff.getD (min p.ac.connectTryTimes 4).toNat 0)).connTryTimes := by
      show p.ac.connectTryTimes + 1 ≤ p.connTryTimes
      omega
    refine ⟨msgpool_initConnection_inv _ ok h0 h1, ?_, ?_, ?_, ?_⟩
    · rw [f5]; rfl
    · rw [f1]; rfl
    · rw [f7]; rfl
    · rw [f3]; rfl

/-- `OnEvent` ignores `OnConnect`, `Connected` and `OnReadTimeout`; on every other event
it reconnects when auto-reconnect is on and removes the client from the pool when not. -/
theorem msgpool_OnEvent_eq (p : connpool) (event : api.ConnectionEvent) (ok : Bool) :
    OnEvent p event ok
      = if event = .OnConnect ∨ event = .Connected ∨ event = .OnReadTimeout then p
        else if p.autoReconnectWhenClose = true then reconnect p ok
        else removeFromPool p := by
  cases event <;> simp [OnEvent]

/-- Every step of an execution keeps the invariant and the configured limit. -/
theorem msgpool_step_inv (p q : connpool) (s : Step) (h : Inv p) (hs : step p s = .ok q) :
    Inv q ∧ q.connTryTimes = p.connTryTimes := by
  cases s with
  | OnEvent event ok =>
    simp only [step, Except.ok.injEq] at hs
    subst hs
    rw [msgpool_OnEvent_eq]
    split
    · exact ⟨h, rfl⟩
    · split
      · exact ⟨(msgpool_reconnect_inv p ok h).1, (msgpool_reconnect_inv p ok h).2.1⟩
      · exact ⟨h, rfl⟩
  | Destroy =>
    simp only [step, Destroy, getConnData] at hs
    split at hs
    · cases hs
    · split at hs
      · simp only [Except.ok.injEq] at hs
        subst hs
        exact ⟨h, rfl⟩
      · cases hs
  | Write buf =>
    simp only [step, Write] at hs
    split at hs
    · split at hs
      · simp only [Except.map, Except.ok.injEq] at hs
        subst hs
        exact ⟨h, rfl⟩
      · cases hs
    · simp only [Except.map, Except.ok.injEq] at hs
      subst hs
      exact ⟨h, rfl⟩
  | SetState conn state =>
    simp only [step, Except.ok.injEq] at hs
    subst hs
    exact ⟨h, rfl⟩

/-- Every execution keeps the invariant and the configured limit. -/
theorem msgpool_run_inv (steps : List Step) : ∀ (p q : connpool), Inv p →
    run p steps = .ok q → Inv q ∧ q.connTryTimes = p.connTryTimes := by
  induction steps with
  | nil =>
    intro p q h hr
    simp only [run, Except.ok.injEq] at hr
    subst hr
    exact ⟨h, rfl⟩
  | cons s steps ih =>
    intro p q h hr
    simp only [run] at hr
    cases hs : step p s with
    | error e => rw [hs] at hr; cases hr
    | ok p1 =>
      rw [hs] at hr
      obtain ⟨i1, e1⟩ := msgpool_step_inv p p1 s h hs
      obtain ⟨i2, e2⟩ := ih p1 q i1 hr
      exact ⟨i2, e2.trans e1⟩

/-- A pool built by `NewConn` with a limit of -1 or at least 0 satisfies the invariant,
and its limit is the configured one, `2 ^ 31 - 1` standing in for -1. -/
theorem msgpool_NewConn_inv (hostAddr : String) (maxTries : Int) (hb : Option Nat)
    (filters : List Nat) (auto ok : Bool) (hmax : -1 ≤ maxTries) :
    Inv (NewConn hostAddr maxTries hb filters auto ok) ∧
    (NewConn hostAddr maxTries hb filters auto ok).connTryTimes
      = (if maxTries = -1 then 2 ^ 31 - 1 else maxTries) := by
  unfold NewConn initActiveClient
  simp only []
  constructor
  · apply msgpool_initConnection_inv
    · show (0 : Int) ≤ 0
      omega
    · show (0 : Int) ≤ if maxTries = -1 then MaxInt32 else maxTries
      unfold MaxInt32
      split <;> omega
  · rw [(msgpool_initConnection_frame _ ok).2.2.2.2.1]
    rfl

/-- C12: the backoff table is `[0, 1s, 2s, 5s, 10s]`; at every try count `t ≥ 0` at which
`reconnect` starts an attempt (pool not destroyed, `t` below the limit) the index is
`min t 4`, which is in range, the attempt sleeps that entry of the table and then
connects; from `t = 4` on the entry is 10s. -/
theorem C12_reconnect_backoff (p : connpool) (ok : Bool) (n : Nat)
    (hd : p.destroyed ≠ 1) (ht : 0 ≤ p.ac.connectTryTimes)
    (hlim : p.ac.connectTryTimes < p.connTryTimes) :
    reconnectBackoff = [0, Second, 2 * Second, 5 * Second, 10 * Second] ∧
    reconnect.idx p.ac.connectTryTimes = min p.ac.connectTryTimes 4 ∧
    0 ≤ reconnect.idx p.ac.connectTryTimes ∧
    reconnect.idx p.ac.connectTryTimes < reconnectBackoff.length ∧
    reconnect.backoff (reconnect.idx p.ac.connectTryTimes)
      = some (reconnectBackoff.getD (min p.ac.connectTryTimes 4).toNat 0) ∧
    (p.trace ++ [Effect.Sleep (reconnectBackoff.getD (min p.ac.connectTryTimes 4).toNat 0),
        Effect.Connect p.conns.length ok]) <+: (reconnect p ok).trace ∧
    slept (reconnect p ok).trace
      = slept p.trace + reconnectBackoff.getD (min p.ac.connectTryTimes 4).toNat 0 ∧
    reconnect.backoff (reconnect.idx (4 + (n : Int))) = some (10 * Second) := by
  obtain ⟨i1, i2, i3, i4⟩ := msgpool_backoff_idx _ ht
  obtain ⟨-, -, -, j4⟩ := msgpool_backoff_idx (4 + (n : Int)) (by omega)
  obtain ⟨-, -, -, -, -, -, -, -, -, -, f11, f12, -⟩ := msgpool_initConnection_frame
    (reconnect.attempt p (reconnectBackoff.getD (min p.ac.connectTryTimes 4).toNat 0)) ok
  refine ⟨by decide, i1, i2, i3, i4, ?_, ?_, ?_⟩
  · rw [msgpool_reconnect_attempt p ok hd ht hlim]
    simpa [reconnect.attempt] using f11
  · rw [msgpool_reconnect_attempt p ok hd ht hlim, f12]
    simp [reconnect.attempt, msgpool_slept_append, slept]
  · rw [j4]
    have : min (4 + (n : Int)) 4 = 4 := by omega
    rw [this]
    decide

/-- Witness of C12: a pool whose first connect failed is at try count 0 with limit 3; its
reconnect sleeps entry 0 of the table, 0s, and then connects. -/
theorem C12_reconnect_backoff_witness :
    (reconnect (NewConn "10.0.0.3:80" 3 (some 1) [10, 11] true false) true).trace
      = [Effect.Connect 0 false, Effect.Sleep 0, Effect.Connect 1 true] ∧
    reconnect.backoff (reconnect.idx 9) = some 10000000000 := by
  have h := C12_reconnect_backoff (NewConn "10.0.0.3:80" 3 (some 1) [10, 11] true false) true 5
    (by decide) (by decide) (by decide)
  exact ⟨by decide, h.2.2.2.2.2.2.2⟩

/-- A pool built by `NewConn` with `max_tries` equal to -1 or at least 0 has the limit
`max_tries`, with `2 ^ 31 - 1` for -1. After every execution in which events, `Destroy`
and `Write` happen one at a time and every function started by `reconnect` runs to its
end before the next of them, the try count lies between 0 and the limit.
A reconnect on a destroyed pool or with the try count at the limit changes nothing (no
sleep, no connect); any other reconnect is one attempt: it calls `initConnection` once
with the try count increased by exactly one, makes exactly one `Connect()`, and leaves
the count at the increased value when that connect fails. -/
theorem msgpool_try_count_bounded_inline (hostAddr : String) (maxTries : Int) (hb : Option Nat)
    (filters : List Nat) (auto ok0 : Bool) (steps : List Step) (p : connpool) (ok : Bool)
    (hmax : -1 ≤ maxTries)
    (hrun : run (NewConn hostAddr maxTries hb filters auto ok0) steps = .ok p) :
    p.connTryTimes = (if maxTries = -1 then 2 ^ 31 - 1 else maxTries) ∧
    0 ≤ p.ac.connectTryTimes ∧ p.ac.connectTryTimes ≤ p.connTryTimes ∧
    ((p.destroyed = 1 ∨ p.connTryTimes ≤ p.ac.connectTryTimes) → reconnect p ok = p) ∧
    ((p.destroyed ≠ 1 ∧ p.ac.connectTryTimes < p.connTryTimes) →
      reconnect p ok
        = initConnection
            (reconnect.attempt p (reconnectBackoff.getD (min p.ac.connectTryTimes 4).toNat 0))
            ok ∧
      (reconnect.attempt p
          (reconnectBackoff.getD (min p.ac.connectTryTimes 4).toNat 0)).ac.connectTryTimes
        = p.ac.connectTryTimes + 1 ∧
      connects (reconnect p ok).trace = connects p.trace + 1 ∧
      (reconnect p false).ac.connectTryTimes = p.ac.connectTryTimes + 1) := by
  obtain ⟨n1, n2⟩ := msgpool_NewConn_inv hostAddr maxTries hb filters auto ok0 hmax
  obtain ⟨⟨i1, i2, -⟩, e⟩ := msgpool_run_inv steps _ p n1 hrun
  refine ⟨e.trans n2, i1, i2, msgpool_reconnect_stopped p ok, ?_⟩
  rintro ⟨hd, hlt⟩
  refine ⟨msgpool_reconnect_attempt p ok hd i1 hlt, rfl, ?_, ?_⟩
  · rw [msgpool_reconnect_attempt p ok hd i1 hlt,
      (msgpool_initConnection_frame _ ok).2.2.2.2.2.2.2.2.2.2.2.2]
    simp [reconnect.attempt, msgpool_connects_append, connects]
  · rw [msgpool_reconnect_attempt p false hd i1 hlt,
      (msgpool_initConnection_frame _ false).2.2.2.2.2.2.2.2.1]
    simp [reconnect.attempt]

/-- The bound at an example: a pool with `max_tries = 1` whose connects all fail; after
the first `ConnectFailed` event, with its reconnect run at once, the try count is 1, the
limit, and the second event starts no attempt. -/
theorem msgpool_try_count_bounded_inline_example :
    (OnEvent (NewConn "10.0.0.3:80" 1 none [] true false) .ConnectFailed false).ac.connectTryTimes
      = 1 ∧
    reconnect (OnEvent (NewConn "10.0.0.3:80" 1 none [] true false) .ConnectFailed false) true
      = OnEvent (NewConn "10.0.0.3:80" 1 none [] true false) .ConnectFailed false ∧
    (NewConn "10.0.0.3:80" (-1) none [] true false).connTryTimes = 2147483647 := by
  have h := msgpool_try_count_bounded_inline "10.0.0.3:80" 1 none [] true false
    [Step.OnEvent .ConnectFailed false]
    (OnEvent (NewConn "10.0.0.3:80" 1 none [] true false) .ConnectFailed false) true
    (by decide) rfl
  exact ⟨by decide, h.2.2.2.1 (by decide), by decide⟩

/-- `OnEvent` is the handler followed at once by the function it may have started. -/
theorem msgpool_OnEvent_call (p : connpool) (event : api.ConnectionEvent) (ok : Bool) :
    OnEvent p event ok
      = match (OnEvent.call p event).2 with
        | none => (OnEvent.call p event).1
        | some idx => reconnect.goroutine (OnEvent.call p event).1 idx ok := by
  unfold OnEvent OnEvent.call reconnect
  cases event <;> cases p.autoReconnectWhenClose <;> simp

/-- The executions of `run` are among those of `Scheduled.run`: a handled event followed
by the run of the function it has started, with no other function waiting, is the event
of `OnEvent`. -/
theorem msgpool_Scheduled_inline (p : connpool) (event : api.ConnectionEvent) (ok : Bool) :
    Scheduled.run { pool := p } [.OnEvent event, .Run 0 ok]
      = .ok { pool := OnEvent p event ok } := by
  rw [msgpool_OnEvent_call]
  simp only [Scheduled.run, Scheduled.step, List.nil_append]
  cases (OnEvent.call p event).2 with
  | none => rfl
  | some idx => rfl

/-- `reconnect` starts no function on a destroyed pool or with the try count at the
limit; otherwise it starts one, with the index `min(t, 4)` of the try count `t`. -/
theorem msgpool_start_cases (p : connpool) :
    ((p.destroyed = 1 ∨ p.connTryTimes ≤ p.ac.connectTryTimes) → reconnect.start p = none) ∧
    ((p.destroyed ≠ 1 ∧ p.ac.connectTryTimes < p.connTryTimes) →
      reconnect.start p = some (reconnect.idx p.ac.connectTryTimes)) := by
  unfold reconnect.start
  constructor
  · rintro (h | h)
    · rw [if_pos h]
    · by_cases hd : p.destroyed = 1
      · rw [if_pos hd]
      · rw [if_neg hd, if_pos (by omega)]
  · rintro ⟨hd, hl⟩
    rw [if_neg hd, if_neg (by omega)]

/-- A started function whose connect fails leaves the try count increased by exactly
one, whatever the count was when it was started. -/
theorem msgpool_goroutine_count (p : connpool) (idx : Int) (d : Nat)
    (hb : reconnect.backoff idx = some d) :
    (reconnect.goroutine p idx false).ac.connectTryTimes = p.ac.connectTryTimes + 1 := by
  unfold reconnect.goroutine
  simp only [hb]
  split
  · rfl
  · rw [(msgpool_initConnection_frame _ false).2.2.2.2.2.2.2.2.1]
    simp

/-- The sum of the sleeps of `k + 1` attempts is that of `k` attempts plus the next. -/
theorem msgpool_backoff_sum_succ (k : Nat) :
    ((List.range (k + 1)).map (fun j => reconnectBackoff.getD (min j 4) 0)).sum
      = ((List.range k).map (fun j => reconnectBackoff.getD (min j 4) 0)).sum
        + reconnectBackoff.getD (min k 4) 0 := by
  rw [List.range_succ, List.map_append, List.sum_append]
  simp

/-- From the fifth attempt on every attempt adds 10s to the 18s of the first five. -/
theorem msgpool_backoff_sum_tail (m : Nat) :
    ((List.range (5 + m)).map (fun j => reconnectBackoff.getD (min j 4) 0)).sum
      = 18 * Second + m * (10 * Second) := by
  induction m with
  | zero => decide
  | succ m ih =>
    have h4 : min (5 + m) 4 = 4 := by omega
    rw [← Nat.add_assoc, msgpool_backoff_sum_succ, ih, h4]
    have : reconnectBackoff.getD 4 0 = 10 * Second := by decide
    rw [this]
    ring

/-- A run of `k` failed connects from try count `c` sleeps the entries `min (c + j) 4`,
`j < k`, of the table and makes `k` connects. -/
theorem msgpool_failedReconnects (k : Nat) : ∀ (p : connpool) (c : Nat),
    p.autoReconnectWhenClose = true → p.destroyed ≠ 1 → p.ac.connectTryTimes = c →
    (c : Int) + k ≤ p.connTryTimes →
    slept (failedReconnects k p).trace
      = slept p.trace
        + ((List.range k).map (fun j => reconnectBackoff.getD (min (c + j) 4) 0)).sum ∧
    connects (failedReconnects k p).trace = connects p.trace + k ∧
    (failedReconnects k p).ac.connectTryTimes = (c : Int) + k := by
  induction k with
  | zero => intro p c _ _ hc _; simp [failedReconnects, hc]
  | succ k ih =>
    intro p c ha hd hc hlim
    have ht : 0 ≤ p.ac.connectTryTimes := by omega
    have hlt : p.ac.connectTryTimes < p.connTryTimes := by push_cast at hlim; omega
    have hev : OnEvent p .ConnectFailed false
        = initConnection (reconnect.attempt p (reconnectBackoff.getD (min c 4) 0)) false := by
      rw [msgpool_OnEvent_eq, if_neg (by decide), if_pos ha,
        msgpool_reconnect_attempt p false hd ht hlt, hc]
      congr 3
      omega
    obtain ⟨-, -, f3, -, f5, -, f7, -, f9, -, -, f12, f13⟩ := msgpool_initConnection_frame
      (reconnect.attempt p (reconnectBackoff.getD (min c 4) 0)) false
    have g := ih (OnEvent p .ConnectFailed false) (c + 1)
      (by rw [hev, f3]; exact ha) (by rw [hev, f7]; exact hd)
      (by rw [hev, f9]; simp [reconnect.attempt, hc])
      (by rw [hev, f5]; show ((c + 1 : Nat) : Int) + k ≤ p.connTryTimes; push_cast at hlim ⊢; omega)
    obtain ⟨g1, g2, g3⟩ := g
    have hs : slept (reconnect.attempt p (reconnectBackoff.getD (min c 4) 0)).trace
        = slept p.trace + reconnectBackoff.getD (min c 4) 0 := by
      show slept (p.trace ++ [Effect.Sleep (reconnectBackoff.getD (min c 4) 0)]) = _
      rw [msgpool_slept_append]
      simp [slept]
    have hn : connects (reconnect.attempt p (reconnectBackoff.getD (min c 4) 0)).trace
        = connects p.trace := by
      show connects (p.trace ++ [Effect.Sleep (reconnectBackoff.getD (min c 4) 0)]) = _
      rw [msgpool_connects_append]
      simp [connects]
    simp only [failedReconnects]
    refine ⟨?_, ?_, ?_⟩
    · rw [g1, hev, f12, hs, List.range_succ_eq_map, List.map_cons, List.sum_cons, List.map_map]
      have e : (fun j => reconnectBackoff.getD (min (c + 1 + j) 4) 0)
          = (fun j => reconnectBackoff.getD (min (c + j) 4) 0) ∘ Nat.succ := by
        funext j
        simp only [Function.comp, Nat.succ_eq_add_one]
        congr 2
        omega
      rw [e]
      simp only [Nat.add_zero]
      omega
    · rw [g2, hev, f13, hn]
      omega
    · rw [g3]; push_cast; omega

/-- C14 (as stated) fails: with `max_tries = 10`, the six reconnect attempts of a run of
failed connects sleep 0s + 1s + 2s + 5s + 10s + 10s = 28s in total, while the first
`min 6 5` (and `min 7 5`) entries of the table sum to 18s. So the time slept up to the
sixth attempt, which is also the time slept before the seventh begins, is not that sum. -/
theorem C14_cumulative_wait_counterexample :
    slept (failedReconnects 6 (NewConn "10.0.0.3:80" 10 none [] true false)).trace
      = 28 * Second ∧
    (reconnectBackoff.take (min 6 5)).sum = 18 * Second ∧
    (reconnectBackoff.take (min 7 5)).sum = 18 * Second ∧
    slept (failedReconnects 6 (NewConn "10.0.0.3:80" 10 none [] true false)).trace
      ≠ (reconnectBackoff.take (min 6 5)).sum := by
  decide

/-- C14 (amended): in a run of `k` consecutive failed connects from try count 0 on a pool
with auto-reconnect that is not destroyed and whose limit is at least `k`, the `k`
reconnect attempts sleep in total the sum of the entries `min j 4`, `j < k`, of the
backoff table: the sum of the first `k` entries if `k ≤ 5`, and 18s plus 10s for every
attempt after the fifth otherwise. -/
theorem C14_cumulative_wait (p : connpool) (k : Nat)
    (ha : p.autoReconnectWhenClose = true) (hd : p.destroyed ≠ 1)
    (hc : p.ac.connectTryTimes = 0) (hlim : (k : Int) ≤ p.connTryTimes) :
    slept (failedReconnects k p).trace
      = slept p.trace + ((List.range k).map (fun j => reconnectBackoff.getD (min j 4) 0)).sum ∧
    connects (failedReconnects k p).trace = connects p.trace + k ∧
    (k ≤ 5 → ((List.range k).map (fun j => reconnectBackoff.getD (min j 4) 0)).sum
      = (reconnectBackoff.take k).sum) ∧
    (5 ≤ k → ((List.range k).map (fun j => reconnectBackoff.getD (min j 4) 0)).sum
      = 18 * Second + (k - 5) * (10 * Second)) := by
  obtain ⟨h1, h2, -⟩ := msgpool_failedReconnects k p 0 ha hd (by simpa using hc)
    (by simpa using hlim)
  refine ⟨?_, h2, ?_, ?_⟩
  · simpa using h1
  · intro hk
    interval_cases k <;> decide
  · intro hk
    obtain ⟨m, rfl⟩ := Nat.exists_eq_add_of_le hk
    rw [msgpool_backoff_sum_tail]
    simp

/-- Witness of C14: seven failed connects on a pool with `max_tries = 10` sleep 38s. -/
theorem C14_cumulative_wait_witness :
    slept (failedReconnects 7 (NewConn "10.0.0.3:80" 10 none [] true false)).trace
      = 38 * Second := by
  have h := C14_cumulative_wait (NewConn "10.0.0.3:80" 10 none [] true false) 7
    (by decide) (by decide) (by decide) (by decide)
  rw [h.1, h.2.2.2 (by decide)]
  decide

/-- Adding read filters one after another appends them, in order, to the read filters of
the connection and leaves its state alone. -/
theorem msgpool_foldl_conn (rfs : List Nat) (conn : Nat) : ∀ p : connpool,
    conn < p.conns.length →
    ((rfs.foldl (fun p rf => p.onConn conn
        (fun c => { c with readFilters := c.readFilters ++ [rf] })) p).conns.getD conn {}).readFilters
      = (p.conns.getD conn {}).readFilters ++ rfs ∧
    ((rfs.foldl (fun p rf => p.onConn conn
        (fun c => { c with readFilters := c.readFilters ++ [rf] })) p).conns.getD conn {}).state
      = (p.conns.getD conn {}).state := by
  induction rfs with
  | nil => intro p _; simp
  | cons rf rfs ih =>
    intro p hlt
    have h := ih (p.onConn conn (fun c => { c with readFilters := c.readFilters ++ [rf] }))
      (by simpa [connpool.onConn] using hlt)
    simp only [List.foldl_cons]
    rw [h.1, h.2]
    simp [connpool.onConn, List.getD_eq_getElem?_getD, hlt]

/-- `setHeartBeater` leaves the state and the read filters of every connection alone. -/
theorem msgpool_setHeartBeater_conn (p : connpool) (hb : Option Nat) (conn : Nat) :
    ((setHeartBeater p hb).conns.getD conn {}).readFilters = (p.conns.getD conn {}).readFilters ∧
    ((setHeartBeater p hb).conns.getD conn {}).state = (p.conns.getD conn {}).state := by
  have key : ∀ (q : connpool) (c : Nat),
      ((q.onConn c (fun x => { x with listeners := x.listeners ++ [Listener.keepAliveListener hb] })).conns.getD
          conn {}).readFilters = (q.conns.getD conn {}).readFilters ∧
      ((q.onConn c (fun x => { x with listeners := x.listeners ++ [Listener.keepAliveListener hb] })).conns.getD
          conn {}).state = (q.conns.getD conn {}).state := by
    intro q c
    simp only [connpool.onConn, List.getD_eq_getElem?_getD, List.getElem?_set]
    by_cases hc : c = conn
    · subst hc
      by_cases hl : c < q.conns.length
      · simp [hl]
      · simp [hl, List.getElem?_eq_none (Nat.le_of_not_lt hl)]
    · simp [hc]
  rcases hk : p.ac.keepAlive with _ | ⟨k, c⟩
  · rcases hc : p.ac.connData with _ | c0
    · simp [setHeartBeater, getConnData, hk, hc]
    · simp only [setHeartBeater, getConnData, hk, hc]
      exact key _ c0
  · rcases k with _ | k
    · rcases hc : p.ac.connData with _ | c0
      · simp [setHeartBeater, getConnData, hk, hc]
      · simp only [setHeartBeater, getConnData, hk, hc]
        exact key _ c0
    · rcases hc : p.ac.connData with _ | c0
      · simp [setHeartBeater, getConnData, hk, hc]
      · simp only [setHeartBeater, getConnData, hk, hc]
        exact key _ c0

/-- A successful `initConnection` on a pool that is not destroyed: the new connection is
stored, in state `ConnActive`, and carries the pool's read filters in order; the try
count is 0. -/
theorem msgpool_initConnection_connected (p : connpool) (hd : p.destroyed ≠ 1) :
    (initConnection p true).ac.connData = some p.conns.length ∧
    (initConnection p true).ac.connectTryTimes = 0 ∧
    ((initConnection p true).conns.getD p.conns.length {}).state = .ConnActive ∧
    ((initConnection p true).conns.getD p.conns.length {}).readFilters = p.readFilters := by
  obtain ⟨-, -, -, -, -, -, -, -, f9, f10, -⟩ := msgpool_initConnection_frame p true
  refine ⟨by simpa using f10, by simpa [hd] using f9, ?_, ?_⟩
  · simp only [initConnection, Bool.not_true, Bool.false_eq_true, if_false,
      initConnection.connected]
    rw [if_neg (by simpa [connpool.onConn] using hd)]
    simp only []
    rw [(msgpool_setHeartBeater_conn _ _ _).2]
    unfold addReadFilters
    rw [(msgpool_foldl_conn _ _ _ (by simp [connpool.onConn])).2]
    simp [connpool.onConn, List.getD_eq_getElem?_getD]
  · simp only [initConnection, Bool.not_true, Bool.false_eq_true, if_false,
      initConnection.connected]
    rw [if_neg (by simpa [connpool.onConn] using hd)]
    simp only []
    rw [(msgpool_setHeartBeater_conn _ _ _).1]
    unfold addReadFilters
    rw [(msgpool_foldl_conn _ _ _ (by simp [connpool.onConn])).1]
    simp [connpool.onConn, List.getD_eq_getElem?_getD]

/-- `isActive`, and so `Available`, answers `true` exactly on a pool that is not
destroyed, still has its client, and whose client's stored connection (if any) is in
state `ConnActive`. -/
theorem msgpool_Available_iff (p : connpool) (hc : p.ac.connData.isSome = true) :
    Available p = true
      ↔ (p.destroyed ≠ 1 ∧ p.client = true ∧ p.ac.connData.map p.State = some .ConnActive) := by
  obtain ⟨conn, hconn⟩ := Option.isSome_iff_exists.mp hc
  unfold Available isActive getConnData
  by_cases hd : p.destroyed = 1
  · simp [hd]
  · by_cases hcl : p.client = true
    · by_cases hs : p.State conn = .ConnActive <;> simp [hd, hcl, hconn, hs]
    · simp [hd, hcl]

/-- `reconnect` keeps a stored connection stored. -/
theorem msgpool_reconnect_connData (p : connpool) (ok : Bool)
    (hc : p.ac.connData.isSome = true) : (reconnect p ok).ac.connData.isSome = true := by
  have hi : ∀ q : connpool, (initConnection q ok).ac.connData.isSome = true := by
    intro q
    rw [(msgpool_initConnection_frame q ok).2.2.2.2.2.2.2.2.2.1]
    split
    · rfl
    · rename_i hn
      rw [not_or] at hn
      cases hq : q.ac.connData with
      | none => exact absurd hq hn.2
      | some c => rfl
  rw [msgpool_reconnect_inline]
  split
  · exact hc
  · split
    · exact hc
    · simp only []
      cases reconnect.backoff (reconnect.idx p.ac.connectTryTimes) with
      | none => exact hc
      | some d =>
        simp only []
        split
        · exact hc
        · exact hi _

/-- Every step of an execution keeps a stored connection stored. -/
theorem msgpool_step_connData (p q : connpool) (s : Step) (hc : p.ac.connData.isSome = true)
    (hs : step p s = .ok q) : q.ac.connData.isSome = true := by
  cases s with
  | OnEvent event ok =>
    simp only [step, Except.ok.injEq] at hs
    subst hs
    rw [msgpool_OnEvent_eq]
    split
    · exact hc
    · split
      · exact msgpool_reconnect_connData p ok hc
      · exact hc
  | Destroy =>
    simp only [step, Destroy, getConnData] at hs
    split at hs
    · cases hs
    · split at hs
      · simp only [Except.ok.injEq] at hs
        subst hs
        exact hc
      · cases hs
  | Write buf =>
    simp only [step, Write] at hs
    split at hs
    · split at hs
      · simp only [Except.map, Except.ok.injEq] at hs
        subst hs
        exact hc
      · cases hs
    · simp only [Except.map, Except.ok.injEq] at hs
      subst hs
      exact hc
  | SetState conn state =>
    simp only [step, Except.ok.injEq] at hs
    subst hs
    exact hc

/-- In every execution from `NewConn` the client has a stored connection. -/
theorem msgpool_run_connData (hostAddr : String) (maxTries : Int) (hb : Option Nat)
    (filters : List Nat) (auto ok0 : Bool) (steps : List Step) (p : connpool)
    (hrun : run (NewConn hostAddr maxTries hb filters auto ok0) steps = .ok p) :
    p.ac.connData.isSome = true := by
  have h0 : (NewConn hostAddr maxTries hb filters auto ok0).ac.connData.isSome = true := by
    unfold NewConn initActiveClient
    simp only []
    rw [(msgpool_initConnection_frame _ ok0).2.2.2.2.2.2.2.2.2.1]
    simp
  generalize NewConn hostAddr maxTries hb filters auto ok0 = p0 at hrun h0
  induction steps generalizing p0 with
  | nil =>
    simp only [run, Except.ok.injEq] at hrun
    subst hrun
    exact h0
  | cons s steps ih =>
    simp only [run] at hrun
    cases hs : step p0 s with
    | error e => rw [hs] at hrun; cases hrun
    | ok p1 =>
      rw [hs] at hrun
      exact ih p1 hrun (msgpool_step_connData p0 p1 s h0 hs)

/-- C16: in every state `p` that a pool built by `NewConn` reaches, `Available` is `true`
exactly when the pool is not destroyed, still has its client, and the client's stored
connection is in state `ConnActive`. When it is `true`, `Write` hands the buffers to that
connection and returns no error; when it is `false`, in particular on a destroyed pool
and on a pool whose client was removed, `Write` returns an error and changes nothing. -/
theorem C16_Write_iff_Available (hostAddr : String) (maxTries : Int) (hb : Option Nat)
    (filters : List Nat) (auto ok0 : Bool) (steps : List Step) (p : connpool)
    (buf : List Bytes)
    (hrun : run (NewConn hostAddr maxTries hb filters auto ok0) steps = .ok p) :
    (Available p = true
      ↔ (p.destroyed ≠ 1 ∧ p.client = true ∧ p.ac.connData.map p.State = some .ConnActive)) ∧
    (Available p = true →
      Write p buf = .ok (none, p.onConn (p.ac.connData.getD 0)
        (fun c => { c with written := c.written ++ [buf] }))) ∧
    (Available p = false → Write p buf = .ok (some "[msgconnpool] connection not ready", p)) ∧
    (p.destroyed = 1 ∨ p.client = false → Available p = false) := by
  have hc := msgpool_run_connData hostAddr maxTries hb filters auto ok0 steps p hrun
  obtain ⟨conn, hconn⟩ := Option.isSome_iff_exists.mp hc
  refine ⟨msgpool_Available_iff p hc, ?_, ?_, ?_⟩
  · intro ha
    unfold Available at ha
    unfold Write
    cases hi : isActive p with
    | mk h b =>
      rw [hi] at ha
      simp only [] at ha
      subst ha
      have hh : h = some conn := by
        unfold isActive getConnData at hi
        rw [hconn] at hi
        split at hi
        · cases hi
        · split at hi
          · cases hi
          · simp only [] at hi
            split at hi
            · cases hi
            · cases hi; rfl
      simp [hh, hconn]
  · intro ha
    unfold Available at ha
    unfold Write
    cases hi : isActive p with
    | mk h b =>
      rw [hi] at ha
      simp only [] at ha
      subst ha
      rfl
  · intro h
    rcases h with h | h
    · simp [Available, isActive, h]
    · by_cases hd : p.destroyed = 1 <;> simp [Available, isActive, h, hd]

/-- Witness of C16: a pool whose first connect succeeded forwards a write to connection
0; after `Destroy` it is not available and `Write` returns the error. -/
theorem C16_Write_iff_Available_witness :
    Available (NewConn "10.0.0.3:80" 3 (some 1) [10] true true) = true ∧
    (Write (NewConn "10.0.0.3:80" 3 (some 1) [10] true true) [[1, 2]]).toOption.map
        (fun r => (r.1, (r.2.conns.getD 0 {}).written))
      = some (none, [[[1, 2]]]) ∧
    ((run (NewConn "10.0.0.3:80" 3 (some 1) [10] true true) [Step.Destroy]).toOption.map
        Available) = some false := by
  have h := C16_Write_iff_Available "10.0.0.3:80" 3 (some 1) [10] true true []
    (NewConn "10.0.0.3:80" 3 (some 1) [10] true true) [[1, 2]] rfl
  have ha : Available (NewConn "10.0.0.3:80" 3 (some 1) [10] true true) = true :=
    h.1.mpr (by decide)
  refine ⟨ha, ?_, by decide⟩
  rw [h.2.1 ha]
  decide

/-- C15: a pool built by `NewConn` with auto-reconnect and `max_tries = 3` whose first two
connects fail, each failure reaching the client as a `ConnectFailed` event, and whose
third connect succeeds: exactly three connects are made (after sleeps of 0s and 1s), the
`Connected` event of the third starts nothing further, the try count is 0 again, the new
connection (number 2) is the stored one and carries the read filters, and `Available` is
`true` exactly while that connection is in state `ConnActive`. -/
theorem C15_reconnect_scenario (hostAddr : String) (hb : Option Nat) (filters : List Nat)
    (ok : Bool) (st : api.ConnState) :
    connects (OnEvent (OnEvent (NewConn hostAddr 3 hb filters true false) .ConnectFailed false)
      .ConnectFailed true).trace = 3 ∧
    slept (OnEvent (OnEvent (NewConn hostAddr 3 hb filters true false) .ConnectFailed false)
      .ConnectFailed true).trace = 1 * Second ∧
    OnEvent (OnEvent (OnEvent (NewConn hostAddr 3 hb filters true false) .ConnectFailed false)
        .ConnectFailed true) .Connected ok
      = OnEvent (OnEvent (NewConn hostAddr 3 hb filters true false) .ConnectFailed false)
        .ConnectFailed true ∧
    (OnEvent (OnEvent (NewConn hostAddr 3 hb filters true false) .ConnectFailed false)
      .ConnectFailed true).ac.connectTryTimes = 0 ∧
    (OnEvent (OnEvent (NewConn hostAddr 3 hb filters true false) .ConnectFailed false)
      .ConnectFailed true).ac.connData = some 2 ∧
    ((OnEvent (OnEvent (NewConn hostAddr 3 hb filters true false) .ConnectFailed false)
      .ConnectFailed true).conns.getD 2 {}).readFilters = filters ∧
    Available (OnEvent (OnEvent (NewConn hostAddr 3 hb filters true false) .ConnectFailed false)
      .ConnectFailed true) = true ∧
    Available ((OnEvent (OnEvent (NewConn hostAddr 3 hb filters true false) .ConnectFailed false)
      .ConnectFailed true).onConn 2 (fun c => { c with state := st }))
      = decide (st = .ConnActive) := by
  have e1 : OnEvent (NewConn hostAddr 3 hb filters true false) .ConnectFailed false
      = { client := true
          ac := { connData := some 0, connectTryTimes := 1 }
          hostAddr := hostAddr
          autoReconnectWhenClose := true
          heartBeatCreator := hb
          connTryTimes := 3
          readFilters := filters
          conns := [{ listeners := [Listener.activeClient] }, { listeners := [Listener.activeClient] }]
          trace := [Effect.Connect 0 false, Effect.Sleep 0, Effect.Connect 1 false] } := by
    rfl
  rw [e1]
  generalize hp1 : ({ client := true
                      ac := { connData := some 0, connectTryTimes := 1 }
                      hostAddr := hostAddr
                      autoReconnectWhenClose := true
                      heartBeatCreator := hb
                      connTryTimes := 3
                      readFilters := filters
                      conns := [{ listeners := [Listener.activeClient] },
                        { listeners := [Listener.activeClient] }]
                      trace := [Effect.Connect 0 false, Effect.Sleep 0, Effect.Connect 1 false] }
                    : connpool) = p1
  have a1 : p1.autoReconnectWhenClose = true := by subst hp1; rfl
  have a2 : p1.destroyed ≠ 1 := by subst hp1; show (0 : Nat) ≠ 1; omega
  have a3 : p1.ac.connectTryTimes = 1 := by subst hp1; rfl
  have a4 : p1.connTryTimes = 3 := by subst hp1; rfl
  have a5 : p1.conns.length = 2 := by subst hp1; rfl
  have a6 : p1.readFilters = filters := by subst hp1; rfl
  have a7 : p1.client = true := by subst hp1; rfl
  have a8 : p1.trace = [Effect.Connect 0 false, Effect.Sleep 0, Effect.Connect 1 false] := by
    subst hp1; rfl
  have hev : OnEvent p1 .ConnectFailed true
      = initConnection (reconnect.attempt p1 Second) true := by
    rw [msgpool_OnEvent_eq, if_neg (by decide), if_pos a1,
      msgpool_reconnect_attempt p1 true a2 (by omega) (by omega), a3]
    rfl
  rw [hev]
  generalize hp2 : reconnect.attempt p1 Second = p2
  have b2 : p2.destroyed ≠ 1 := by subst hp2; exact a2
  have b5 : p2.conns.length = 2 := by subst hp2; exact a5
  have b6 : p2.readFilters = filters := by subst hp2; exact a6
  have b7 : p2.client = true := by subst hp2; exact a7
  have b8 : p2.trace = [Effect.Connect 0 false, Effect.Sleep 0, Effect.Connect 1 false,
      Effect.Sleep Second] := by
    subst hp2; simp [reconnect.attempt, a8]
  obtain ⟨f1, -, -, -, -, -, f7, -, -, -, -, f12, f13⟩ := msgpool_initConnection_frame p2 true
  obtain ⟨c1, c2, c3, c4⟩ := msgpool_initConnection_connected p2 b2
  rw [b5] at c1 c3 c4
  have hd3 : (initConnection p2 true).destroyed ≠ 1 := by rw [f7]; exact b2
  have hcl : (initConnection p2 true).client = true := by rw [f1]; exact b7
  refine ⟨?_, ?_, ?_, c2, c1, ?_, ?_, ?_⟩
  · rw [f13, b8]; decide
  · rw [f12, b8]; decide
  · rw [msgpool_OnEvent_eq, if_pos (by decide)]
  · rw [c4, b6]
  · rw [msgpool_Available_iff _ (by rw [c1]; rfl)]
    refine ⟨hd3, hcl, ?_⟩
    rw [c1]
    show some ((initConnection p2 true).conns.getD 2 {}).state = some .ConnActive
    rw [c3]
  · have hs : (((initConnection p2 true).onConn 2 (fun c => { c with state := st })).conns.getD
        2 {}).state = st := by
      have hl : 2 < (initConnection p2 true).conns.length := by
        rw [(msgpool_initConnection_frame p2 true).2.2.2.2.2.2.2.1, b5]; omega
      simp [connpool.onConn, List.getD_eq_getElem?_getD, hl]
    unfold Available isActive getConnData
    have hd4 : ((initConnection p2 true).onConn 2 (fun c => { c with state := st })).destroyed ≠ 1 :=
      hd3
    have hcl4 : ((initConnection p2 true).onConn 2 (fun c => { c with state := st })).client
        = true := hcl
    have hc4 : ((initConnection p2 true).onConn 2 (fun c => { c with state := st })).ac.connData
        = some 2 := c1
    rw [if_neg hd4, hcl4, hc4]
    simp only [Bool.not_true, Bool.false_eq_true, if_false, connpool.State, hs]
    by_cases hst : st = .ConnActive <;> simp [hst]

/-- In every pool state without auto-reconnect, a close event removes the client from
the pool, after which `Destroy` fails with a nil dereference while `Available` answers
false. -/
theorem msgpool_Destroy_after_close (p : connpool) (event : api.ConnectionEvent) (ok : Bool)
    (ha : p.autoReconnectWhenClose = false)
    (he : ¬ (event = .OnConnect ∨ event = .Connected ∨ event = .OnReadTimeout)) :
    Destroy (OnEvent p event ok) = .error "nil pointer dereference" ∧
    Available (OnEvent p event ok) = false := by
  rw [msgpool_OnEvent_eq]
  simp only [he, if_false, ha, Bool.false_eq_true]
  constructor
  · simp [Destroy, removeFromPool]
  · simp only [Available, isActive, removeFromPool]
    split <;> simp

/-- Claim C29 fails on the code: a pool built by `NewConn` without auto-reconnect whose
connection reports a remote close has had its client removed by `removeFromPool`, and
`Destroy` then dereferences the missing client. The run-time error is reached for
every outcome of the first connect, whereas `isActive` guards the same dereference with
a nil check and answers that the pool is not available. The same happens to a second
`Destroy` once the local close of the first one has reached the client. -/
theorem C29_Destroy_after_close_fails :
    (∀ connectOk : Bool,
      run (NewConn "127.0.0.1:8080" 3 none [] false connectOk)
        [Step.OnEvent api.ConnectionEvent.RemoteClose true, Step.Destroy]
        = Except.error "nil pointer dereference") ∧
    (∀ connectOk : Bool,
      Available (OnEvent (NewConn "127.0.0.1:8080" 3 none [] false connectOk)
        api.ConnectionEvent.RemoteClose true) = false) ∧
    (run (NewConn "127.0.0.1:8080" 3 none [] false true)
        [Step.Destroy, Step.OnEvent api.ConnectionEvent.LocalClose true, Step.Destroy]
        = Except.error "nil pointer dereference") := by
  refine ⟨?_, ?_, ?_⟩
  · intro c; cases c <;> rfl
  · intro c; cases c <;> rfl
  · rfl

end MsgPool

/-! ## HTTP/2 pool -/

/-- `onClient` touches only the clients, and keeps their number. -/
theorem http2_onClient_frame (p : http2.ConnPool) (client : Nat)
    (f : http2.activeClient → http2.activeClient) :
    (p.onClient client f).host = p.host ∧ (p.onClient client f).activeClient = p.activeClient ∧
    (p.onClient client f).connections = p.connections ∧
    (p.onClient client f).clients.length = p.clients.length := by
  unfold http2.ConnPool.onClient
  split <;> simp

/-- The client selection of `NewStream` leaves the request counters and the resource
manager alone, and keeps every client made before as it is. -/
theorem http2_activeClient_frame (p : http2.ConnPool) (ok : Bool) :
    (http2.NewStream.activeClient p ok).2.host.Requests = p.host.Requests ∧
    (http2.NewStream.activeClient p ok).2.host.HostStats.UpstreamRequestActive
      = p.host.HostStats.UpstreamRequestActive ∧
    (http2.NewStream.activeClient p ok).2.host.ClusterStats.UpstreamRequestActive
      = p.host.ClusterStats.UpstreamRequestActive ∧
    (http2.NewStream.activeClient p ok).2.host.HostStats.UpstreamRequestTotal
      = p.host.HostStats.UpstreamRequestTotal ∧
    (http2.NewStream.activeClient p ok).2.host.ClusterStats.UpstreamRequestTotal
      = p.host.ClusterStats.UpstreamRequestTotal ∧
    (http2.NewStream.activeClient p ok).2.host.HostStats.UpstreamRequestPendingOverflow
      = p.host.HostStats.UpstreamRequestPendingOverflow ∧
    (http2.NewStream.activeClient p ok).2.host.ClusterStats.UpstreamRequestPendingOverflow
      = p.host.ClusterStats.UpstreamRequestPendingOverflow ∧
    (http2.NewStream.activeClient p ok).2.activeClient = (http2.NewStream.activeClient p ok).1 ∧
    (∀ i, i < p.clients.length →
      (http2.NewStream.activeClient p ok).2.clients[i]? = p.clients[i]?) := by
  have hnew : ∀ q : http2.ConnPool,
      (http2.newActiveClient q ok).2.host.Requests = q.host.Requests ∧
      (http2.newActiveClient q ok).2.host.HostStats.UpstreamRequestActive
        = q.host.HostStats.UpstreamRequestActive ∧
      (http2.newActiveClient q ok).2.host.ClusterStats.UpstreamRequestActive
        = q.host.ClusterStats.UpstreamRequestActive ∧
      (http2.newActiveClient q ok).2.host.HostStats.UpstreamRequestTotal
        = q.host.HostStats.UpstreamRequestTotal ∧
      (http2.newActiveClient q ok).2.host.ClusterStats.UpstreamRequestTotal
        = q.host.ClusterStats.UpstreamRequestTotal ∧
      (http2.newActiveClient q ok).2.host.HostStats.UpstreamRequestPendingOverflow
        = q.host.HostStats.UpstreamRequestPendingOverflow ∧
      (http2.newActiveClient q ok).2.host.ClusterStats.UpstreamRequestPendingOverflow
        = q.host.ClusterStats.UpstreamRequestPendingOverflow ∧
      (∀ i, i < q.clients.length → (http2.newActiveClient q ok).2.clients[i]? = q.clients[i]?) := by
    intro q
    cases ok
    · simp only [http2.newActiveClient, Bool.not_false, if_true, true_and]
      intro i hi
      simp [List.getElem?_append_left hi]
    · simp only [http2.newActiveClient, Bool.not_true, Bool.false_eq_true, if_false,
        http2.ConnPool.onClient]
      simp only [List.getElem?_concat_length, true_and]
      intro i hi
      rw [List.getElem?_set_ne (by omega), List.getElem?_append_left hi]
  cases hac : p.activeClient with
  | none =>
    simp only [http2.NewStream.activeClient, hac]
    obtain ⟨h1, h2, h3, h4, h5, h6, h7, h8⟩ := hnew p
    exact ⟨h1, h2, h3, h4, h5, h6, h7, trivial, h8⟩
  | some ac =>
    by_cases hg : ((p.clients[ac]?).map (fun (c : http2.activeClient) => c.goaway)) = some 1
    · simp only [http2.NewStream.activeClient, hac, hg, if_true]
      obtain ⟨h1, h2, h3, h4, h5, h6, h7, h8⟩ :=
        hnew { p with activeClient := none }
      exact ⟨h1, h2, h3, h4, h5, h6, h7, trivial, h8⟩
    · simp only [http2.NewStream.activeClient, hac, hg, if_false]
      simp [hac]

/-- C17: whenever the client selection of `NewStream` yields an active client `c` and the
resource manager refuses admission, `NewStream` returns no stream sender and the reason
`Overflow`, adds exactly one to the host's and to the cluster's pending-overflow counter,
and leaves the total and active request counters, the resource manager's request count
and the stream count of every client (the active client included) as they were. -/
theorem C17_NewStream_overflow (p : http2.ConnPool) (responseDecoder : Nat) (ok : Bool)
    (c : Nat) (hc : (http2.NewStream.activeClient p ok).1 = some c)
    (hadm : p.host.Requests.CanCreate = false) :
    (http2.NewStream p responseDecoder ok).1 = (none, http2.PoolFailureReason.Overflow) ∧
    (http2.NewStream p responseDecoder ok).2.host.HostStats.UpstreamRequestPendingOverflow
      = p.host.HostStats.UpstreamRequestPendingOverflow + 1 ∧
    (http2.NewStream p responseDecoder ok).2.host.ClusterStats.UpstreamRequestPendingOverflow
      = p.host.ClusterStats.UpstreamRequestPendingOverflow + 1 ∧
    (http2.NewStream p responseDecoder ok).2.host.HostStats.UpstreamRequestTotal
      = p.host.HostStats.UpstreamRequestTotal ∧
    (http2.NewStream p responseDecoder ok).2.host.ClusterStats.UpstreamRequestTotal
      = p.host.ClusterStats.UpstreamRequestTotal ∧
    (http2.NewStream p responseDecoder ok).2.host.HostStats.UpstreamRequestActive
      = p.host.HostStats.UpstreamRequestActive ∧
    (http2.NewStream p responseDecoder ok).2.host.ClusterStats.UpstreamRequestActive
      = p.host.ClusterStats.UpstreamRequestActive ∧
    (http2.NewStream p responseDecoder ok).2.host.Requests = p.host.Requests ∧
    (http2.NewStream p responseDecoder ok).2.activeClient = some c ∧
    (http2.NewStream p responseDecoder ok).2.clients = (http2.NewStream.activeClient p ok).2.clients ∧
    (∀ i, i < p.clients.length →
      (http2.NewStream p responseDecoder ok).2.clients[i]? = p.clients[i]?) := by
  obtain ⟨h1, h2, h3, h4, h5, h6, h7, h8, h9⟩ := http2_activeClient_frame p ok
  have hadm' : (http2.NewStream.activeClient p ok).2.host.Requests.CanCreate = false := by
    rw [h1]; exact hadm
  simp only [http2.NewStream, hc, hadm', Bool.not_false, if_true]
  refine ⟨trivial, ?_, ?_, h4, h5, h2, h3, h1, ?_, trivial, h9⟩
  · show _ + 1 = _
    rw [h6]
  · show _ + 1 = _
    rw [h7]
  · rw [h8, hc]

/-- Witness of C17: the example pool admits two requests; a third `NewStream` finds the
active client 0 and is refused with `Overflow`. -/
theorem C17_NewStream_overflow_witness :
    (http2.NewStream (http2.run http2.examplePool [.NewStream 7 true, .NewStream 8 true]) 9
        false).1 = (none, http2.PoolFailureReason.Overflow) ∧
    (http2.NewStream (http2.run http2.examplePool [.NewStream 7 true, .NewStream 8 true]) 9
        false).2.host.HostStats.UpstreamRequestPendingOverflow = 1 := by
  have h := C17_NewStream_overflow
    (http2.run http2.examplePool [.NewStream 7 true, .NewStream 8 true]) 9 false 0
    (by decide) (by decide)
  exact ⟨h.1, h.2.1⟩

/-- `OnGoAway` on an existing client sets its goaway flag and nothing else. -/
theorem http2_OnGoAway_eq (p : http2.ConnPool) (c : Nat) (ac0 : http2.activeClient)
    (hc : p.clients[c]? = some ac0) :
    http2.OnGoAway p c = { p with clients := p.clients.set c { ac0 with goaway := 1 } } := by
  simp [http2.OnGoAway, http2.ConnPool.onClient, hc]

/-- A successful `newActiveClient` makes one client, numbered next, with clear goaway
flag and no streams, and one connection; the resource manager is left alone. -/
theorem http2_newActiveClient_ok (q : http2.ConnPool) :
    (http2.newActiveClient q true).1 = some q.clients.length ∧
    (http2.newActiveClient q true).2.clients[q.clients.length]?
      = some { conn := q.connections.length, client := true } ∧
    (http2.newActiveClient q true).2.connections = q.connections ++ [true] ∧
    (http2.newActiveClient q true).2.host.Requests = q.host.Requests ∧
    (http2.newActiveClient q true).2.clients.length = q.clients.length + 1 := by
  simp [http2.newActiveClient, http2.ConnPool.onClient]

/-- After the client selection, `NewStream` keeps the active client and the connections,
makes no client, and adds one to the stream count of the selected client exactly when
the stream is admitted. -/
theorem http2_NewStream_frame (p : http2.ConnPool) (responseDecoder : Nat) (ok : Bool) :
    (http2.NewStream p responseDecoder ok).2.activeClient
      = (http2.NewStream.activeClient p ok).2.activeClient ∧
    (http2.NewStream p responseDecoder ok).2.connections
      = (http2.NewStream.activeClient p ok).2.connections ∧
    (http2.NewStream p responseDecoder ok).2.clients.length
      = (http2.NewStream.activeClient p ok).2.clients.length ∧
    (∀ a x, (http2.NewStream.activeClient p ok).1 = some a →
      (http2.NewStream.activeClient p ok).2.clients[a]? = some x →
      (http2.NewStream p responseDecoder ok).2.clients[a]?
        = some { x with totalStream :=
            if (http2.NewStream.activeClient p ok).2.host.Requests.CanCreate
            then (x.totalStream + 1) % 2 ^ 64 else x.totalStream }) := by
  generalize hr : http2.NewStream.activeClient p ok = r
  obtain ⟨r1, q⟩ := r
  cases r1 with
  | none => simp [http2.NewStream, hr]
  | some a =>
    by_cases hadm : q.host.Requests.CanCreate = true
    · simp only [http2.NewStream, hr, hadm, Bool.not_true, Bool.false_eq_true, if_false,
        if_true]
      refine ⟨(http2_onClient_frame q a _).2.1, (http2_onClient_frame q a _).2.2.1,
        (http2_onClient_frame q a _).2.2.2, ?_⟩
      intro a' x ha hx
      cases ha
      have hlt : a < q.clients.length := by
        by_contra hn
        rw [List.getElem?_eq_none (Nat.le_of_not_lt hn)] at hx
        cases hx
      simp [http2.ConnPool.onClient, hx, List.getElem?_set, hlt]
    · simp only [Bool.not_eq_true] at hadm
      simp only [http2.NewStream, hr, hadm, Bool.not_false, if_true, Bool.false_eq_true,
        if_false]
      refine ⟨trivial, trivial, trivial, ?_⟩
      intro a' x ha hx
      cases ha
      simpa using hx

/-- C18: let `c` be the pool's active client. After `OnGoAway` was delivered to `c`, the
next `NewStream` whose connect succeeds opens one new connection and installs a fresh
active client, different from `c`, whose goaway flag is clear and whose stream count is 1
if the stream is admitted (0 if admission is refused). If `c` has not received GOAWAY,
`NewStream` keeps `c` as the active client, makes no client and opens no connection. -/
theorem C18_goaway_replacement (p : http2.ConnPool) (c : Nat) (ac0 : http2.activeClient)
    (responseDecoder : Nat) (ok : Bool)
    (hact : p.activeClient = some c) (hc : p.clients[c]? = some ac0) :
    ((http2.OnGoAway p c).clients[c]?).map (fun x => x.goaway) = some 1 ∧
    (http2.NewStream (http2.OnGoAway p c) responseDecoder true).2.activeClient
      = some p.clients.length ∧
    p.clients.length ≠ c ∧
    ((http2.NewStream (http2.OnGoAway p c) responseDecoder true).2.clients[p.clients.length]?).map
        (fun x => (x.goaway, x.totalStream))
      = some (0, if p.host.Requests.CanCreate then 1 else 0) ∧
    (http2.NewStream (http2.OnGoAway p c) responseDecoder true).2.connections
      = p.connections ++ [true] ∧
    (ac0.goaway ≠ 1 →
      (http2.NewStream p responseDecoder ok).2.activeClient = some c ∧
      (http2.NewStream p responseDecoder ok).2.connections = p.connections ∧
      (http2.NewStream p responseDecoder ok).2.clients.length = p.clients.length) := by
  have hlt : c < p.clients.length := by
    by_contra hn
    rw [List.getElem?_eq_none (Nat.le_of_not_lt hn)] at hc
    cases hc
  have hflag : ((http2.OnGoAway p c).clients[c]?).map (fun x => x.goaway) = some 1 := by
    rw [http2_OnGoAway_eq p c ac0 hc]
    simp [List.getElem?_set, hlt]
  have hact' : (http2.OnGoAway p c).activeClient = some c := by
    rw [http2_OnGoAway_eq p c ac0 hc]; exact hact
  have hlen : (http2.OnGoAway p c).clients.length = p.clients.length := by
    rw [http2_OnGoAway_eq p c ac0 hc]; simp
  have hconn : (http2.OnGoAway p c).connections = p.connections := by
    rw [http2_OnGoAway_eq p c ac0 hc]
  have hhost : (http2.OnGoAway p c).host = p.host := by
    rw [http2_OnGoAway_eq p c ac0 hc]
  generalize http2.OnGoAway p c = g at hflag hact' hlen hconn hhost
  obtain ⟨n1, n2, n3, n4, n5⟩ := http2_newActiveClient_ok { g with activeClient := none }
  have hsel : http2.NewStream.activeClient g true
      = (some g.clients.length,
          { (http2.newActiveClient { g with activeClient := none } true).2 with
            activeClient := some g.clients.length }) := by
    simp only [http2.NewStream.activeClient, hact', hflag, if_true]
    rw [n1]
  obtain ⟨s1, s2, s3, s4⟩ := http2_NewStream_frame g responseDecoder true
  rw [hsel] at s1 s2 s3 s4
  refine ⟨hflag, ?_, by omega, ?_, ?_, ?_⟩
  · rw [s1, hlen]
  · rw [← hlen, s4 g.clients.length _ rfl n2]
    have n4' : (http2.newActiveClient { g with activeClient := none } true).2.host.Requests
        = p.host.Requests := by
      rw [n4]
      show g.host.Requests = _
      rw [hhost]
    simp only [Option.map_some']
    rw [n4']
    by_cases hadm : p.host.Requests.CanCreate = true <;> simp [hadm]
  · rw [s2]
    show (http2.newActiveClient { g with activeClient := none } true).2.connections = _
    rw [n3]
    show g.connections ++ [true] = _
    rw [hconn]
  · intro hg
    have hsel' : http2.NewStream.activeClient p ok = (some c, p) := by
      have : ¬ ((p.clients[c]?).map (fun (x : http2.activeClient) => x.goaway)) = some 1 := by
        rw [hc]; simpa using hg
      simp only [http2.NewStream.activeClient, hact, this, if_false]
    obtain ⟨t1, t2, t3, -⟩ := http2_NewStream_frame p responseDecoder ok
    rw [hsel'] at t1 t2 t3
    exact ⟨t1.trans hact, t2, t3⟩

/-- Witness of C18: the example pool's first client receives GOAWAY; the next `NewStream`
installs client 1 with clear goaway flag and stream count 1 on a second connection. -/
theorem C18_goaway_replacement_witness :
    (http2.NewStream (http2.OnGoAway (http2.NewStream http2.examplePool 7 true).2 0) 8
        true).2.activeClient = some 1 ∧
    ((http2.NewStream (http2.OnGoAway (http2.NewStream http2.examplePool 7 true).2 0) 8
        true).2.clients[1]?).map (fun x => (x.goaway, x.totalStream)) = some (0, 1) ∧
    (http2.NewStream (http2.NewStream http2.examplePool 7 true).2 8 false).2.activeClient
      = some 0 := by
  have h := C18_goaway_replacement (http2.NewStream http2.examplePool 7 true).2 0
    { conn := 0, client := true, totalStream := 1 } 8 false (by decide) (by decide)
  exact ⟨h.2.1, h.2.2.2.1, (h.2.2.2.2.2 (by decide)).1⟩

/-- `NewStream` adds one to the host's and the cluster's active-request counter and to
the resource manager's request count exactly when it returns a stream sender. -/
theorem http2_NewStream_active (p : http2.ConnPool) (responseDecoder : Nat) (ok : Bool) :
    (http2.NewStream p responseDecoder ok).2.host.HostStats.UpstreamRequestActive
      = p.host.HostStats.UpstreamRequestActive
        + (if (http2.NewStream p responseDecoder ok).1.1.isSome then 1 else 0) ∧
    (http2.NewStream p responseDecoder ok).2.host.ClusterStats.UpstreamRequestActive
      = p.host.ClusterStats.UpstreamRequestActive
        + (if (http2.NewStream p responseDecoder ok).1.1.isSome then 1 else 0) ∧
    (http2.NewStream p responseDecoder ok).2.host.Requests.cur
      = p.host.Requests.cur
        + (if (http2.NewStream p responseDecoder ok).1.1.isSome then 1 else 0) := by
  obtain ⟨h1, h2, h3, -⟩ := http2_activeClient_frame p ok
  generalize hr : http2.NewStream.activeClient p ok = r at h1 h2 h3
  obtain ⟨r1, q⟩ := r
  simp only [] at h1 h2 h3
  cases r1 with
  | none => simp [http2.NewStream, hr, h1, h2, h3]
  | some a =>
    by_cases hadm : q.host.Requests.CanCreate = true
    · simp only [http2.NewStream, hr, hadm, Bool.not_true, Bool.false_eq_true, if_false]
      simp [h1, h2, h3, http2.Resource.Increase]
    · simp only [Bool.not_eq_true] at hadm
      simp only [http2.NewStream, hr, hadm, Bool.not_false, if_true]
      simp [h1, h2, h3]

/-- A single step changes the three active-request figures by what it admits less what
it destroys. -/
theorem http2_step_active (p : http2.ConnPool) (s : http2.Step) :
    (http2.step p s).host.HostStats.UpstreamRequestActive
      = p.host.HostStats.UpstreamRequestActive + http2.admitted p [s] - http2.destroyed [s] ∧
    (http2.step p s).host.ClusterStats.UpstreamRequestActive
      = p.host.ClusterStats.UpstreamRequestActive + http2.admitted p [s] - http2.destroyed [s] ∧
    (http2.step p s).host.Requests.cur
      = p.host.Requests.cur + http2.admitted p [s] - http2.destroyed [s] := by
  cases s with
  | NewStream responseDecoder ok =>
    obtain ⟨h1, h2, h3⟩ := http2_NewStream_active p responseDecoder ok
    simp only [http2.step, http2.admitted, http2.destroyed, List.filter_cons, List.filter_nil,
      Bool.false_eq_true, if_false, List.length_nil, h1, h2, h3]
    split <;> simp
  | OnDestroyStream ac =>
    simp [http2.step, http2.OnDestroyStream, http2.onStreamDestroy, http2.admitted,
      http2.destroyed, http2.Resource.Decrease]
  | OnResetStream ac reason =>
    simp only [http2.step, http2.OnResetStream, http2.onStreamReset, http2.admitted,
      http2.destroyed]
    split
    · simp [(http2_onClient_frame _ ac _).1]
    · split
      · simp
      · split <;> simp
  | OnGoAway ac =>
    simp [http2.step, http2.OnGoAway, (http2_onClient_frame p ac _).1, http2.admitted,
      http2.destroyed]
  | OnEvent ac event =>
    simp only [http2.step, http2.OnEvent, http2.onConnectionEvent, http2.admitted,
      http2.destroyed]
    split
    · split <;> split <;> (try split) <;> (try split) <;> simp
    · split
      · simp
      · split <;> simp

/-- The admitted streams of an execution, step by step. -/
theorem http2_admitted_cons (p : http2.ConnPool) (s : http2.Step) (steps : List http2.Step) :
    http2.admitted p (s :: steps) = http2.admitted p [s] + http2.admitted (http2.step p s) steps := by
  simp [http2.admitted]

/-- The destroyed streams of an execution, step by step. -/
theorem http2_destroyed_cons (s : http2.Step) (steps : List http2.Step) :
    http2.destroyed (s :: steps) = http2.destroyed [s] + http2.destroyed steps := by
  simp only [http2.destroyed, List.filter_cons, List.filter_nil]
  split <;> simp
  omega

/-- Over an execution the three active-request figures grow by the number of admitted
streams less the number of destroyed streams. -/
theorem http2_run_active (steps : List http2.Step) : ∀ p : http2.ConnPool,
    (http2.run p steps).host.HostStats.UpstreamRequestActive
      = p.host.HostStats.UpstreamRequestActive + http2.admitted p steps - http2.destroyed steps ∧
    (http2.run p steps).host.ClusterStats.UpstreamRequestActive
      = p.host.ClusterStats.UpstreamRequestActive + http2.admitted p steps
        - http2.destroyed steps ∧
    (http2.run p steps).host.Requests.cur
      = p.host.Requests.cur + http2.admitted p steps - http2.destroyed steps := by
  induction steps with
  | nil => intro p; simp [http2.run, http2.admitted, http2.destroyed]
  | cons s steps ih =>
    intro p
    obtain ⟨a1, a2, a3⟩ := http2_step_active p s
    obtain ⟨b1, b2, b3⟩ := ih (http2.step p s)
    have hrun : http2.run p (s :: steps) = http2.run (http2.step p s) steps := by
      simp [http2.run]
    rw [hrun, b1, b2, b3, a1, a2, a3, http2_admitted_cons p s steps, http2_destroyed_cons s steps]
    push_cast
    refine ⟨by ring, by ring, by ring⟩

/-- C19: a `NewStream` adds one to the host's and the cluster's active-request counter
and to the resource manager's request count exactly when it returns a stream sender, and
a stream destruction takes one from each. So after an execution with `n` admitted
streams and `m` stream destructions each of the three has grown by `n - m`, and as long
as no more streams were destroyed than admitted none is below its starting value. -/
theorem C19_active_accounting (p : http2.ConnPool) (steps : List http2.Step)
    (responseDecoder ac : Nat) (ok : Bool) :
    ((http2.NewStream p responseDecoder ok).2.host.HostStats.UpstreamRequestActive
        = p.host.HostStats.UpstreamRequestActive
          + (if (http2.NewStream p responseDecoder ok).1.1.isSome then 1 else 0) ∧
      (http2.NewStream p responseDecoder ok).2.host.ClusterStats.UpstreamRequestActive
        = p.host.ClusterStats.UpstreamRequestActive
          + (if (http2.NewStream p responseDecoder ok).1.1.isSome then 1 else 0) ∧
      (http2.NewStream p responseDecoder ok).2.host.Requests.cur
        = p.host.Requests.cur
          + (if (http2.NewStream p responseDecoder ok).1.1.isSome then 1 else 0)) ∧
    ((http2.OnDestroyStream p ac).host.HostStats.UpstreamRequestActive
        = p.host.HostStats.UpstreamRequestActive - 1 ∧
      (http2.OnDestroyStream p ac).host.ClusterStats.UpstreamRequestActive
        = p.host.ClusterStats.UpstreamRequestActive - 1 ∧
      (http2.OnDestroyStream p ac).host.Requests.cur = p.host.Requests.cur - 1) ∧
    ((http2.run p steps).host.HostStats.UpstreamRequestActive
        = p.host.HostStats.UpstreamRequestActive + http2.admitted p steps
          - http2.destroyed steps ∧
      (http2.run p steps).host.ClusterStats.UpstreamRequestActive
        = p.host.ClusterStats.UpstreamRequestActive + http2.admitted p steps
          - http2.destroyed steps ∧
      (http2.run p steps).host.Requests.cur
        = p.host.Requests.cur + http2.admitted p steps - http2.destroyed steps) ∧
    (http2.destroyed steps ≤ http2.admitted p steps →
      p.host.HostStats.UpstreamRequestActive
        ≤ (http2.run p steps).host.HostStats.UpstreamRequestActive ∧
      p.host.ClusterStats.UpstreamRequestActive
        ≤ (http2.run p steps).host.ClusterStats.UpstreamRequestActive ∧
      p.host.Requests.cur ≤ (http2.run p steps).host.Requests.cur) := by
  obtain ⟨r1, r2, r3⟩ := http2_run_active steps p
  refine ⟨http2_NewStream_active p responseDecoder ok, ⟨rfl, rfl, rfl⟩, ⟨r1, r2, r3⟩, ?_⟩
  intro hle
  rw [r1, r2, r3]
  refine ⟨by omega, by omega, by omega⟩

/-- Witness of C19: on the example pool (at most two concurrent requests) three
`NewStream` calls admit two streams; after one destruction each figure stands at 1. -/
theorem C19_active_accounting_witness :
    http2.admitted http2.examplePool
      [.NewStream 7 true, .NewStream 8 true, .NewStream 9 true, .OnDestroyStream 0] = 2 ∧
    (http2.run http2.examplePool
      [.NewStream 7 true, .NewStream 8 true, .NewStream 9 true,
       .OnDestroyStream 0]).host.HostStats.UpstreamRequestActive = 1 ∧
    (0 : Int) ≤ (http2.run http2.examplePool
      [.NewStream 7 true, .NewStream 8 true, .NewStream 9 true,
       .OnDestroyStream 0]).host.Requests.cur := by
  have h := C19_active_accounting http2.examplePool
    [.NewStream 7 true, .NewStream 8 true, .NewStream 9 true, .OnDestroyStream 0] 7 0 true
  exact ⟨by decide, by rw [h.2.2.1.1]; decide, (h.2.2.2 (by decide)).2.2⟩

/-- C20 (as stated) fails: with one admitted stream on the example pool, a local reset of
that stream leaves the host's and the cluster's active-request counters and the resource
manager's request count at 1; only the local-reset counters move. -/
theorem C20_stream_reset_counterexample :
    (http2.NewStream http2.examplePool 7 true).2.host.HostStats.UpstreamRequestActive = 1 ∧
    (http2.onStreamReset (http2.NewStream http2.examplePool 7 true).2 0
      .StreamLocalReset).host.HostStats.UpstreamRequestActive = 1 ∧
    (http2.onStreamReset (http2.NewStream http2.examplePool 7 true).2 0
      .StreamLocalReset).host.ClusterStats.UpstreamRequestActive = 1 ∧
    (http2.onStreamReset (http2.NewStream http2.examplePool 7 true).2 0
      .StreamLocalReset).host.Requests.cur = 1 ∧
    (http2.onStreamReset (http2.NewStream http2.examplePool 7 true).2 0
      .StreamLocalReset).host.HostStats.UpstreamRequestLocalReset = 1 := by
  decide

/-- C20 (amended): for every reset reason, `onStreamReset` leaves the host's and the
cluster's active-request counters and the resource manager's request count unchanged. It
adds one to the failure-eject counters (host and cluster) for connection termination and
connection failure, also setting `closeWithActiveReq` of the client, to the local-reset
counters for a local reset, to the remote-reset counters for a remote reset, and to none
of them for any other reason, for which the pool stays as it is. Every other counter of
the host and of the cluster, every other client, every other field of the client, the
active client and the connections are unchanged for every reason. -/
theorem C20_stream_reset (p : http2.ConnPool) (client : Nat) (reason : http2.StreamResetReason) :
    (http2.onStreamReset p client reason).host.HostStats.UpstreamRequestActive
      = p.host.HostStats.UpstreamRequestActive ∧
    (http2.onStreamReset p client reason).host.ClusterStats.UpstreamRequestActive
      = p.host.ClusterStats.UpstreamRequestActive ∧
    (http2.onStreamReset p client reason).host.Requests = p.host.Requests ∧
    (http2.onStreamReset p client reason).host.HostStats.UpstreamRequestFailureEject
      = p.host.HostStats.UpstreamRequestFailureEject
        + (if reason = .StreamConnectionTermination ∨ reason = .StreamConnectionFailed
            then 1 else 0) ∧
    (http2.onStreamReset p client reason).host.ClusterStats.UpstreamRequestFailureEject
      = p.host.ClusterStats.UpstreamRequestFailureEject
        + (if reason = .StreamConnectionTermination ∨ reason = .StreamConnectionFailed
            then 1 else 0) ∧
    (http2.onStreamReset p client reason).host.HostStats.UpstreamRequestLocalReset
      = p.host.HostStats.UpstreamRequestLocalReset
        + (if reason = .StreamLocalReset then 1 else 0) ∧
    (http2.onStreamReset p client reason).host.ClusterStats.UpstreamRequestLocalReset
      = p.host.ClusterStats.UpstreamRequestLocalReset
        + (if reason = .StreamLocalReset then 1 else 0) ∧
    (http2.onStreamReset p client reason).host.HostStats.UpstreamRequestRemoteReset
      = p.host.HostStats.UpstreamRequestRemoteReset
        + (if reason = .StreamRemoteReset then 1 else 0) ∧
    (http2.onStreamReset p client reason).host.ClusterStats.UpstreamRequestRemoteReset
      = p.host.ClusterStats.UpstreamRequestRemoteReset
        + (if reason = .StreamRemoteReset then 1 else 0) ∧
    http2.otherCounters (http2.onStreamReset p client reason).host.HostStats
      = http2.otherCounters p.host.HostStats ∧
    http2.otherCounters (http2.onStreamReset p client reason).host.ClusterStats
      = http2.otherCounters p.host.ClusterStats ∧
    (∀ i, (http2.onStreamReset p client reason).clients[i]?
      = if (reason = .StreamConnectionTermination ∨ reason = .StreamConnectionFailed)
            ∧ i = client
        then (p.clients[i]?).map (fun c => { c with closeWithActiveReq := true })
        else p.clients[i]?) ∧
    (http2.onStreamReset p client reason).activeClient = p.activeClient ∧
    (http2.onStreamReset p client reason).connections = p.connections ∧
    (∀ name, http2.onStreamReset p client (.Other name) = p) := by
  have hclients : ∀ (q : http2.ConnPool) (i : Nat),
      (q.onClient client (fun c => { c with closeWithActiveReq := true })).clients[i]?
        = if i = client then (q.clients[i]?).map (fun c => { c with closeWithActiveReq := true })
          else q.clients[i]? := by
    intro q i
    unfold http2.ConnPool.onClient
    cases hc : q.clients[client]? with
    | none =>
      by_cases hi : i = client
      · subst hi
        simp [hc]
      · simp [hi]
    | some ac =>
      by_cases hi : i = client
      · subst hi
        have hlt : i < q.clients.length := (List.getElem?_eq_some.1 hc).1
        simp [hc, List.getElem?_set_self hlt]
      · simp [hi, List.getElem?_set_ne (Ne.symm hi)]
  have hcl : ∀ i, (http2.onStreamReset p client reason).clients[i]?
      = if (reason = .StreamConnectionTermination ∨ reason = .StreamConnectionFailed)
            ∧ i = client
        then (p.clients[i]?).map (fun c => { c with closeWithActiveReq := true })
        else p.clients[i]? := by
    intro i
    cases reason <;> simp [http2.onStreamReset, hclients]
  have hother : ∀ name, http2.onStreamReset p client (.Other name) = p := by
    intro name
    simp [http2.onStreamReset]
  refine ⟨?_, ?_, ?_, ?_, ?_, ?_, ?_, ?_, ?_, ?_, ?_, hcl, ?_, ?_, hother⟩
  all_goals
    (cases reason <;>
      simp [http2.onStreamReset, http2.otherCounters, (http2_onClient_frame _ client _).1,
        (http2_onClient_frame _ client _).2.1, (http2_onClient_frame _ client _).2.2.1])

/-! ## Package config: host weights and parsed-config callbacks -/

section Config

open config

/-- `transHostWeight` is the clamp into `[1, 128]`. -/
theorem config_transHostWeight_eq (w : Nat) :
    transHostWeight w = min (max w 1) 128 := by
  unfold transHostWeight MaxHostWeight MinHostWeight
  split
  · omega
  · split <;> omega

/-- The loop of `parseHostConfig` appends the hosts with clamped weights. -/
theorem config_parseHostConfig_foldl (hosts acc : List v2.Host) :
    hosts.foldl (fun hs host => hs ++ [{ host with Weight := transHostWeight host.Weight }]) acc
      = acc ++ hosts.map (fun host => { host with Weight := transHostWeight host.Weight }) := by
  induction hosts generalizing acc with
  | nil => simp
  | cons h t ih => simp [ih]

/-- `parseHostConfig` maps the hosts in order, changing only the weight. -/
theorem config_parseHostConfig_map (hosts : List v2.Host) :
    parseHostConfig hosts
      = hosts.map (fun host => { host with Weight := transHostWeight host.Weight }) := by
  unfold parseHostConfig
  rw [config_parseHostConfig_foldl]
  simp

/-- An accepted cluster passes the checks of the loop body of `ParseClusterConfig`, which
keeps its name and parses its hosts. -/
theorem config_cluster_ok (pkg : Package) (c : v2.Cluster) (h : Accepted pkg c) :
    ∃ c', ParseClusterConfig.cluster pkg c = .ok c' ∧ c'.Name = c.Name ∧
      c'.Hosts = parseHostConfig c.Hosts := by
  obtain ⟨hn, hf, hp⟩ := h
  have hf' : ¬ 2 < c.FallBackPolicy := by omega
  have hp' : ¬ (xprotocol.GoMap.Load pkg.protocolsSupported c.HealthCheckProtocol = none ∧
      ¬ c.HealthCheckProtocol = "") := by
    rintro ⟨hl, hne⟩
    rcases hp with hp | hp
    · exact hne hp
    · rw [hl] at hp; simp at hp
  unfold ParseClusterConfig.cluster
  by_cases h1 : c.MaxRequestPerConn = 0 <;> by_cases h2 : c.ConnBufferLimitBytes = 0 <;>
    simp [hn, h1, h2, hp', hf']

/-- On accepted clusters the loop of `ParseClusterConfig` completes and appends the
clusters in order, each with its parsed hosts. -/
theorem config_loop_ok (pkg : Package) (clusters : List v2.Cluster)
    (h : ∀ c ∈ clusters, Accepted pkg c) (acc : List v2.Cluster × xprotocol.GoMap (List v2.Host)) :
    ∃ r, ParseClusterConfig.loop pkg clusters acc = .ok r ∧
      r.1.map (fun c => (c.Name, c.Hosts))
        = acc.1.map (fun c => (c.Name, c.Hosts))
          ++ clusters.map (fun c => (c.Name, parseHostConfig c.Hosts)) ∧
      ∀ name hs, xprotocol.GoMap.Load r.2 name = some hs →
        xprotocol.GoMap.Load acc.2 name = some hs ∨
          ∃ c ∈ clusters, c.Name = name ∧ hs = parseHostConfig c.Hosts := by
  induction clusters generalizing acc with
  | nil =>
    refine ⟨acc, rfl, by simp, ?_⟩
    intro name hs hl
    exact Or.inl hl
  | cons c cs ih =>
    obtain ⟨c', hc, hname, hhosts⟩ := config_cluster_ok pkg c (h c (List.mem_cons_self _ _))
    obtain ⟨pClusters, m⟩ := acc
    obtain ⟨r, hr, hmap, hload⟩ :=
      ih (fun x hx => h x (List.mem_cons_of_mem _ hx))
        (pClusters ++ [c'], xprotocol.GoMap.Store m c'.Name c'.Hosts)
    refine ⟨r, ?_, ?_, ?_⟩
    · simp only [ParseClusterConfig.loop, hc]
      exact hr
    · rw [hmap]
      simp [hname, hhosts]
    · intro name hs hl
      rcases hload name hs hl with h1 | ⟨x, hx, hxn, hxh⟩
      · by_cases hk : c'.Name = name
        · subst hk
          rw [GoMap.Load_Store_self] at h1
          refine Or.inr ⟨c, List.mem_cons_self _ _, hname.symm, ?_⟩
          rw [← hhosts]
          exact (Option.some.inj h1).symm
        · rw [GoMap.Load_Store_ne _ _ (Ne.symm hk)] at h1
          exact Or.inl h1
      · exact Or.inr ⟨x, List.mem_cons_of_mem _ hx, hxn, hxh⟩


/-- What the loop body of `ParseClusterConfig` returns has the name of the cluster and
its parsed hosts. -/
theorem config_cluster_inv (pkg : Package) (c c' : v2.Cluster)
    (hc : ParseClusterConfig.cluster pkg c = .ok c') :
    c'.Name = c.Name ∧ c'.Hosts = parseHostConfig c.Hosts := by
  unfold ParseClusterConfig.cluster at hc
  by_cases h0 : c.Name = ""
  · simp [h0] at hc
  · by_cases h1 : c.MaxRequestPerConn = 0 <;> by_cases h2 : c.ConnBufferLimitBytes = 0 <;>
      by_cases h3 : 2 < c.FallBackPolicy <;>
      by_cases h4 : (xprotocol.GoMap.Load pkg.protocolsSupported c.HealthCheckProtocol = none ∧
        ¬ c.HealthCheckProtocol = "") <;>
      simp [h0, h1, h2, h3, h4] at hc <;> subst hc <;> exact ⟨rfl, rfl⟩

/-- After the loop of `ParseClusterConfig`, `clusterV2Map` holds for each name the parsed
hosts of the last cluster of that name. -/
theorem config_loop_map (pkg : Package) (clusters : List v2.Cluster)
    (acc r : List v2.Cluster × xprotocol.GoMap (List v2.Host))
    (hr : ParseClusterConfig.loop pkg clusters acc = .ok r) (name : String) :
    xprotocol.GoMap.Load r.2 name
      = ((clusters.reverse.find? (fun c => c.Name = name)).map
          (fun c => parseHostConfig c.Hosts)).or (xprotocol.GoMap.Load acc.2 name) := by
  induction clusters generalizing acc with
  | nil =>
    simp only [ParseClusterConfig.loop] at hr
    cases hr
    simp
  | cons c cs ih =>
    obtain ⟨pClusters, m⟩ := acc
    simp only [ParseClusterConfig.loop] at hr
    cases hc : ParseClusterConfig.cluster pkg c with
    | error e => rw [hc] at hr; cases hr
    | ok c' =>
      rw [hc] at hr
      have hname := config_cluster_inv pkg c c' hc
      rw [ih _ hr]
      simp only [List.reverse_cons, List.find?_append]
      cases hf : cs.reverse.find? (fun c => decide (c.Name = name)) with
      | some x => simp
      | none =>
        by_cases hk : c.Name = name
        · subst hk
          simp [← hname.1, ← hname.2, GoMap.Load_Store_self]
        · have hk' : name ≠ c'.Name := by rw [hname.1]; exact Ne.symm hk
          simp [hk, GoMap.Load_Store_ne _ _ hk']

/-- Claim C25: `transHostWeight` clamps every 32-bit weight into `[1, 128]`, that is to
`min (max w 1) 128`, which is `w` itself for `1 ≤ w ≤ 128`; `parseHostConfig` returns the
hosts in the order and number given, changing only the weights, each to its clamped
value; and for clusters that `ParseClusterConfig` accepts (named, fall-back policy at
most 2, supported health check protocol) it returns, for each cluster in order, the
cluster with the hosts of `parseHostConfig`, the map from each name to the hosts of the
last cluster of that name, and every returned host has a weight in `[1, 128]`. -/
theorem C25_host_weights_clamped (pkg : Package) (clusters : List v2.Cluster)
    (h : ∀ c ∈ clusters, Accepted pkg c) :
    (∀ w : Nat, w < 2 ^ 32 →
      transHostWeight w = min (max w 1) 128 ∧ (1 ≤ w → w ≤ 128 → transHostWeight w = w)) ∧
    (∀ hosts : List v2.Host,
      parseHostConfig hosts
          = hosts.map (fun host => { host with Weight := min (max host.Weight 1) 128 }) ∧
        (parseHostConfig hosts).length = hosts.length ∧
        ∀ host ∈ parseHostConfig hosts, 1 ≤ host.Weight ∧ host.Weight ≤ 128) ∧
    ∃ r, ParseClusterConfig pkg clusters = .ok r ∧
      r.pClusters.length = clusters.length ∧
      r.pClusters.map (fun c => (c.Name, c.Hosts))
        = clusters.map (fun c => (c.Name, parseHostConfig c.Hosts)) ∧
      (∀ name, GoMap.Load r.clusterV2Map name
        = (clusters.reverse.find? (fun c => c.Name = name)).map
            (fun c => parseHostConfig c.Hosts)) ∧
      (∀ name hs, GoMap.Load r.clusterV2Map name = some hs →
        ∀ host ∈ hs, 1 ≤ host.Weight ∧ host.Weight ≤ 128) ∧
      ∀ c ∈ r.pClusters, ∀ host ∈ c.Hosts, 1 ≤ host.Weight ∧ host.Weight ≤ 128 := by
  have hw : ∀ w : Nat, transHostWeight w = min (max w 1) 128 := config_transHostWeight_eq
  have hp : ∀ hosts : List v2.Host, ∀ host ∈ parseHostConfig hosts,
      1 ≤ host.Weight ∧ host.Weight ≤ 128 := by
    intro hosts host hm
    rw [config_parseHostConfig_map] at hm
    obtain ⟨x, _, rfl⟩ := List.mem_map.1 hm
    simp only [hw]
    omega
  refine ⟨?_, ?_, ?_⟩
  · intro w _
    refine ⟨hw w, ?_⟩
    intro h1 h2
    rw [hw]
    omega
  · intro hosts
    refine ⟨?_, ?_, hp hosts⟩
    · rw [config_parseHostConfig_map]
      simp only [hw]
    · rw [config_parseHostConfig_map]
      simp
  · obtain ⟨r, hr, hmap, _⟩ := config_loop_ok pkg clusters h ([], [])
    have hload := config_loop_map pkg clusters ([], []) r hr
    have hmap' : r.1.map (fun c => (c.Name, c.Hosts))
        = clusters.map (fun c => (c.Name, parseHostConfig c.Hosts)) := by simpa using hmap
    have hloadq : ∀ name, GoMap.Load r.2 name
        = (clusters.reverse.find? (fun c => c.Name = name)).map
            (fun c => parseHostConfig c.Hosts) := by
      intro name
      rw [hload name]
      simp [GoMap.Load]
    obtain ⟨pClusters, m⟩ := r
    have hres : ∃ r, ParseClusterConfig pkg clusters = .ok r ∧ r.pClusters = pClusters ∧
        r.clusterV2Map = m := by
      simp only [ParseClusterConfig, hr]
      exact ⟨_, rfl, rfl, rfl⟩
    obtain ⟨r, hres, rfl, rfl⟩ := hres
    refine ⟨r, hres, ?_, hmap', hloadq, ?_, ?_⟩
    · have := congrArg List.length hmap'
      simpa using this
    · intro name hs hl
      rw [hloadq name] at hl
      cases hf : clusters.reverse.find? (fun c => decide (c.Name = name)) with
      | none => rw [hf] at hl; cases hl
      | some x =>
        rw [hf] at hl
        cases hl
        intro host hm
        exact hp _ host hm
    · intro c hc host hm
      have hin : (c.Name, c.Hosts) ∈ r.pClusters.map (fun c => (c.Name, c.Hosts)) :=
        List.mem_map.2 ⟨c, hc, rfl⟩
      rw [hmap'] at hin
      obtain ⟨x, _, hx⟩ := List.mem_map.1 hin
      have hh : parseHostConfig x.Hosts = c.Hosts := congrArg Prod.snd hx
      rw [← hh] at hm
      exact hp _ host hm

/-- Witness of C25: the example configuration is accepted; its weights 0, 64 and 500
come back as 1, 64 and 128, the hosts in the order given. -/
theorem C25_host_weights_clamped_witness :
    (∀ c ∈ exampleClusters, Accepted examplePackage c) ∧
    transHostWeight 500 = 128 ∧ transHostWeight 0 = 1 ∧ transHostWeight 64 = 64 ∧
    (ParseClusterConfig examplePackage exampleClusters).toOption.map
        (fun r => r.pClusters.map (fun c => c.Hosts.map (fun host => (host.Address, host.Weight))))
      = some [[("10.0.0.1:80", 1), ("10.0.0.2:80", 64)], [("10.0.0.3:80", 128)]] := by
  have hacc : ∀ c ∈ exampleClusters, Accepted examplePackage c := by
    intro c hc
    simp only [exampleClusters, List.mem_cons, List.mem_singleton, List.not_mem_nil, or_false] at hc
    rcases hc with rfl | rfl
    · exact ⟨by decide, by decide, Or.inl rfl⟩
    · exact ⟨by decide, by decide, Or.inr (by decide)⟩
  have h := C25_host_weights_clamped examplePackage exampleClusters hacc
  refine ⟨hacc, ?_, ?_, ?_, by decide⟩
  · rw [(h.1 500 (by norm_num)).1]; decide
  · rw [(h.1 0 (by norm_num)).1]; decide
  · exact (h.1 64 (by norm_num)).2 (by norm_num) (by norm_num)

/-- Registering two callbacks under a key without callbacks stores the first one only. -/
theorem config_Register_twice (pkg : Package) (key : ContentKey) (cb cb2 : ParsedCallback)
    (hnone : GoMap.Load pkg.configParsedCBMaps key = none) :
    GoMap.Load
        (RegisterConfigParsedListener (RegisterConfigParsedListener pkg key cb) key
          cb2).configParsedCBMaps key
      = some [cb] := by
  simp only [RegisterConfigParsedListener, hnone, GoMap.Load_Store_self]

/-- Claim C28 fails on the code: of the callbacks registered under one key with
`RegisterConfigParsedListener` only the first is stored, because for a key that already
has callbacks the appended slice is assigned to a local variable and never written to
`configParsedCBMaps`. Registering callbacks 1 and 2 under the clusters key leaves the
list `[1]`, and `ParseClusterConfig`, whose loop is over the callbacks stored, invokes
callback 1 only. -/
theorem C28_second_callback_lost :
    GoMap.Load
        (RegisterConfigParsedListener
          (RegisterConfigParsedListener examplePackage ParseCallbackKeyCluster 1)
          ParseCallbackKeyCluster 2).configParsedCBMaps ParseCallbackKeyCluster
      = some [1] ∧
    (ParseClusterConfig
        (RegisterConfigParsedListener
          (RegisterConfigParsedListener examplePackage ParseCallbackKeyCluster 1)
          ParseCallbackKeyCluster 2) exampleClusters).toOption.map
        (fun r => r.calls.map (fun call => call.cb))
      = some [1] := by
  exact ⟨by decide, by decide⟩

end Config

/-! ## The cluster manager: pools, cluster removal and host removal -/

section Cluster

open cluster

/-- A lookup finds no cluster snapshot for a name that is not in the manager. -/
theorem cluster_snapshot_none (cm : clusterManager) (name : String)
    (h : GoMap.Load cm.primaryClusters name = none) :
    getOrCreateClusterSnapshot cm name = none := by
  simp [getOrCreateClusterSnapshot, h]

/-- A lookup finds the snapshot of a cluster that is in the manager. -/
theorem cluster_snapshot_some (cm : clusterManager) (name : String) (v : primaryCluster)
    (h : GoMap.Load cm.primaryClusters name = some v) :
    getOrCreateClusterSnapshot cm name = some v.cluster := by
  simp [getOrCreateClusterSnapshot, h]

/-- A pool lookup that finds a pool under the address of the chosen host returns it and
changes nothing. -/
theorem cluster_call_hit (l : Lookup) (cm : clusterManager) (host : Host) (name : String)
    (v : primaryCluster) (pool : ConnectionPool)
    (hc : GoMap.Load cm.primaryClusters name = some v)
    (hp : GoMap.Load (l.pools cm) host.address = some pool) :
    l.call cm (some host) name = (some pool, cm) := by
  have hs := cluster_snapshot_some cm name v hc
  cases l with
  | Http protocol =>
    cases protocol with
    | Http1 =>
      simp only [Lookup.pools] at hp
      simp [Lookup.call, HttpConnPoolForCluster, hs, hp]
    | Http2 =>
      simp only [Lookup.pools] at hp
      simp [Lookup.call, HttpConnPoolForCluster, hs, hp]
    | other n => simp [Lookup.pools, GoMap.Load] at hp
  | Xprotocol protocol =>
    simp only [Lookup.pools] at hp
    simp [Lookup.call, XprotocolConnPoolForCluster, hs, hp]
  | SofaRpc =>
    simp only [Lookup.pools] at hp
    simp [Lookup.call, SofaRpcConnPoolForCluster, hs, hp]

/-- A pool lookup that finds no pool under the address of the chosen host makes one pool
on that host, stores it under the address and returns it; the clusters are left alone. -/
theorem cluster_call_miss (l : Lookup) (cm : clusterManager) (host : Host) (name : String)
    (v : primaryCluster) (hl : ∀ n, l ≠ .Http (.other n))
    (hc : GoMap.Load cm.primaryClusters name = some v)
    (hp : GoMap.Load (l.pools cm) host.address = none) :
    ∃ pool, (l.call cm (some host) name).1 = some pool ∧
      pool.object = cm.pools.length ∧ pool.host = host ∧
      (l.call cm (some host) name).2.pools = cm.pools ++ [pool] ∧
      GoMap.Load (l.pools (l.call cm (some host) name).2) host.address = some pool ∧
      (l.call cm (some host) name).2.primaryClusters = cm.primaryClusters := by
  have hs := cluster_snapshot_some cm name v hc
  cases l with
  | Http protocol =>
    cases protocol with
    | Http1 =>
      simp only [Lookup.pools] at hp
      simp [Lookup.call, Lookup.pools, HttpConnPoolForCluster, hs, hp, GoMap.Load_Store_self]
    | Http2 =>
      simp only [Lookup.pools] at hp
      simp [Lookup.call, Lookup.pools, HttpConnPoolForCluster, hs, hp, GoMap.Load_Store_self]
    | other n => exact absurd rfl (hl n)
  | Xprotocol protocol =>
    simp only [Lookup.pools] at hp
    simp [Lookup.call, Lookup.pools, XprotocolConnPoolForCluster, hs, hp, GoMap.Load_Store_self]
  | SofaRpc =>
    simp only [Lookup.pools] at hp
    simp [Lookup.call, Lookup.pools, SofaRpcConnPoolForCluster, hs, hp, GoMap.Load_Store_self]

/-- Once a pool is stored under an address, every further lookup that picks a host of
that address returns that pool and changes nothing. -/
theorem cluster_calls_hit (l : Lookup) (cm : clusterManager) (a : String)
    (pool : ConnectionPool) (calls : List (String × Option Host))
    (hc : ∀ c ∈ calls, (GoMap.Load cm.primaryClusters c.1).isSome ∧
      ∃ host, c.2 = some host ∧ host.address = a)
    (hp : GoMap.Load (l.pools cm) a = some pool) :
    l.calls cm calls = (List.replicate calls.length (some pool), cm) := by
  induction calls with
  | nil => rfl
  | cons c rest ih =>
    obtain ⟨name, chosen⟩ := c
    obtain ⟨hsome, host, hch, ha⟩ := hc (name, chosen) (List.mem_cons_self _ _)
    simp only at hsome hch
    obtain ⟨v, hv⟩ := Option.isSome_iff_exists.1 hsome
    subst hch
    have hcall := cluster_call_hit l cm host name v pool hv (by rw [ha]; exact hp)
    have ih' := ih (fun c hm => hc c (List.mem_cons_of_mem _ hm))
    simp only [Lookup.calls, hcall, ih', List.length_cons, List.replicate_succ]

/-- Claim C21: pool creation is at most once per key. For each pool lookup that has a
pool map (`HttpConnPoolForCluster` with HTTP/1 or HTTP/2, `XprotocolConnPoolForCluster`,
`SofaRpcConnPoolForCluster`) and each address `a`, any `K ≥ 1` calls executed one after
another, each for an existing cluster and with the load balancer picking a host of
address `a`, all return the same pool, which is stored under `a` afterwards; they
create exactly one pool, this one, when no pool was stored under `a` before, and none
when there was one. -/
theorem C21_pool_created_once (l : Lookup) (cm : clusterManager) (a : String)
    (calls : List (String × Option Host))
    (hl : ∀ n, l ≠ .Http (.other n))
    (hk : calls ≠ [])
    (hc : ∀ c ∈ calls, (GoMap.Load cm.primaryClusters c.1).isSome ∧
      ∃ host, c.2 = some host ∧ host.address = a) :
    ∃ pool, (l.calls cm calls).1 = List.replicate calls.length (some pool) ∧
      GoMap.Load (l.pools (l.calls cm calls).2) a = some pool ∧
      (GoMap.Load (l.pools cm) a = none →
        (l.calls cm calls).2.pools = cm.pools ++ [pool] ∧ pool.host.address = a) ∧
      ((GoMap.Load (l.pools cm) a).isSome → (l.calls cm calls).2.pools = cm.pools) ∧
      (l.calls cm calls).2.pools.length ≤ cm.pools.length + 1 := by
  cases hp : GoMap.Load (l.pools cm) a with
  | some pool0 =>
    have hhit := cluster_calls_hit l cm a pool0 calls hc hp
    refine ⟨pool0, ?_, ?_, ?_, ?_, ?_⟩
    · rw [hhit]
    · rw [hhit]
      exact hp
    · intro h
      cases h
    · intro _
      rw [hhit]
    · rw [hhit]
      exact Nat.le_succ _
  | none =>
    cases calls with
    | nil => exact absurd rfl hk
    | cons c rest =>
      obtain ⟨name, chosen⟩ := c
      obtain ⟨hsome, host, hch, ha⟩ := hc (name, chosen) (List.mem_cons_self _ _)
      simp only at hsome hch
      obtain ⟨v, hv⟩ := Option.isSome_iff_exists.1 hsome
      subst hch
      obtain ⟨pool, h1, _, hhost, hpools, hload, hpc⟩ :=
        cluster_call_miss l cm host name v hl hv (by rw [ha]; exact hp)
      have hrest := cluster_calls_hit l (l.call cm (some host) name).2 a pool rest
        (fun c hm => by
          rw [hpc]
          exact hc c (List.mem_cons_of_mem _ hm))
        (by rw [← ha]; exact hload)
      refine ⟨pool, ?_, ?_, ?_, ?_, ?_⟩
      · simp only [Lookup.calls, hrest, h1, List.length_cons, List.replicate_succ]
      · simp only [Lookup.calls, hrest]
        rw [← ha]
        exact hload
      · intro _
        refine ⟨?_, ?_⟩
        · simp only [Lookup.calls, hrest, hpools]
        · rw [hhost]
          exact ha
      · intro h
        simp at h
      · simp only [Lookup.calls, hrest, hpools, List.length_append, List.length_singleton]
        exact Nat.le_refl _

/-- Witness of C21: three sofarpc lookups on the example manager, whose load balancer
picks hosts of address `10.0.0.2:80`, make one pool, on the host picked first, and
return it three times. -/
theorem C21_pool_created_once_witness :
    (Lookup.SofaRpc.calls exampleManager
        [("c1", some ⟨1, "10.0.0.2:80"⟩), ("c1", some ⟨1, "10.0.0.2:80"⟩),
          ("c1", some ⟨5, "10.0.0.2:80"⟩)]).1
      = List.replicate 3 (some ⟨0, .sofarpc, ⟨1, "10.0.0.2:80"⟩⟩) ∧
    (Lookup.SofaRpc.calls exampleManager
        [("c1", some ⟨1, "10.0.0.2:80"⟩), ("c1", some ⟨1, "10.0.0.2:80"⟩),
          ("c1", some ⟨5, "10.0.0.2:80"⟩)]).2.pools
      = [⟨0, .sofarpc, ⟨1, "10.0.0.2:80"⟩⟩] := by
  obtain ⟨pool, h1, _, hnone, _, _⟩ := C21_pool_created_once Lookup.SofaRpc exampleManager
    "10.0.0.2:80"
    [("c1", some ⟨1, "10.0.0.2:80"⟩), ("c1", some ⟨1, "10.0.0.2:80"⟩),
      ("c1", some ⟨5, "10.0.0.2:80"⟩)]
    (by intro n; exact Lookup.noConfusion) (by simp)
    (by
      intro c hm
      simp only [List.mem_cons, List.mem_singleton, List.not_mem_nil, or_false] at hm
      rcases hm with rfl | rfl | rfl
      · exact ⟨by decide, _, rfl, rfl⟩
      · exact ⟨by decide, _, rfl, rfl⟩
      · exact ⟨by decide, _, rfl, rfl⟩)
  have hres : (Lookup.SofaRpc.calls exampleManager
      [("c1", some ⟨1, "10.0.0.2:80"⟩), ("c1", some ⟨1, "10.0.0.2:80"⟩),
        ("c1", some ⟨5, "10.0.0.2:80"⟩)]).1
      = List.replicate 3 (some ⟨0, .sofarpc, ⟨1, "10.0.0.2:80"⟩⟩) := by decide
  have hpool : pool = ⟨0, .sofarpc, ⟨1, "10.0.0.2:80"⟩⟩ := by
    rw [hres] at h1
    simpa [List.replicate] using h1.symm
  subst hpool
  refine ⟨hres, ?_⟩
  rw [(hnone (by decide)).1]
  decide

/-- Claim C22: a pool lookup for a cluster name that is not in the manager, or in which
the load balancer returns no host, returns nil and changes nothing, so no pool is
created and every pool map is as before; this holds for `HttpConnPoolForCluster`,
`XprotocolConnPoolForCluster` and `SofaRpcConnPoolForCluster`. `HttpConnPoolForCluster`
also returns nil and changes nothing for a protocol other than HTTP/1 and HTTP/2. -/
theorem C22_no_pool_without_host (cm : clusterManager) (chosen : Option Host)
    (cluster : String) (protocol : Protocol)
    (h : GoMap.Load cm.primaryClusters cluster = none ∨ chosen = none) :
    HttpConnPoolForCluster cm chosen cluster protocol = (none, cm) ∧
    XprotocolConnPoolForCluster cm chosen cluster protocol = (none, cm) ∧
    SofaRpcConnPoolForCluster cm chosen cluster = (none, cm) ∧
    ∀ (picked : Option Host) (name other : String),
      HttpConnPoolForCluster cm picked name (.other other) = (none, cm) := by
  refine ⟨?_, ?_, ?_, ?_⟩
  · rcases h with h | h
    · simp [HttpConnPoolForCluster, cluster_snapshot_none cm cluster h]
    · subst h
      cases hs : getOrCreateClusterSnapshot cm cluster <;> simp [HttpConnPoolForCluster, hs]
  · rcases h with h | h
    · simp [XprotocolConnPoolForCluster, cluster_snapshot_none cm cluster h]
    · subst h
      cases hs : getOrCreateClusterSnapshot cm cluster <;>
        simp [XprotocolConnPoolForCluster, hs]
  · rcases h with h | h
    · simp [SofaRpcConnPoolForCluster, cluster_snapshot_none cm cluster h]
    · subst h
      cases hs : getOrCreateClusterSnapshot cm cluster <;>
        simp [SofaRpcConnPoolForCluster, hs]
  · intro picked name other
    cases hs : getOrCreateClusterSnapshot cm name with
    | none => simp [HttpConnPoolForCluster, hs]
    | some c => cases picked <;> simp [HttpConnPoolForCluster, hs]

/-- Witness of C22: on the example manager a lookup for the unknown cluster `c9` returns
nil and leaves the manager as it is, whatever host a load balancer would pick. -/
theorem C22_no_pool_without_host_witness :
    HttpConnPoolForCluster exampleManager (some ⟨0, "10.0.0.1:80"⟩) "c9" .Http2
      = (none, exampleManager) ∧
    SofaRpcConnPoolForCluster exampleManager (some ⟨0, "10.0.0.1:80"⟩) "c9"
      = (none, exampleManager) := by
  have h := C22_no_pool_without_host exampleManager (some ⟨0, "10.0.0.1:80"⟩) "c9" .Http2
    (Or.inl (by decide))
  exact ⟨h.1, h.2.2.1⟩

/-- `RemovePrimaryCluster` by cases: on a name whose cluster exists with `addedViaApi`
false it returns false and leaves the manager unchanged; in every other case it returns
true, afterwards `ClusterExist` of the name is false, and every other cluster (and
everything else in the manager) is as before. -/
theorem cluster_RemovePrimaryCluster_cases (cm : clusterManager) (name : String) :
    ((∃ v, GoMap.Load cm.primaryClusters name = some v ∧ v.addedViaApi = false) →
      RemovePrimaryCluster cm name = (false, cm)) ∧
    ((¬ ∃ v, GoMap.Load cm.primaryClusters name = some v ∧ v.addedViaApi = false) →
      (RemovePrimaryCluster cm name).1 = true ∧
      ClusterExist (RemovePrimaryCluster cm name).2 name = false ∧
      (∀ other, other ≠ name →
        GoMap.Load (RemovePrimaryCluster cm name).2.primaryClusters other
          = GoMap.Load cm.primaryClusters other) ∧
      (RemovePrimaryCluster cm name).2
        = { cm with primaryClusters := (RemovePrimaryCluster cm name).2.primaryClusters }) := by
  constructor
  · rintro ⟨v, hv, hs⟩
    simp [RemovePrimaryCluster, hv, hs]
  · intro hn
    cases hv : GoMap.Load cm.primaryClusters name with
    | none =>
      simp [RemovePrimaryCluster, ClusterExist, hv]
    | some v =>
      have hs : v.addedViaApi = true := by
        cases hb : v.addedViaApi with
        | true => rfl
        | false => exact absurd ⟨v, hv, hb⟩ hn
      refine ⟨?_, ?_, ?_, ?_⟩
      · simp [RemovePrimaryCluster, hv, hs]
      · simp [RemovePrimaryCluster, ClusterExist, hv, hs, GoMap.Load_Delete_self]
      · intro other ho
        simp [RemovePrimaryCluster, hv, hs, GoMap.Load_Delete_ne _ ho]
      · simp [RemovePrimaryCluster, hv, hs]

/-- What is loaded from a map after a store is the value stored or was there before. -/
theorem cluster_Load_Store_cases {β : Type} (m : GoMap β) (key name : String) (v w : β)
    (h : GoMap.Load (GoMap.Store m key v) name = some w) :
    w = v ∨ GoMap.Load m name = some w := by
  by_cases hk : name = key
  · subst hk
    rw [GoMap.Load_Store_self] at h
    exact Or.inl (Option.some.inj h).symm
  · rw [GoMap.Load_Store_ne _ _ hk] at h
    exact Or.inr h

/-- What is loaded from a map after a deletion was there before. -/
theorem cluster_Load_Delete_cases {β : Type} (m : GoMap β) (key name : String) (w : β)
    (h : GoMap.Load (GoMap.Delete m key) name = some w) :
    GoMap.Load m name = some w := by
  by_cases hk : name = key
  · subst hk
    rw [GoMap.Load_Delete_self] at h
    cases h
  · rw [GoMap.Load_Delete_ne _ hk] at h
    exact h

/-- `AddOrUpdatePrimaryCluster` marks the cluster it loads as added via the API, whoever
calls it. -/
theorem cluster_AddOrUpdate_ViaApi (cm : clusterManager) (cluster : v2.Cluster)
    (h : ViaApi cm) : ViaApi (AddOrUpdatePrimaryCluster cm cluster).2 := by
  intro name v hv
  unfold AddOrUpdatePrimaryCluster at hv
  cases hl : GoMap.Load cm.primaryClusters cluster.Name with
  | none =>
    simp only [hl, loadCluster] at hv
    rcases cluster_Load_Store_cases _ _ _ _ _ hv with rfl | hv'
    · rfl
    · exact h name v hv'
  | some old =>
    simp only [hl] at hv
    by_cases hb : old.addedViaApi = true
    · simp only [hb, Bool.not_true, Bool.false_eq_true, if_false, loadCluster] at hv
      rcases cluster_Load_Store_cases _ _ _ _ _ hv with rfl | hv'
      · rfl
      · exact h name v hv'
    · simp only [hb, Bool.not_false, if_true] at hv
      exact h name v hv

/-- The loop of `UpdateClusterHosts` leaves the clusters alone. -/
theorem cluster_hosts_primaryClusters (hostConfigs : List v2.Host) (acc : Slice × clusterManager) :
    (hostConfigs.foldl
      (fun (acc : Slice × clusterManager) hc =>
        let made := NewHost acc.2 hc
        let appended := append made.2.heap acc.1 [made.1]
        (appended.1, { made.2 with heap := appended.2 }))
      acc).2.primaryClusters = acc.2.primaryClusters := by
  induction hostConfigs generalizing acc with
  | nil => rfl
  | cons hc rest ih =>
    rw [List.foldl_cons, ih]
    rfl

/-- `UpdateClusterHosts` keeps the mark of every cluster. -/
theorem cluster_UpdateClusterHosts_ViaApi (cm : clusterManager) (clusterName : String)
    (priority : Nat) (hostConfigs : List v2.Host) (h : ViaApi cm) :
    ViaApi (UpdateClusterHosts cm clusterName priority hostConfigs).2 := by
  intro name v hv
  unfold UpdateClusterHosts at hv
  cases hl : GoMap.Load cm.primaryClusters clusterName with
  | none =>
    simp only [hl] at hv
    exact h name v hv
  | some old =>
    simp only [hl] at hv
    by_cases hm : old.cluster.inMem = true
    · simp only [hm, if_true] at hv
      rcases cluster_Load_Store_cases _ _ _ _ _ hv with rfl | hv'
      · exact h clusterName old hl
      · exact h name v hv'
    · simp only [hm, if_false] at hv
      exact h name v hv

/-- `RemoveClusterHosts` keeps the mark of every cluster. -/
theorem cluster_RemoveClusterHosts_ViaApi (cm : clusterManager) (clusterName : String)
    (host : Option Host) (h : ViaApi cm) :
    ViaApi (RemoveClusterHosts cm clusterName host).2 := by
  intro name v hv
  unfold RemoveClusterHosts at hv
  cases host with
  | none => exact h name v hv
  | some host =>
    simp only at hv
    cases hl : GoMap.Load cm.primaryClusters clusterName with
    | none =>
      simp only [hl] at hv
      exact h name v hv
    | some old =>
      simp only [hl] at hv
      by_cases hm : old.cluster.inMem = true
      · simp only [hm, if_true] at hv
        split at hv
        · rcases cluster_Load_Store_cases _ _ _ _ _ hv with rfl | hv'
          · exact h clusterName old hl
          · exact h name v hv'
        · exact h name v hv
      · simp only [hm, if_false] at hv
        exact h name v hv

/-- A pool lookup leaves the clusters alone. -/
theorem cluster_call_primaryClusters (l : Lookup) (cm : clusterManager) (chosen : Option Host)
    (name : String) :
    (l.call cm chosen name).2.primaryClusters = cm.primaryClusters := by
  cases l with
  | Http protocol =>
    simp only [Lookup.call, HttpConnPoolForCluster]
    cases getOrCreateClusterSnapshot cm name <;> cases chosen <;> cases protocol <;>
      simp only []
    all_goals split
    all_goals rfl
  | Xprotocol protocol =>
    simp only [Lookup.call, XprotocolConnPoolForCluster]
    cases getOrCreateClusterSnapshot cm name <;> cases chosen <;> simp only []
    all_goals split
    all_goals rfl
  | SofaRpc =>
    simp only [Lookup.call, SofaRpcConnPoolForCluster]
    cases getOrCreateClusterSnapshot cm name <;> cases chosen <;> simp only []
    all_goals split
    all_goals rfl

/-- Every call keeps all clusters marked as added via the API. -/
theorem cluster_Call_ViaApi (cm : clusterManager) (c : Call) (h : ViaApi cm) :
    ViaApi (c.apply cm) := by
  cases c with
  | AddOrUpdatePrimaryCluster cluster => exact cluster_AddOrUpdate_ViaApi cm cluster h
  | UpdateClusterHosts n pr hs => exact cluster_UpdateClusterHosts_ViaApi cm n pr hs h
  | RemoveClusterHosts n host => exact cluster_RemoveClusterHosts_ViaApi cm n host h
  | RemovePrimaryCluster n =>
    intro name v hv
    simp only [Call.apply, RemovePrimaryCluster] at hv
    cases hl : GoMap.Load cm.primaryClusters n with
    | none =>
      simp only [hl] at hv
      exact h name v hv
    | some old =>
      simp only [hl] at hv
      split at hv
      · exact h name v hv
      · exact h name v (cluster_Load_Delete_cases _ _ _ _ hv)
  | Lookup l chosen n =>
    intro name v hv
    simp only [Call.apply, cluster_call_primaryClusters] at hv
    exact h name v hv

/-- In the manager that `NewClusterManager` builds from the configured clusters, and
after any calls on it, every cluster is marked as added via the API. -/
theorem cluster_reachable_ViaApi (clusters : List v2.Cluster)
    (clusterMap : List (String × List v2.Host)) (calls : List Call) :
    ViaApi (calls.foldl Call.apply (NewClusterManager clusters clusterMap)) := by
  have hfold : ∀ (calls : List Call) (cm : clusterManager), ViaApi cm →
      ViaApi (calls.foldl Call.apply cm) := by
    intro calls
    induction calls with
    | nil => intro cm h; exact h
    | cons c rest ih => intro cm h; exact ih _ (cluster_Call_ViaApi cm c h)
  apply hfold
  unfold NewClusterManager
  have h0 : ViaApi { autoDiscovery := true } := by
    intro name v hv
    cases hv
  have h1 : ∀ (cs : List v2.Cluster) (cm : clusterManager), ViaApi cm →
      ViaApi (cs.foldl (fun cm cluster => (AddOrUpdatePrimaryCluster cm cluster).2) cm) := by
    intro cs
    induction cs with
    | nil => intro cm h; exact h
    | cons c rest ih => intro cm h; exact ih _ (cluster_AddOrUpdate_ViaApi cm c h)
  have h2 : ∀ (es : List (String × List v2.Host)) (cm : clusterManager), ViaApi cm →
      ViaApi (es.foldl (fun cm entry => (UpdateClusterHosts cm entry.1 0 entry.2).2) cm) := by
    intro es
    induction es with
    | nil => intro cm h; exact h
    | cons e rest ih =>
      intro cm h
      exact ih _ (cluster_UpdateClusterHosts_ViaApi cm e.1 0 e.2 h)
  exact h2 _ _ (h1 _ _ h0)

/-- `RemovePrimaryCluster` never refuses: in the manager built by `NewClusterManager`
and after any calls on it, it returns true for every name, and the name is gone
afterwards, whether the cluster came from the configuration or from the dynamic API. -/
theorem cluster_RemovePrimaryCluster_never_refuses (clusters : List v2.Cluster)
    (clusterMap : List (String × List v2.Host)) (calls : List Call) (name : String) :
    (RemovePrimaryCluster (calls.foldl Call.apply (NewClusterManager clusters clusterMap))
        name).1 = true ∧
    ClusterExist
        (RemovePrimaryCluster (calls.foldl Call.apply (NewClusterManager clusters clusterMap))
          name).2 name = false := by
  have h := cluster_reachable_ViaApi clusters clusterMap calls
  have hcases := (cluster_RemovePrimaryCluster_cases
    (calls.foldl Call.apply (NewClusterManager clusters clusterMap)) name).2
    (by
      rintro ⟨v, hv, hb⟩
      rw [h name v hv] at hb
      cases hb)
  exact ⟨hcases.1, hcases.2.1⟩

/-- Claim C23 fails on the code: a cluster that was not added via the dynamic API can be
removed. The example manager is built by `NewClusterManager` from the configured
cluster `c1`; `NewClusterManager` loads it through `AddOrUpdatePrimaryCluster`, which
marks every cluster as added via the API, so `RemovePrimaryCluster` of `c1` returns true
and the cluster is gone, where the claim has it return false and leave the cluster set
unchanged. -/
theorem C23_static_cluster_removed :
    (GoMap.Load exampleManager.primaryClusters "c1").map (fun v => v.addedViaApi) = some true ∧
    ClusterExist exampleManager "c1" = true ∧
    (RemovePrimaryCluster exampleManager "c1").1 = true ∧
    ClusterExist (RemovePrimaryCluster exampleManager "c1").2 "c1" = false := by
  exact ⟨by decide, by decide, by decide, by decide⟩

/-- Claim C24 fails on the code: `RemoveClusterHosts` edits the installed slice in
place. The example manager holds cluster `c1` with the hosts 0, 1, 2 in array 3.
Removing the host of address `10.0.0.1:80` returns nil and installs the hosts 1, 2, as
claimed; but `append(ccHosts[:i], ccHosts[i+1:]...)` has written them into the array of
the installed slice, so a reader still holding that slice now reads the hosts 1, 2, 2
where it read 0, 1, 2 before the call. -/
theorem C24_RemoveClusterHosts_edits_in_place :
    (getOrCreateClusterSnapshot exampleManager "c1").map
        (fun c => (c.hosts, c.hosts.elems exampleManager.heap))
      = some (⟨3, 0, 3, 3⟩,
          [⟨0, "10.0.0.1:80"⟩, ⟨1, "10.0.0.2:80"⟩, ⟨2, "10.0.0.3:80"⟩]) ∧
    (RemoveClusterHosts exampleManager "c1" (some ⟨0, "10.0.0.1:80"⟩)).1 = none ∧
    (getOrCreateClusterSnapshot
        (RemoveClusterHosts exampleManager "c1" (some ⟨0, "10.0.0.1:80"⟩)).2 "c1").map
        (fun c => c.hosts.elems
          (RemoveClusterHosts exampleManager "c1" (some ⟨0, "10.0.0.1:80"⟩)).2.heap)
      = some [⟨1, "10.0.0.2:80"⟩, ⟨2, "10.0.0.3:80"⟩] ∧
    Slice.elems (RemoveClusterHosts exampleManager "c1" (some ⟨0, "10.0.0.1:80"⟩)).2.heap
        ⟨3, 0, 3, 3⟩
      = [⟨1, "10.0.0.2:80"⟩, ⟨2, "10.0.0.3:80"⟩, ⟨2, "10.0.0.3:80"⟩] := by
  exact ⟨by decide, by decide, by decide, by decide⟩

end Cluster

/-! ### Host removal in general -/

section ClusterHosts

open cluster

/-- Writing the elements after position `j` of a window of an array over the elements
from `j` on shifts them to the left by one: the window of the old length reads the old
elements without the one at `j`, followed by the old last element. -/
theorem cluster_shift_old (arr : List Host) (o j len : Nat) (hj : j < len)
    (hlen : o + len ≤ arr.length) :
    ((arr.take (o + j) ++ (arr.drop (o + (j + 1))).take (len - (j + 1))
        ++ arr.drop (o + j + ((arr.drop (o + (j + 1))).take (len - (j + 1))).length)).drop
          o).take len
      = ((arr.drop o).take len).take j ++ ((arr.drop o).take len).drop (j + 1)
          ++ ((arr.drop o).take len).drop (len - 1) := by
  have hx : ((arr.drop (o + (j + 1))).take (len - (j + 1))).length = len - (j + 1) := by
    simp; omega
  rw [hx]
  have h1 : min (o + j) arr.length = o + j := by omega
  have h2 : min (len - (j + 1)) (arr.length - (o + (j + 1))) = len - (j + 1) := by omega
  have h3 : min len (arr.length - o) = len := by omega
  have h4 : min j len = j := by omega
  apply List.ext_getElem?
  intro n
  simp only [List.getElem?_take, List.getElem?_drop, List.getElem?_append, List.length_take,
    List.length_drop, List.length_append, h1, h2, h3, h4]
  split_ifs <;> first | rfl | omega | (congr 1; omega)

/-- After the same write, the window shortened by one reads the old elements without the
one at `j`. -/
theorem cluster_shift_new (arr : List Host) (o j len : Nat) (hj : j < len)
    (hlen : o + len ≤ arr.length) :
    ((arr.take (o + j) ++ (arr.drop (o + (j + 1))).take (len - (j + 1))
        ++ arr.drop (o + j + ((arr.drop (o + (j + 1))).take (len - (j + 1))).length)).drop
          o).take (j + (len - (j + 1)))
      = ((arr.drop o).take len).take j ++ ((arr.drop o).take len).drop (j + 1) := by
  have hx : ((arr.drop (o + (j + 1))).take (len - (j + 1))).length = len - (j + 1) := by
    simp; omega
  rw [hx]
  have h1 : min (o + j) arr.length = o + j := by omega
  have h2 : min (len - (j + 1)) (arr.length - (o + (j + 1))) = len - (j + 1) := by omega
  have h3 : min len (arr.length - o) = len := by omega
  have h4 : min j len = j := by omega
  apply List.ext_getElem?
  intro n
  simp only [List.getElem?_take, List.getElem?_drop, List.getElem?_append, List.length_take,
    List.length_drop, List.length_append, h1, h2, h3, h4]
  split_ifs <;> first | rfl | omega | (congr 1; omega)

/-- The index expression reads the elements of the slice. -/
theorem cluster_index_elems (heap : Heap) (s : Slice) (i : Nat) :
    s.index heap i = (s.elems heap)[i]? := by
  simp only [Slice.index, Slice.elems, List.getElem?_take, List.getElem?_drop]

/-- The loop of `RemoveClusterHosts` stops at the first host of the address, having
appended the hosts after it to the hosts before it. -/
theorem cluster_loop_found (host : Host) (heap : Heap) (s : Slice) (j : Nat) (h : Host)
    (hj : (s.elems heap)[j]? = some h) (ha : host.address = h.address)
    (hfirst : ∀ j', j' < j → ∀ h', (s.elems heap)[j']? = some h' → host.address ≠ h'.address)
    (fuel i : Nat) (hfuel : s.len ≤ i + fuel) (hi : i ≤ j) :
    RemoveClusterHosts.loop host heap s fuel i
      = ((append heap (s.slice 0 j) ((s.slice (j + 1) s.len).elems heap)).1, true,
          (append heap (s.slice 0 j) ((s.slice (j + 1) s.len).elems heap)).2) := by
  have hjlen : j < s.len := by
    have h1 : j < (s.elems heap).length := (List.getElem?_eq_some.1 hj).1
    have h2 : (s.elems heap).length ≤ s.len := by
      simp only [Slice.elems, List.length_take]
      omega
    omega
  induction fuel generalizing i with
  | zero => omega
  | succ fuel ih =>
    have hilen : i < s.len := by omega
    by_cases hij : i = j
    · subst hij
      simp [RemoveClusterHosts.loop, hilen, cluster_index_elems, hj, ha]
    · have hlt : i < j := by omega
      have hsome : ∃ h', (s.elems heap)[i]? = some h' := by
        have h1 : j < (s.elems heap).length := (List.getElem?_eq_some.1 hj).1
        exact ⟨_, List.getElem?_eq_getElem (by omega)⟩
      obtain ⟨h', hh'⟩ := hsome
      have hne := hfirst i hlt h' hh'
      simp only [RemoveClusterHosts.loop, hilen, if_true, cluster_index_elems, hh', hne, if_false]
      exact ih (i + 1) (by omega) (by omega)

/-- `RemoveClusterHosts` of a host whose address is first found at position `j` of an
in-memory cluster's hosts returns nil and installs the old hosts without the one at
`j`, in their order; and the slice installed before the call afterwards reads those
hosts followed by the old last host: it is edited in place, and a reader holding it sees
the old hosts only when the host removed was the last. -/
theorem cluster_RemoveClusterHosts_found (cm : clusterManager) (name : String)
    (v : primaryCluster) (host h : Host) (j : Nat)
    (hc : GoMap.Load cm.primaryClusters name = some v) (hm : v.cluster.inMem = true)
    (hv : v.cluster.hosts.Valid cm.heap)
    (hj : (v.cluster.hosts.elems cm.heap)[j]? = some h) (ha : host.address = h.address)
    (hfirst : ∀ j', j' < j → ∀ h', (v.cluster.hosts.elems cm.heap)[j']? = some h' →
      host.address ≠ h'.address) :
    (RemoveClusterHosts cm name (some host)).1 = none ∧
    (getOrCreateClusterSnapshot (RemoveClusterHosts cm name (some host)).2 name).map
        (fun c => c.hosts.elems (RemoveClusterHosts cm name (some host)).2.heap)
      = some ((v.cluster.hosts.elems cm.heap).take j
          ++ (v.cluster.hosts.elems cm.heap).drop (j + 1)) ∧
    v.cluster.hosts.elems (RemoveClusterHosts cm name (some host)).2.heap
      = (v.cluster.hosts.elems cm.heap).take j ++ (v.cluster.hosts.elems cm.heap).drop (j + 1)
          ++ (v.cluster.hosts.elems cm.heap).drop (v.cluster.hosts.len - 1) := by
  obtain ⟨harr, hlencap, hcap⟩ := hv
  have hjlen : j < v.cluster.hosts.len := by
    have h1 : j < (v.cluster.hosts.elems cm.heap).length := (List.getElem?_eq_some.1 hj).1
    have h2 : (v.cluster.hosts.elems cm.heap).length ≤ v.cluster.hosts.len := by
      simp only [Slice.elems, List.length_take]
      omega
    omega
  have hloop := cluster_loop_found host cm.heap v.cluster.hosts j h hj ha hfirst
    v.cluster.hosts.len 0 (by omega) (by omega)
  have hxs : ((v.cluster.hosts.slice (j + 1) v.cluster.hosts.len).elems cm.heap).length
      = v.cluster.hosts.len - (j + 1) := by
    simp only [Slice.elems, Slice.slice, List.length_take, List.length_drop]
    omega
  have hfit : (v.cluster.hosts.slice 0 j).len
      + ((v.cluster.hosts.slice (j + 1) v.cluster.hosts.len).elems cm.heap).length
      ≤ (v.cluster.hosts.slice 0 j).cap := by
    rw [hxs]
    simp only [Slice.slice]
    omega
  have happ : append cm.heap (v.cluster.hosts.slice 0 j)
      ((v.cluster.hosts.slice (j + 1) v.cluster.hosts.len).elems cm.heap)
      = ({ array := v.cluster.hosts.array, off := v.cluster.hosts.off,
           len := j + (v.cluster.hosts.len - (j + 1)), cap := v.cluster.hosts.cap },
         cm.heap.set v.cluster.hosts.array
          ((cm.heap.getD v.cluster.hosts.array []).take (v.cluster.hosts.off + j)
            ++ ((cm.heap.getD v.cluster.hosts.array []).drop
                (v.cluster.hosts.off + (j + 1))).take (v.cluster.hosts.len - (j + 1))
            ++ (cm.heap.getD v.cluster.hosts.array []).drop
                (v.cluster.hosts.off + j
                  + (((cm.heap.getD v.cluster.hosts.array []).drop
                      (v.cluster.hosts.off + (j + 1))).take
                        (v.cluster.hosts.len - (j + 1))).length))) := by
    simp only [append, hfit, if_true]
    simp only [Slice.slice, Slice.elems, Nat.add_zero, Nat.sub_zero, hxs]
    simp [Slice.elems, Slice.slice] at hxs
    simp [hxs]
  have hgetOld : ∀ (arr e : List Host),
      ((cm.heap.set v.cluster.hosts.array arr) ++ [e]).getD v.cluster.hosts.array [] = arr := by
    intro arr e
    rw [List.getD_eq_getElem?_getD, List.getElem?_append_left (by simpa using harr),
      List.getElem?_set_self (by simpa using harr)]
    rfl
  have hgetSet : ∀ (arr : List Host),
      (cm.heap.set v.cluster.hosts.array arr).getD v.cluster.hosts.array [] = arr := by
    intro arr
    rw [List.getD_eq_getElem?_getD, List.getElem?_set_self (by simpa using harr)]
    rfl
  have hgetNew : ∀ (heap : Heap) (e : List Host), (heap ++ [e]).getD heap.length [] = e := by
    intro heap e
    rw [List.getD_eq_getElem?_getD, List.getElem?_concat_length]
    rfl
  have hoff : v.cluster.hosts.off + v.cluster.hosts.len
      ≤ (cm.heap.getD v.cluster.hosts.array []).length := by omega
  refine ⟨?_, ?_, ?_⟩
  · simp [RemoveClusterHosts, hc, hm, hloop, happ]
  · simp only [RemoveClusterHosts, hc, hm, hloop, happ, if_true, UpdateHosts,
      getOrCreateClusterSnapshot, GoMap.Load_Store_self, Option.map_some']
    simp only [Slice.elems, hgetNew, hgetSet, List.drop_zero, List.take_length]
    rw [cluster_shift_new _ _ _ _ hjlen hoff]
  · simp only [RemoveClusterHosts, hc, hm, hloop, happ, if_true, UpdateHosts]
    simp only [Slice.elems, hgetOld]
    rw [cluster_shift_old _ _ _ _ hjlen hoff]

/-- The general statement on host removal at the example manager: removing the host of
address `10.0.0.2:80`, found at position 1, installs the hosts 0, 2 and leaves the slice
installed before reading the hosts 0, 2, 2. -/
theorem cluster_RemoveClusterHosts_found_example :
    (getOrCreateClusterSnapshot
        (RemoveClusterHosts exampleManager "c1" (some ⟨9, "10.0.0.2:80"⟩)).2 "c1").map
        (fun c => c.hosts.elems
          (RemoveClusterHosts exampleManager "c1" (some ⟨9, "10.0.0.2:80"⟩)).2.heap)
      = some [⟨0, "10.0.0.1:80"⟩, ⟨2, "10.0.0.3:80"⟩] ∧
    Slice.elems (RemoveClusterHosts exampleManager "c1" (some ⟨9, "10.0.0.2:80"⟩)).2.heap
        ⟨3, 0, 3, 3⟩
      = [⟨0, "10.0.0.1:80"⟩, ⟨2, "10.0.0.3:80"⟩, ⟨2, "10.0.0.3:80"⟩] := by
  have hv : (⟨3, 0, 3, 3⟩ : Slice).Valid exampleManager.heap :=
    ⟨by decide, by decide, by decide⟩
  have h := cluster_RemoveClusterHosts_found exampleManager "c1"
    ⟨{ name := "c1", hosts := ⟨3, 0, 3, 3⟩ }, true⟩ ⟨9, "10.0.0.2:80"⟩ ⟨1, "10.0.0.2:80"⟩ 1
    (by decide) rfl hv (by decide) rfl
    (by
      intro j' hj' h' hh'
      have h0 : j' = 0 := by omega
      subst h0
      have : h' = ⟨0, "10.0.0.1:80"⟩ := by
        have h2 : (Slice.elems exampleManager.heap ⟨3, 0, 3, 3⟩)[0]?
            = some ⟨0, "10.0.0.1:80"⟩ := by decide
        exact Option.some.inj (hh'.symm.trans h2)
      subst this
      decide)
  refine ⟨?_, ?_⟩
  · rw [h.2.1]; decide
  · have h3 := h.2.2
    simp only at h3
    rw [h3]; decide

end ClusterHosts

/-! ## The wasm decode command -/

section Wasm

open wasm

set_option maxRecDepth 100000 in
/-- A byte with bits 6 and 7 set has the command type 3. -/
theorem wasm_oneway_cmdType : ∀ n < 256,
    n &&& RpcOneWayRequestFlag = RpcOneWayRequestFlag → n >>> 6 = 3 := by
  decide

/-- A decode-command buffer whose flag byte has the bits of `RpcOneWayRequestFlag` set is
never decoded: once the flag byte and the id are read, `proxySetDecodeCommand` returns
`WasmResultBadArgument` and leaves the instance as it is. -/
theorem wasm_oneway_rejected (imp : Imports) (inst : WasmInstance)
    (bufferType start length ptr size : Int) (content : wasm.ByteSlice)
    (headerBytes id : Nat)
    (flag : UInt8)
    (hm : inst.GetMemory (ptr % 2 ^ 64).toNat (size % 2 ^ 64).toNat = some content)
    (hh : (sliceFromTo content 0 4).bind Uint32 = some headerBytes)
    (hf : content.bytes[(4 + headerBytes) % 2 ^ 32]? = some flag)
    (hi : (sliceFrom content ((5 + headerBytes) % 2 ^ 32)).bind Uint64 = some id)
    (hb : flag.toNat &&& RpcOneWayRequestFlag = RpcOneWayRequestFlag) :
    proxySetDecodeCommand imp inst bufferType start length ptr size
      = .ok (.BadArgument, inst) := by
  have h3 : flag.toNat >>> 6 = 3 := wasm_oneway_cmdType _ (UInt8.toNat_lt flag) hb
  simp only [proxySetDecodeCommand, hm, hh, hf, hi, h3, RequestType, RequestOneWayType,
    ResponseType]
  simp

/-- The general statement on one-way flags at the example buffer with the flag byte
`0xC0`. -/
theorem wasm_oneway_rejected_example :
    (proxySetDecodeCommand exampleImports (exampleInstance 0xC0) BufferTypeDecodeData
        0 0 0 27).toOption.map (fun r => r.1) = some .BadArgument := by
  rw [wasm_oneway_rejected exampleImports (exampleInstance 0xC0) BufferTypeDecodeData 0 0 0 27
    { bytes := exampleContent 0xC0 } 0 7 0xC0 (by decide) (by decide) (by decide) (by decide)
    (by decide)]
  rfl

/-- Claim C30 fails on the code: a one-way request is rejected, not decoded. The flag
`RpcOneWayRequestFlag` is `0xC0`, so the command type `flag >> 6` of a flag built from it
is 3, while `RequestOneWayType` is 2. On the well-formed example buffer with flag byte
`0xC0` (and with the heartbeat bit, `0xE0`) `proxySetDecodeCommand` returns
`WasmResultBadArgument` and sets no decode command, although `decodeWasmRequest` has a
branch that would keep the one-way flag. The same buffer with the flag byte
`RpcRequestFlag` is decoded to a request. -/
theorem C30_oneway_request_rejected :
    RpcOneWayRequestFlag = 0xC0 ∧ RpcOneWayRequestFlag >>> 6 = 3 ∧ RequestOneWayType = 2 ∧
    (proxySetDecodeCommand exampleImports (exampleInstance 0xC0) BufferTypeDecodeData
        0 0 0 27).toOption.map (fun r => (r.1, r.2.ctx))
      = some (.BadArgument, { decodeBuffer := some {}, decodeCmd := none }) ∧
    (proxySetDecodeCommand exampleImports (exampleInstance 0xE0) BufferTypeDecodeData
        0 0 0 27).toOption.map (fun r => (r.1, r.2.ctx))
      = some (.BadArgument, { decodeBuffer := some {}, decodeCmd := none }) ∧
    (proxySetDecodeCommand exampleImports (exampleInstance 0x40) BufferTypeDecodeData
        0 0 0 27).toOption.map (fun r => (r.1, r.2.ctx.decodeCmd))
      = some (.Ok, some (.request
          { Flag := RpcRequestFlag, Id := 7, headers := [], Timeout := 100, PayLoad := [1, 2],
            Data := [] })) := by
  exact ⟨by decide, by decide, by decide, by decide, by decide, by decide⟩

end Wasm

/-! ## The router: the request header pipeline -/

section Router

open router

/-- The value of a header after the `to_add` entries named like it, applied in order. -/
theorem router_add_fold (entries : List headerPair) (headers : Headers) (k : String) :
    GoMap.Load
        (entries.foldl
          (fun headers toAdd =>
            GoMap.Store headers toAdd.headerName
              (toAdd.value (GoMap.Load headers toAdd.headerName)))
          headers) k
      = (entries.filter (fun e => e.headerName = k)).foldl (fun cur e => some (e.value cur))
          (GoMap.Load headers k) := by
  induction entries generalizing headers with
  | nil => rfl
  | cons e es ih =>
    rw [List.foldl_cons, ih]
    by_cases hk : e.headerName = k
    · subst hk
      simp [GoMap.Load_Store_self]
    · have hk' : k ≠ e.headerName := Ne.symm hk
      simp [hk, GoMap.Load_Store_ne _ _ hk']

/-- Deleting other names leaves a header alone. -/
theorem router_remove_fold (names : List String) (headers : Headers) (k : String)
    (hk : k ∉ names) :
    GoMap.Load (names.foldl (fun headers name => GoMap.Delete headers name) headers) k
      = GoMap.Load headers k := by
  induction names generalizing headers with
  | nil => rfl
  | cons n ns ih =>
    rw [List.foldl_cons, ih _ (fun h => hk (List.mem_cons_of_mem _ h))]
    exact GoMap.Load_Delete_ne _ (fun h => hk (h ▸ List.mem_cons_self _ _))

/-- One level of the pipeline gives a header it does not remove the value of its
`to_add` entries named like it, applied in order. -/
theorem router_evaluateHeaders (h : Option headerParser) (headers : Headers) (k : String)
    (hk : k ∉ (h.map (fun h => h.headersToRemove)).getD []) :
    GoMap.Load (evaluateHeaders h headers) k
      = (((h.map (fun h => h.headersToAdd)).getD []).filter (fun e => e.headerName = k)).foldl
          (fun cur e => some (e.value cur)) (GoMap.Load headers k) := by
  cases h with
  | none => rfl
  | some h =>
    simp only [Option.map_some', Option.getD_some] at hk
    simp only [evaluateHeaders, Option.map_some', Option.getD_some]
    rw [router_remove_fold _ _ _ hk, router_add_fold]

/-- Claim C27: `FinalizeRequestHeaders` applies the `to_add` lists in the order rule
level, virtual-host level, global level, each list in its declared order: a header that
no level removes (and that a host rewrite does not set) ends with the value that the
entries named like it give in that order, an append entry joining its value to the
existing one with a comma and a level without a rewriter contributing no entry; so a
header that no entry names keeps its value. -/
theorem C27_request_header_pipeline (rri : RouteRuleImplBase) (headers : Headers) (k : String)
    (hr : k ∉ rri.requestRemoved) (hh : rri.hostRewrite.length = 0 ∨ k ≠ HostKey) :
    GoMap.Load (FinalizeRequestHeaders rri headers) k
      = (rri.requestEntries.filter (fun e => e.headerName = k)).foldl
          (fun cur e => some (e.value cur)) (GoMap.Load headers k) ∧
    ((∀ e ∈ rri.requestEntries, e.headerName ≠ k) →
      GoMap.Load (FinalizeRequestHeaders rri headers) k = GoMap.Load headers k) := by
  have main : GoMap.Load (FinalizeRequestHeaders rri headers) k
      = (rri.requestEntries.filter (fun e => e.headerName = k)).foldl
          (fun cur e => some (e.value cur)) (GoMap.Load headers k) := by
    simp only [RouteRuleImplBase.requestRemoved, List.mem_append, not_or] at hr
    obtain ⟨⟨hr1, hr2⟩, hr3⟩ := hr
    have hhost : ∀ hs : Headers,
        GoMap.Load (if rri.hostRewrite.length > 0 then GoMap.Store hs HostKey rri.hostRewrite
          else hs) k = GoMap.Load hs k := by
      intro hs
      rcases hh with h0 | hne
      · simp [h0]
      · split
        · exact GoMap.Load_Store_ne _ _ hne
        · rfl
    simp only [RouteRuleImplBase.requestEntries, List.filter_append, List.foldl_append]
    unfold FinalizeRequestHeaders
    cases hv : rri.vHost with
    | none =>
      simp only [Option.none_bind, Option.map_none', Option.getD_none, List.filter_nil,
        List.foldl_nil]
      rw [hhost, router_evaluateHeaders _ _ _ hr1]
    | some vHost =>
      rw [hv] at hr2 hr3
      simp only [Option.some_bind] at hr2 hr3
      simp only [Option.some_bind]
      cases hg : vHost.globalRouteConfig with
      | none =>
        simp only [Option.none_bind, Option.map_none', Option.getD_none, List.filter_nil,
          List.foldl_nil]
        rw [router_evaluateHeaders _ _ _ hr2, hhost, router_evaluateHeaders _ _ _ hr1]
      | some global =>
        rw [hg] at hr3
        simp only [Option.some_bind] at hr3
        simp only [Option.some_bind]
        rw [router_evaluateHeaders _ _ _ hr3, router_evaluateHeaders _ _ _ hr2, hhost,
          router_evaluateHeaders _ _ _ hr1]
  refine ⟨main, ?_⟩
  intro hnone
  rw [main]
  have : rri.requestEntries.filter (fun e => e.headerName = k) = [] := by
    rw [List.filter_eq_nil_iff]
    intro e he
    simpa using hnone e he
  rw [this]
  rfl

/-- Witness of C27: with the values 1, 2 and 3 appended to header `level` at the rule,
virtual-host and global level the header ends as `1,2,3`; without a rewriter at the
virtual-host level it ends as `1,3`; the header `host`, named by no entry, keeps its
value. -/
theorem C27_request_header_pipeline_witness :
    GoMap.Load (FinalizeRequestHeaders exampleRule [("host", "xxx.default.svc.cluster.local")])
        "level" = some "1,2,3" ∧
    GoMap.Load
        (FinalizeRequestHeaders exampleRuleNoVhost [("host", "xxx.default.svc.cluster.local")])
        "level" = some "1,3" ∧
    GoMap.Load (FinalizeRequestHeaders exampleRule [("host", "xxx.default.svc.cluster.local")])
        "host" = some "xxx.default.svc.cluster.local" := by
  have h1 := (C27_request_header_pipeline exampleRule
    [("host", "xxx.default.svc.cluster.local")] "level" (by decide) (Or.inl (by decide))).1
  have h2 := (C27_request_header_pipeline exampleRuleNoVhost
    [("host", "xxx.default.svc.cluster.local")] "level" (by decide) (Or.inl (by decide))).1
  have h3 := (C27_request_header_pipeline exampleRule
    [("host", "xxx.default.svc.cluster.local")] "host" (by decide) (Or.inl (by decide))).2
    (by decide)
  refine ⟨?_, ?_, ?_⟩
  · rw [h1]; decide
  · rw [h2]; decide
  · rw [h3]; decide

end Router

end Mosn
